import Mathlib

/-! Card expiration dates: package null, carddate.go

A shallow embedding of carddate.go together with the parts of the Go
standard library it runs through (regexp matching of the ten anchored
patterns, time.Parse, time.Date, Time.Format), followed by theorems about
the parser ParseExpToTime and the CardDate carrier.

Conventions of the embedding.

* A Go string is the list of its bytes (GoString), a byte being a Nat; len
  is List.length. No theorem needs the bound 255 on a byte.
* Go int and int64 values are Int. Wrap-around is written out where the
  library relies on it (the uint64 absolute clock and the int64 Unix
  clock); the remaining arithmetic of time.Date is exact for arguments
  below 2^62 in absolute value, which covers every call made by this
  package from parsed text.
* A Go (value, error) pair is a Lean pair whose second component is an
  Option, none standing for a nil error.
* time.Local is an argument (Local : Location) of every function that
  reaches time.Parse.
* Package time is followed in its classic formulation (absolute seconds
  counted from the year -292277022399, days cut into cycles of 400, 100, 4
  and 1 years). The shortcut that time.Parse takes for the two RFC 3339
  layouts returns what the general loop returns and is not represented.
* Loops of the library whose number of turns is bounded by the length of a
  layout are functions of a bound on the turns; the theorems parseLoop_fuel,
  skipLoop_fuel and formatLoop_fuel show that the bound is immaterial.
-/

namespace Null

/-! ## Strings -/

/-- A Go string, as the sequence of its bytes. -/
abbrev GoString := List Nat

/-- The bytes of an ASCII literal. -/
def str (s : String) : GoString := s.toList.map Char.toNat

/-- Go strings.HasPrefix: whether s begins with p. -/
def hasPre : GoString → GoString → Bool
  | _, [] => true
  | [], _ :: _ => false
  | c :: s, d :: p => c == d && hasPre s p

/-- Go strings.Contains: whether sub occurs in s. -/
def stringsContains : GoString → GoString → Bool
  | [], sub => sub.isEmpty
  | c :: s, sub => hasPre (c :: s) sub || stringsContains s sub

/-- Go strings.TrimPrefix. -/
def stringsTrimPre (s p : GoString) : GoString :=
  if hasPre s p then s.drop p.length else s

/-- Go strings.HasSuffix: whether s ends with suf. -/
def hasSuf (s suf : GoString) : Bool := hasPre s.reverse suf.reverse

/-- Go strings.TrimSuffix. -/
def stringsTrimSuf (s suf : GoString) : GoString :=
  if hasSuf s suf then s.take (s.length - suf.length) else s

/-- The scan of strings.Replace with a negative count and a non-empty old:
skipping is the number of bytes still to pass of the occurrence of old that
was found last. -/
def replaceFrom (old new : GoString) : Nat → GoString → GoString
  | _, [] => []
  | skipping + 1, _ :: s => replaceFrom old new skipping s
  | 0, c :: s =>
    if hasPre (c :: s) old then new ++ replaceFrom old new (old.length - 1) s
    else c :: replaceFrom old new 0 s

/-- Go strings.Replace with a negative count, for a non-empty old: the
occurrences of old that do not overlap, found from the left, are replaced by
new. -/
def stringsReplaceAll (s old new : GoString) : GoString := replaceFrom old new 0 s

/-- Truncated division of Go ints. -/
def goDiv (a b : Int) : Int := Int.tdiv a b

/-- Truncated remainder of Go ints (the sign follows the dividend). -/
def goRem (a b : Int) : Int := Int.tmod a b

/-- Conversion to int64: reduction into the range -2^63 .. 2^63 - 1. -/
def wrapInt64 (x : Int) : Int :=
  (x + 9223372036854775808) % 18446744073709551616 - 9223372036854775808

/-- Conversion to uint64: reduction modulo 2^64. -/
def wrapUint64 (x : Int) : Nat := (x % 18446744073709551616).toNat

/-! ## The anchored patterns of carddate.go

Every pattern of the file has the shape `^( ... $)` and is a concatenation of
bounded repetitions of a character class, with one `.` in the nanosecond
pattern. A pattern is embedded as the list of its pieces. -/

/-- One piece of a pattern: a class repeated between min and max times, or
the wildcard `.` (any one rune but the newline). -/
inductive Piece where
  | rep (cls : Nat → Bool) (min max : Nat)
  | dot

/-- Width in bytes of the first rune of s as utf8.DecodeRuneInString reports
it: 1 for ASCII and for an invalid encoding, else the length of the valid
encoding. -/
def runeWidth : GoString → Nat
  | [] => 0
  | b0 :: rest =>
    let cont := fun (b : Nat) => decide (128 ≤ b ∧ b ≤ 191)
    if b0 < 128 then 1
    else if 194 ≤ b0 ∧ b0 ≤ 223 then
      match rest with
      | b1 :: _ => if cont b1 then 2 else 1
      | _ => 1
    else if 224 ≤ b0 ∧ b0 ≤ 239 then
      match rest with
      | b1 :: b2 :: _ =>
        let lo := if b0 = 224 then 160 else 128
        let hi := if b0 = 237 then 159 else 191
        if lo ≤ b1 ∧ b1 ≤ hi ∧ cont b2 then 3 else 1
      | _ => 1
    else if 240 ≤ b0 ∧ b0 ≤ 244 then
      match rest with
      | b1 :: b2 :: b3 :: _ =>
        let lo := if b0 = 240 then 144 else 128
        let hi := if b0 = 244 then 143 else 191
        if lo ≤ b1 ∧ b1 ≤ hi ∧ cont b2 ∧ cont b3 then 4 else 1
      | _ => 1
    else 1

/-- Up to n further bytes of the class, then the continuation k. -/
def repOpt (cls : Nat → Bool) (k : GoString → Bool) : Nat → GoString → Bool
  | 0, s => k s
  | n + 1, s =>
    k s || (match s with
      | [] => false
      | c :: cs => cls c && repOpt cls k n cs)

/-- Exactly n bytes of the class, then the continuation k. -/
def repReq (cls : Nat → Bool) (k : GoString → Bool) : Nat → GoString → Bool
  | 0, s => k s
  | _ + 1, [] => false
  | n + 1, c :: cs => cls c && repReq cls k n cs

/-- Whether the whole of s is matched by the pieces in sequence. -/
def matchPieces : List Piece → GoString → Bool
  | [], s => s.isEmpty
  | Piece.rep cls mn mx :: ps, s =>
    repReq cls (repOpt cls (matchPieces ps) (mx - mn)) mn s
  | Piece.dot :: ps, s =>
    match s with
    | [] => false
    | c :: _ => c != 10 && matchPieces ps (s.drop (runeWidth s))

/-- Go Regexp.MatchString for an anchored pattern given by its pieces. -/
def MatchString (re : List Piece) (s : GoString) : Bool := matchPieces re s

/-- Class `[0-9]`. -/
def clsDigit (c : Nat) : Bool := decide (48 ≤ c ∧ c ≤ 57)

/-- Class `[A-Za-z]`. -/
def clsAlpha (c : Nat) : Bool := decide ((65 ≤ c ∧ c ≤ 90) ∨ (97 ≤ c ∧ c ≤ 122))

/-- Class `[A-Z]`. -/
def clsUpper (c : Nat) : Bool := decide (65 ≤ c ∧ c ≤ 90)

/-- Class `[Tt]`. -/
def clsTt (c : Nat) : Bool := decide (c = 84 ∨ c = 116)

/-- Class `[Zz+-:0-9]`: Z, z, the range from + to : (which holds the
digits, the comma, the minus sign, the period and the slash), and 0-9. -/
def clsZone (c : Nat) : Bool :=
  decide (c = 90 ∨ c = 122 ∨ (43 ≤ c ∧ c ≤ 58) ∨ (48 ≤ c ∧ c ≤ 57))

/-- Classes `[-+]` and `[+-]`. -/
def clsSign (c : Nat) : Bool := decide (c = 45 ∨ c = 43)

/-- Class `[0-9_ ]`. -/
def clsDay (c : Nat) : Bool := decide ((48 ≤ c ∧ c ≤ 57) ∨ c = 95 ∨ c = 32)

/-- A literal character of a pattern. -/
def lit (ch : Char) : Piece := Piece.rep (fun c => c == ch.toNat) 1 1

/-- Piece `[0-9]{n}`. -/
def digits (n : Nat) : Piece := Piece.rep clsDigit n n

/-- Piece `[A-Za-z]{n}`. -/
def alphas (n : Nat) : Piece := Piece.rep clsAlpha n n

/-- Pieces of `[0-9]{2}:[0-9]{2}:[0-9]{2}`. -/
def hms : List Piece := [digits 2, lit ':', digits 2, lit ':', digits 2]

/-- Pattern `^([0-9]{4}-[0-9]{2}-[0-9]{2}[Tt][0-9]{2}:[0-9]{2}:[0-9]{2}[Zz+-:0-9]{1,6}$)`. -/
def cardDateRFC3339Regex : List Piece :=
  [digits 4, lit '-', digits 2, lit '-', digits 2, Piece.rep clsTt 1 1] ++ hms ++
  [Piece.rep clsZone 1 6]

/-- Pattern `^([0-9]{4}-[0-9]{2}-[0-9]{2}[Tt][0-9]{2}:[0-9]{2}:[0-9]{2}.[0-9]{7,9}[Zz+-:0-9]{1,6}$)`. -/
def cardDateRFC3339NanoRegex : List Piece :=
  [digits 4, lit '-', digits 2, lit '-', digits 2, Piece.rep clsTt 1 1] ++ hms ++
  [Piece.dot, Piece.rep clsDigit 7 9, Piece.rep clsZone 1 6]

/-- Pattern `^([A-Za-z]{3}, [0-9]{2} [A-Za-z]{3} [0-9]{4} [0-9]{2}:[0-9]{2}:[0-9]{2} [A-Za-z]{3,4}$)`. -/
def cardDateRFC1123Regex : List Piece :=
  [alphas 3, lit ',', lit ' ', digits 2, lit ' ', alphas 3, lit ' ', digits 4, lit ' '] ++
  hms ++ [lit ' ', Piece.rep clsAlpha 3 4]

/-- Pattern `^([A-Za-z]{3}, [0-9]{2} [A-Za-z]{3} [0-9]{4} [0-9]{2}:[0-9]{2}:[0-9]{2} [-+]{1}[0-9]{4}$)`. -/
def cardDateRFC1123ZRegex : List Piece :=
  [alphas 3, lit ',', lit ' ', digits 2, lit ' ', alphas 3, lit ' ', digits 4, lit ' '] ++
  hms ++ [lit ' ', Piece.rep clsSign 1 1, digits 4]

/-- Pattern `^([0-9]{2} [A-Za-z]{3} [0-9]{2} [0-9]{2}:[0-9]{2} [-+]{1}[0-9]{4}$)`. -/
def cardDateRFC822ZRegex : List Piece :=
  [digits 2, lit ' ', alphas 3, lit ' ', digits 2, lit ' ', digits 2, lit ':', digits 2,
   lit ' ', Piece.rep clsSign 1 1, digits 4]

/-- Pattern `^([0-9]{2} [A-Za-z]{3} [0-9]{2} [0-9]{2}:[0-9]{2} [A-Za-z]{3,4}$)`. -/
def cardDateRFC822Regex : List Piece :=
  [digits 2, lit ' ', alphas 3, lit ' ', digits 2, lit ' ', digits 2, lit ':', digits 2,
   lit ' ', Piece.rep clsAlpha 3 4]

/-- Pattern `^([A-Za-z]{6,9}, [0-9]{2}-[A-Za-z]{3}-[0-9]{2} [0-9]{2}:[0-9]{2}:[0-9]{2} [A-Z]{3,4}$)`. -/
def cardDateRFC850Regex : List Piece :=
  [Piece.rep clsAlpha 6 9, lit ',', lit ' ', digits 2, lit '-', alphas 3, lit '-', digits 2,
   lit ' '] ++ hms ++ [lit ' ', Piece.rep clsUpper 3 4]

/-- Pattern `^([A-Za-z]{3} [A-Za-z]{3} [0-9]{2} [0-9]{2}:[0-9]{2}:[0-9]{2} [+-][0-9]{4} [0-9]{4}$)`. -/
def cardDateRubyFormatRegex : List Piece :=
  [alphas 3, lit ' ', alphas 3, lit ' ', digits 2, lit ' '] ++ hms ++
  [lit ' ', Piece.rep clsSign 1 1, digits 4, lit ' ', digits 4]

/-- Pattern `^([A-Za-z]{3} [A-Za-z]{3} [0-9_ ]{1,2} [0-9]{2}:[0-9]{2}:[0-9]{2} [A-Za-z]{3,4} [0-9]{4}$)`. -/
def cardDateUnixFormatRegex : List Piece :=
  [alphas 3, lit ' ', alphas 3, lit ' ', Piece.rep clsDay 1 2, lit ' '] ++ hms ++
  [lit ' ', Piece.rep clsAlpha 3 4, lit ' ', digits 4]

/-- Pattern `^([A-Za-z]{3} [A-Za-z]{3} [0-9_ ]{1,2} [0-9]{2}:[0-9]{2}:[0-9]{2} [0-9]{4}$)`. -/
def cardDateANSICFormatRegex : List Piece :=
  [alphas 3, lit ' ', alphas 3, lit ' ', Piece.rep clsDay 1 2, lit ' '] ++ hms ++
  [lit ' ', digits 4]

/-! ## package time: locations, instants, the civil calendar -/

/-- What Location.lookup reports for an instant: the zone abbreviation in
effect, its offset in seconds east of UTC, and the Unix seconds at which the
zone starts and stops being in effect. -/
structure zoneSpan where
  name : GoString
  offset : Int
  start : Int
  stop : Int

/-- A zone of a Location: abbreviation and offset east of UTC. -/
structure zone where
  name : GoString
  offset : Int
  isDST : Bool
deriving DecidableEq

/-- A time.Location other than UTC. The transition table, its cache and the
extension rule are represented by the function lookup they implement. -/
structure Location where
  name : GoString
  zone : List zone
  lookup : Int → zoneSpan

/-- A `*Location` as stored in a Time: none is UTC (Go stores nil for it). -/
abbrev Loc := Option Location

/-- The location time.UTC. -/
def UTC : Loc := none

/-- The least int64, used by package time as the start of an unbounded zone. -/
def alpha : Int := -9223372036854775808

/-- The greatest int64, used by package time as the stop of an unbounded zone. -/
def omega : Int := 9223372036854775807

/-- Go Location.lookup through a stored location: UTC has no zones and
reports the zone UTC with offset 0 for every instant. -/
def Loc.lookup (l : Loc) (sec : Int) : zoneSpan :=
  match l with
  | none => { name := str "UTC", offset := 0, start := alpha, stop := omega }
  | some loc => loc.lookup sec

/-- Go Location.lookupName: the offset of the zone abbreviation name, first
among the zones in effect at the given time, then among all zones. -/
def Location.lookupName (l : Location) (name : GoString) (unix : Int) : Option Int :=
  match l.zone.find? (fun z => z.name == name && (l.lookup (unix - z.offset)).name == z.name) with
  | some z => some (l.lookup (unix - z.offset)).offset
  | none =>
    match l.zone.find? (fun z => z.name == name) with
    | some z => some z.offset
    | none => none

/-- Go time.FixedZone. -/
def FixedZone (name : GoString) (offset : Int) : Location :=
  { name := name
    zone := [{ name := name, offset := offset, isDST := false }]
    lookup := fun _ => { name := name, offset := offset, start := alpha, stop := omega } }

/-- A time.Time: seconds since January 1 of year 1, 00:00:00 UTC, nanoseconds
within the second, and the location. The monotonic clock reading is not
represented: no value of this package carries one through Parse or Date. -/
structure Time where
  sec : Int
  nsec : Int
  loc : Loc

/-- The zero Time, `time.Time{}`: January 1, year 1, 00:00:00 UTC. -/
def Time.zero : Time := { sec := 0, nsec := 0, loc := none }

def secondsPerDay : Int := 86400
def daysPer400Years : Nat := 146097
def daysPer100Years : Nat := 36524
def daysPer4Years : Nat := 1461
def absoluteZeroYear : Int := -292277022399
def absoluteToInternal : Int := -9223371966579724800
def internalToAbsolute : Int := 9223371966579724800
def unixToInternal : Int := 62135596800
def internalToUnix : Int := -62135596800

/-- Table daysBefore of package time: days in a non-leap year before month m+1. -/
def daysBeforeTab : List Int := [0, 31, 59, 90, 120, 151, 181, 212, 243, 273, 304, 334, 365]

/-- Entry `daysBefore[i]`. -/
def daysBefore (i : Int) : Int := daysBeforeTab.getD i.toNat 0

/-- Go isLeap. -/
def isLeap (year : Int) : Bool :=
  goRem year 4 == 0 && (goRem year 100 != 0 || goRem year 400 == 0)

/-- Go Time.unixSec. -/
def Time.unixSec (t : Time) : Int := wrapInt64 (t.sec + internalToUnix)

/-- Go Time.abs: seconds since the absolute zero year in the location of t,
as a uint64. -/
def Time.abs (t : Time) : Nat :=
  let sec := t.unixSec
  let sec := match t.loc with
    | none => sec
    | some l => sec + (l.lookup sec).offset
  wrapUint64 (sec + (unixToInternal + internalToAbsolute))

/-- Year and day of the year (from 0) of an absolute time: the first half of
Go absDate. -/
def absYear (abs : Nat) : Int × Nat :=
  let d := abs / 86400
  -- Account for 400 year cycles.
  let n := d / daysPer400Years
  let y := 400 * n
  let d := d - daysPer400Years * n
  -- Cut off 100-year cycles; the last cycle has a missing leap year.
  let n := d / daysPer100Years
  let n := n - n / 4
  let y := y + 100 * n
  let d := d - daysPer100Years * n
  -- Cut off 4-year cycles.
  let n := d / daysPer4Years
  let y := y + 4 * n
  let d := d - daysPer4Years * n
  -- Cut off years within a 4-year cycle.
  let n := d / 365
  let n := n - n / 4
  let y := y + n
  let d := d - 365 * n
  ((y : Int) + absoluteZeroYear, d)

/-- Go absDate with full = true: year, month, day of the month and day of
the year (from 0). -/
def absDate (abs : Nat) : Int × Int × Int × Int :=
  let (year, ydayN) := absYear abs
  let yday : Int := ydayN
  let day := yday
  if isLeap year && day == 31 + 29 - 1 then
    (year, 2, 29, yday)
  else
    let day := if isLeap year && day > 31 + 29 - 1 then day - 1 else day
    -- Estimate month on assumption that every month has 31 days.
    let month := day / 31
    let stop := daysBefore (month + 1)
    let (month, start) := if day ≥ stop then (month + 1, stop) else (month, daysBefore month)
    (year, month + 1, day - start + 1, yday)

/-- Go Time.Year. -/
def Time.Year (t : Time) : Int := (absYear t.abs).1

/-- Go Time.Month, January being 1. -/
def Time.Month (t : Time) : Int := (absDate t.abs).2.1

/-- Go Time.Day. -/
def Time.Day (t : Time) : Int := (absDate t.abs).2.2.1

/-- Go absClock: hour, minute and second of an absolute time. -/
def absClock (abs : Nat) : Int × Int × Int :=
  let sec := abs % 86400
  let hour := sec / 3600
  let sec := sec - hour * 3600
  let min := sec / 60
  let sec := sec - min * 60
  (hour, min, sec)

/-- Go absWeekday, Sunday being 0. -/
def absWeekday (abs : Nat) : Nat := ((abs + 1 * 86400) % (7 * 86400)) / 86400

/-- Go Time.setLoc; UTC is stored as nil, which Loc represents already. -/
def Time.setLoc (t : Time) (loc : Loc) : Time := { t with loc := loc }

/-- Go Time.UTC: the same instant with the location set to UTC. -/
def Time.UTC (t : Time) : Time := t.setLoc Null.UTC

/-- Go Time.addSec, which saturates at the ends of the int64 range. -/
def Time.addSec (t : Time) (d : Int) : Time :=
  let sum := wrapInt64 (t.sec + d)
  if decide (sum > t.sec) == decide (d > 0) then { t with sec := sum }
  else if d > 0 then { t with sec := 9223372036854775807 }
  else { t with sec := -9223372036854775807 }

/-- Go unixTime, before the location is set. -/
def unixTime (sec nsec : Int) : Time :=
  { sec := wrapInt64 (sec + unixToInternal), nsec := nsec, loc := none }

/-- Go norm: the pair (hi, lo) with lo brought into the range 0 .. base-1. -/
def norm (hi lo base : Int) : Int × Int :=
  let (hi, lo) :=
    if lo < 0 then
      let n := goDiv (-lo - 1) base + 1
      (hi - n, lo + n * base)
    else (hi, lo)
  if lo ≥ base then
    let n := goDiv lo base
    (hi + n, lo - n * base)
  else (hi, lo)

/-- Go daysSinceEpoch: days from the absolute epoch to the start of year. -/
def daysSinceEpoch (year : Int) : Nat :=
  let y := wrapUint64 (year - absoluteZeroYear)
  -- Add in days from 400-year cycles.
  let n := y / 400
  let y := y - 400 * n
  let d := daysPer400Years * n
  -- Add in 100-year cycles.
  let n := y / 100
  let y := y - 100 * n
  let d := d + daysPer100Years * n
  -- Add in 4-year cycles.
  let n := y / 4
  let y := y - 4 * n
  let d := d + daysPer4Years * n
  -- Add in non-leap years.
  d + 365 * y

/-- Go time.Date. The day count and the absolute seconds are uint64 in Go and
the Unix seconds int64; the sum is formed exactly here and reduced once. -/
def Date (year month day hour min sec nsec : Int) (loc : Loc) : Time :=
  -- Normalize month, overflowing into year.
  let m := month - 1
  let (year, m) := norm year m 12
  let month := m + 1
  -- Normalize nsec, sec, min, hour, overflowing into day.
  let (sec, nsec) := norm sec nsec 1000000000
  let (min, sec) := norm min sec 60
  let (hour, min) := norm hour min 60
  let (day, hour) := norm day hour 24
  -- Compute days since the absolute epoch.
  let d : Int := daysSinceEpoch year
  -- Add in days before this month.
  let d := d + daysBefore (month - 1)
  let d := if isLeap year && month ≥ 3 then d + 1 else d
  -- Add in days before today.
  let d := d + (day - 1)
  -- Add in time elapsed today.
  let abs := d * secondsPerDay + (hour * 3600 + min * 60 + sec)
  let unix := wrapInt64 (abs + (absoluteToInternal + internalToUnix))
  -- Look for zone offset for expected time, so we can adjust to UTC.
  let span := loc.lookup unix
  let unix :=
    if span.offset ≠ 0 then
      let utc := unix - span.offset
      let offset :=
        if utc < span.start ∨ utc ≥ span.stop then (loc.lookup utc).offset else span.offset
      unix - offset
    else unix
  (unixTime unix nsec).setLoc loc

/-- Go daysIn: the number of days of month m in the given year. -/
def daysIn (m year : Int) : Int :=
  if m == 2 && isLeap year then 29 else daysBefore m - daysBefore (m - 1)

/-- Go Time.AddDate; the sums are formed in int. -/
def Time.AddDate (t : Time) (years months days : Int) : Time :=
  let (year, month, day, _) := absDate t.abs
  let (hour, min, sec) := absClock t.abs
  Date (wrapInt64 (year + years)) (wrapInt64 (month + months)) (wrapInt64 (day + days))
    hour min sec t.nsec t.loc

/-! ## package time: layouts -/

/-- The layout elements recognised by nextStdChunk; none is Go's 0 (no
further element). The two fractional-second elements carry the number of
digits and the separator byte. -/
inductive Std where
  | none
  | stdLongMonth | stdMonth | stdNumMonth | stdZeroMonth
  | stdLongWeekDay | stdWeekDay
  | stdDay | stdUnderDay | stdZeroDay | stdUnderYearDay | stdZeroYearDay
  | stdHour | stdHour12 | stdZeroHour12
  | stdMinute | stdZeroMinute | stdSecond | stdZeroSecond
  | stdLongYear | stdYear
  | stdPM | stdpm
  | stdTZ
  | stdISO8601TZ | stdISO8601SecondsTZ | stdISO8601ShortTZ
  | stdISO8601ColonTZ | stdISO8601ColonSecondsTZ
  | stdNumTZ | stdNumSecondsTz | stdNumShortTZ | stdNumColonTZ | stdNumColonSecondsTZ
  | stdFracSecond0 (digits sep : Nat)
  | stdFracSecond9 (digits sep : Nat)
deriving DecidableEq

/-- Go isDigit(s, 0): whether s starts with a decimal digit. -/
def isDigit0 : GoString → Bool
  | [] => false
  | c :: _ => decide (48 ≤ c ∧ c ≤ 57)

/-- Go isDigit(s, i). -/
def isDigit (s : GoString) (i : Nat) : Bool := isDigit0 (s.drop i)

/-- Go startsWithLowerCase. -/
def startsWithLowerCase : GoString → Bool
  | [] => false
  | c :: _ => decide (97 ≤ c ∧ c ≤ 122)

/-- Table std0x: the elements written 01 .. 06. -/
def std0x : List Std :=
  [Std.stdZeroMonth, Std.stdZeroDay, Std.stdZeroHour12, Std.stdZeroMinute,
   Std.stdZeroSecond, Std.stdYear]

/-- One turn of the scan of nextStdChunk at the position where l starts: the
number of bytes of l that still belong to the literal text before the element
(1 for `_2006`, else 0), the element, and the layout after it; none when no
element starts here. -/
def stdChunkAt (l : GoString) : Option (Nat × Std × GoString) :=
  match l with
  | [] => Option.none
  | c :: rest =>
    if c = 'J'.toNat then -- January, Jan
      if hasPre l (str "Jan") then
        if hasPre l (str "January") then some (0, Std.stdLongMonth, l.drop 7)
        else if !startsWithLowerCase (l.drop 3) then some (0, Std.stdMonth, l.drop 3)
        else Option.none
      else Option.none
    else if c = 'M'.toNat then -- Monday, Mon, MST
      if hasPre l (str "Mon") then
        if hasPre l (str "Monday") then some (0, Std.stdLongWeekDay, l.drop 6)
        else if !startsWithLowerCase (l.drop 3) then some (0, Std.stdWeekDay, l.drop 3)
        else Option.none
      else if hasPre l (str "MST") then some (0, Std.stdTZ, l.drop 3)
      else Option.none
    else if c = '0'.toNat then -- 01, 02, 03, 04, 05, 06, 002
      match rest with
      | d :: rest2 =>
        if '1'.toNat ≤ d ∧ d ≤ '6'.toNat then
          some (0, std0x.getD (d - '1'.toNat) Std.none, rest2)
        else if hasPre l (str "002") then some (0, Std.stdZeroYearDay, l.drop 3)
        else Option.none
      | [] => Option.none
    else if c = '1'.toNat then -- 15, 1
      if hasPre l (str "15") then some (0, Std.stdHour, l.drop 2)
      else some (0, Std.stdNumMonth, rest)
    else if c = '2'.toNat then -- 2006, 2
      if hasPre l (str "2006") then some (0, Std.stdLongYear, l.drop 4)
      else some (0, Std.stdDay, rest)
    else if c = '_'.toNat then -- _2, _2006, __2
      if hasPre l (str "_2") then
        -- _2006 is really a literal _, followed by stdLongYear
        if hasPre l (str "_2006") then some (1, Std.stdLongYear, l.drop 5)
        else some (0, Std.stdUnderDay, l.drop 2)
      else if hasPre l (str "__2") then some (0, Std.stdUnderYearDay, l.drop 3)
      else Option.none
    else if c = '3'.toNat then some (0, Std.stdHour12, rest)
    else if c = '4'.toNat then some (0, Std.stdMinute, rest)
    else if c = '5'.toNat then some (0, Std.stdSecond, rest)
    else if c = 'P'.toNat then -- PM
      if hasPre l (str "PM") then some (0, Std.stdPM, l.drop 2) else Option.none
    else if c = 'p'.toNat then -- pm
      if hasPre l (str "pm") then some (0, Std.stdpm, l.drop 2) else Option.none
    else if c = '-'.toNat then -- -070000, -07:00:00, -0700, -07:00, -07
      if hasPre l (str "-070000") then some (0, Std.stdNumSecondsTz, l.drop 7)
      else if hasPre l (str "-07:00:00") then some (0, Std.stdNumColonSecondsTZ, l.drop 9)
      else if hasPre l (str "-0700") then some (0, Std.stdNumTZ, l.drop 5)
      else if hasPre l (str "-07:00") then some (0, Std.stdNumColonTZ, l.drop 6)
      else if hasPre l (str "-07") then some (0, Std.stdNumShortTZ, l.drop 3)
      else Option.none
    else if c = 'Z'.toNat then -- Z070000, Z07:00:00, Z0700, Z07:00, Z07
      if hasPre l (str "Z070000") then some (0, Std.stdISO8601SecondsTZ, l.drop 7)
      else if hasPre l (str "Z07:00:00") then some (0, Std.stdISO8601ColonSecondsTZ, l.drop 9)
      else if hasPre l (str "Z0700") then some (0, Std.stdISO8601TZ, l.drop 5)
      else if hasPre l (str "Z07:00") then some (0, Std.stdISO8601ColonTZ, l.drop 6)
      else if hasPre l (str "Z07") then some (0, Std.stdISO8601ShortTZ, l.drop 3)
      else Option.none
    else if c = '.'.toNat ∨ c = ','.toNat then
      -- ,000, or .000, or ,999, or .999 - repeated digits for fractional seconds.
      match rest with
      | ch :: _ =>
        if ch = '0'.toNat ∨ ch = '9'.toNat then
          let run := rest.takeWhile (fun b => b == ch)
          let after := rest.dropWhile (fun b => b == ch)
          -- String of digits must end here - only fractional second is all digits.
          if !isDigit0 after then
            some (0, (if ch = '9'.toNat then Std.stdFracSecond9 run.length c
                      else Std.stdFracSecond0 run.length c), after)
          else Option.none
        else Option.none
      | [] => Option.none
    else Option.none

/-- The scan of nextStdChunk from a position of the layout on, seen being
the bytes passed over so far. -/
def nextStdChunkFrom (seen : GoString) : GoString → GoString × Std × GoString
  | [] => (seen, Std.none, [])
  | c :: rest =>
    match stdChunkAt (c :: rest) with
    | some (k, std, suffix) => (seen ++ (c :: rest).take k, std, suffix)
    | Option.none => nextStdChunkFrom (seen ++ [c]) rest

/-- Go nextStdChunk: the text before the first layout element, the element
and the layout after it. -/
def nextStdChunk (layout : GoString) : GoString × Std × GoString :=
  nextStdChunkFrom [] layout

/-! ## package time: Parse -/

/-- Go time.ParseError. -/
structure ParseError where
  Layout : GoString
  Value : GoString
  LayoutElem : GoString
  ValueElem : GoString
  Message : GoString
deriving DecidableEq

/-- A hexadecimal digit, from the table lowerhex. -/
def lowerhex (n : Nat) : Nat := if n < 10 then 48 + n else 87 + n

/-- Go quote of package time: s between double quotes, with the double
quote and the backslash escaped and every byte below the space or above
ASCII written as a hexadecimal escape. -/
def quote (s : GoString) : GoString :=
  [34] ++ s.flatMap (fun c =>
    if c ≥ 128 ∨ c < 32 then [92, 120, lowerhex (c / 16), lowerhex (c % 16)]
    else if c = 34 ∨ c = 92 then [92, c]
    else [c]) ++ [34]

/-- Go ParseError.Error: the text of the error. -/
def ParseError.Error (e : ParseError) : GoString :=
  if e.Message = [] then
    str "parsing time " ++ quote e.Value ++ str " as " ++ quote e.Layout ++
      str ": cannot parse " ++ quote e.ValueElem ++ str " as " ++ quote e.LayoutElem
  else
    str "parsing time " ++ quote e.Value ++ e.Message

/-- Go cutspace: s without its leading spaces. -/
def cutspace (s : GoString) : GoString := s.dropWhile (fun c => c == 32)

/-- The loop of Go skip, with a bound on the number of turns: the value
reached and whether the literal text pre was matched (false is errBad). A
space of pre stands for any number of spaces of value. -/
def skipLoop : GoString → GoString → Nat → GoString × Bool
  | value, [], _ => (value, true)
  | value, _ :: _, 0 => (value, false)
  | value, p :: ps, fuel + 1 =>
    if p = 32 then
      match value with
      | v :: _ =>
        if v ≠ 32 then (value, false)
        else skipLoop (cutspace value) (cutspace (p :: ps)) fuel
      | [] => skipLoop (cutspace value) (cutspace (p :: ps)) fuel
    else
      match value with
      | v :: vs => if v ≠ p then (value, false) else skipLoop vs ps fuel
      | [] => (value, false)

/-- Go skip; every turn of its loop removes a byte of pre at least. -/
def skip (value pre : GoString) : GoString × Bool := skipLoop value pre pre.length

/-- Go leadingInt: the decimal number at the start of s and the rest of s,
or none when the number overflows. -/
def leadingInt : GoString → Nat → Option (Nat × GoString)
  | [], x => some (x, [])
  | c :: s, x =>
    if c < 48 ∨ c > 57 then some (x, c :: s)
    else if x > 9223372036854775808 / 10 then Option.none
    else
      let x := x * 10 + c - 48
      if x > 9223372036854775808 then Option.none else leadingInt s x

/-- Go atoi of package time: an optional sign and decimal digits up to the
end of s; none for errAtoi. -/
def atoi (s : GoString) : Option Int :=
  let (neg, s) :=
    match s with
    | c :: rest => if c = 45 ∨ c = 43 then (decide (c = 45), rest) else (false, s)
    | [] => (false, s)
  match leadingInt s 0 with
  | some (q, []) => some (if neg then -(q : Int) else (q : Int))
  | _ => Option.none

/-- Go getnum: a number of one or two digits (exactly two when fixed) at the
start of s, and the rest of s; none for errBad. -/
def getnum (s : GoString) (fixed : Bool) : Option (Int × GoString) :=
  match s with
  | [] => Option.none
  | c0 :: rest =>
    if !(decide (48 ≤ c0 ∧ c0 ≤ 57)) then Option.none
    else if !isDigit0 rest then
      if fixed then Option.none else some (((c0 - 48 : Nat) : Int), rest)
    else
      match rest with
      | c1 :: rest2 => some ((((c0 - 48) * 10 + (c1 - 48) : Nat) : Int), rest2)
      | [] => Option.none

/-- Go getnum3: a number of one to three digits (exactly three when fixed). -/
def getnum3 (s : GoString) (fixed : Bool) : Option (Int × GoString) :=
  let ds := (s.take 3).takeWhile (fun c => decide (48 ≤ c ∧ c ≤ 57))
  if ds.length = 0 ∨ (fixed ∧ ds.length ≠ 3) then Option.none
  else some (((ds.foldl (fun n c => n * 10 + (c - 48)) 0 : Nat) : Int), s.drop ds.length)

/-- Go match: equality of two strings of one length up to the case of letters. -/
def matchFold : GoString → GoString → Bool
  | c1 :: s1, c2 :: s2 =>
    (if c1 ≠ c2 then
      let d1 := c1 ||| 32
      let d2 := c2 ||| 32
      !(decide (d1 ≠ d2 ∨ d1 < 97 ∨ d1 > 122))
    else true) && matchFold s1 s2
  | _, _ => true

/-- Go lookup: index of the first name of tab that val starts with, up to
case, and val after it; none for errBad. -/
def lookupTab (tab : List GoString) (val : GoString) (i : Nat) : Option (Int × GoString) :=
  match tab with
  | [] => Option.none
  | v :: tab =>
    if val.length ≥ v.length ∧ matchFold (val.take v.length) v then
      some ((i : Int), val.drop v.length)
    else lookupTab tab val (i + 1)

def longDayNames : List GoString :=
  [str "Sunday", str "Monday", str "Tuesday", str "Wednesday", str "Thursday", str "Friday",
   str "Saturday"]

def shortDayNames : List GoString :=
  [str "Sun", str "Mon", str "Tue", str "Wed", str "Thu", str "Fri", str "Sat"]

def shortMonthNames : List GoString :=
  [str "Jan", str "Feb", str "Mar", str "Apr", str "May", str "Jun", str "Jul", str "Aug",
   str "Sep", str "Oct", str "Nov", str "Dec"]

def longMonthNames : List GoString :=
  [str "January", str "February", str "March", str "April", str "May", str "June",
   str "July", str "August", str "September", str "October", str "November", str "December"]

/-- Go commaOrPeriod. -/
def commaOrPeriod (c : Nat) : Bool := decide (c = 46 ∨ c = 44)

/-- Go parseNanoseconds on the first nbytes bytes of value (separator and
digits): the nanoseconds, the range error text, and whether err is set. -/
def parseNanoseconds (value : GoString) (nbytes : Nat) : Int × GoString × Bool :=
  match value with
  | [] => (0, [], true)
  | c :: _ =>
    if !commaOrPeriod c then (0, [], true)
    else
      let nbytes := if nbytes > 10 then 10 else nbytes
      match atoi ((value.take nbytes).drop 1) with
      | Option.none => (0, [], true)
      | some ns =>
        if ns < 0 then (ns, str "fractional second", false)
        else (ns * 10 ^ (10 - nbytes), [], false)

/-- Go parseSignedOffset: length of a sign and hour offset at the start of
value, 0 when there is none. -/
def parseSignedOffset (value : GoString) : Nat :=
  match value with
  | [] => 0
  | sign :: rest =>
    if sign ≠ 45 ∧ sign ≠ 43 then 0
    else
      match leadingInt rest 0 with
      | Option.none => 0
      | some (x, rem) =>
        if rest.length = rem.length then 0
        else if x > 23 then 0
        else value.length - rem.length

/-- Go parseGMT: length of GMT with its optional hour offset. -/
def parseGMT (value : GoString) : Nat :=
  let value := value.drop 3
  if value.length = 0 then 3 else 3 + parseSignedOffset value

/-- Go parseTimeZone: length of the time zone abbreviation at the start of
value; none when there is none. -/
def parseTimeZone (value : GoString) : Option Nat :=
  if value.length < 3 then Option.none
  -- Special case 1: ChST and MeST are the only zones with a lower-case letter.
  else if hasPre value (str "ChST") ∨ hasPre value (str "MeST") then some 4
  -- Special case 2: GMT may have an hour offset; treat it specially.
  else if hasPre value (str "GMT") then some (parseGMT value)
  -- Special Case 3: Some time zones are not named, but have +/-00 format
  else if hasPre value [43] ∨ hasPre value [45] then
    let length := parseSignedOffset value
    if length > 0 then some length else Option.none
  else
    -- How many upper-case letters are there? Need at least three, at most five.
    let nUpper := ((value.take 6).takeWhile (fun c => decide (65 ≤ c ∧ c ≤ 90))).length
    if nUpper = 5 then (if value.getD 4 0 = 84 then some 5 else Option.none)
    else if nUpper = 4 then
      -- Must end in T, except one special case.
      (if value.getD 3 0 = 84 ∨ hasPre value (str "WITA") then some 4 else Option.none)
    else if nUpper = 3 then some 3
    else Option.none

/-- The variables of Go parse (the time being constructed). The location z
is only ever assigned UTC, so it is kept as a flag. -/
structure parseState where
  year : Int
  month : Int
  day : Int
  yday : Int
  hour : Int
  min : Int
  sec : Int
  nsec : Int
  z : Bool
  zoneOffset : Int
  zoneName : GoString
  amSet : Bool
  pmSet : Bool
  rangeErrString : GoString

/-- The variables of parse before the first layout element. -/
def parseState.init : parseState :=
  { year := 0, month := -1, day := -1, yday := -1, hour := 0, min := 0, sec := 0, nsec := 0,
    z := false, zoneOffset := -1, zoneName := [], amSet := false, pmSet := false,
    rangeErrString := [] }

/-- The numeric time zone case of parse (stdNumTZ and its variants, and the
ISO 8601 variants when the value does not start with Z). -/
def parseNumTZ (std : Std) (st : parseState) (value : GoString) : parseState × GoString × Bool :=
  let fields : Option (GoString × GoString × GoString × GoString × GoString) :=
    if std = Std.stdISO8601ColonTZ ∨ std = Std.stdNumColonTZ then
      if value.length < 6 then Option.none
      else if value.getD 3 0 ≠ 58 then Option.none
      else some (value.take 1, (value.drop 1).take 2, (value.drop 4).take 2, str "00",
                 value.drop 6)
    else if std = Std.stdNumShortTZ ∨ std = Std.stdISO8601ShortTZ then
      if value.length < 3 then Option.none
      else some (value.take 1, (value.drop 1).take 2, str "00", str "00", value.drop 3)
    else if std = Std.stdISO8601ColonSecondsTZ ∨ std = Std.stdNumColonSecondsTZ then
      if value.length < 9 then Option.none
      else if value.getD 3 0 ≠ 58 ∨ value.getD 6 0 ≠ 58 then Option.none
      else some (value.take 1, (value.drop 1).take 2, (value.drop 4).take 2,
                 (value.drop 7).take 2, value.drop 9)
    else if std = Std.stdISO8601SecondsTZ ∨ std = Std.stdNumSecondsTz then
      if value.length < 7 then Option.none
      else some (value.take 1, (value.drop 1).take 2, (value.drop 3).take 2,
                 (value.drop 5).take 2, value.drop 7)
    else
      if value.length < 5 then Option.none
      else some (value.take 1, (value.drop 1).take 2, (value.drop 3).take 2, str "00",
                 value.drop 5)
  match fields with
  | Option.none => (st, value, true)
  | some (sign, hour, min, seconds, value) =>
    let (hr, err) := match getnum hour true with
      | some (n, _) => (n, false)
      | Option.none => (0, true)
    let (mm, err) := if err then (0, err) else
      match getnum min true with
      | some (n, _) => (n, false)
      | Option.none => (0, true)
    let (ss, err) := if err then (0, err) else
      match getnum seconds true with
      | some (n, _) => (n, false)
      | Option.none => (0, true)
    -- The range test use > rather than >=, as some people do write offsets
    -- of 24 hours or 60 minutes or 60 seconds.
    let r := st.rangeErrString
    let r := if hr > 24 then str "time zone offset hour" else r
    let r := if mm > 60 then str "time zone offset minute" else r
    let r := if ss > 60 then str "time zone offset second" else r
    let zoneOffset := (hr * 60 + mm) * 60 + ss
    if sign = [43] then
      ({ st with rangeErrString := r, zoneOffset := zoneOffset }, value, err)
    else if sign = [45] then
      ({ st with rangeErrString := r, zoneOffset := -zoneOffset }, value, err)
    else
      ({ st with rangeErrString := r, zoneOffset := zoneOffset }, value, true)

/-- One turn of the switch of parse: the layout element std is read from the
start of value; layout is what follows std in the layout. Returns the new
variables, the rest of value and whether err is set. -/
def parseStd (std : Std) (layout : GoString) (st : parseState) (value : GoString) :
    parseState × GoString × Bool :=
  match std with
  | Std.none => (st, value, false)
  | Std.stdYear =>
    if value.length < 2 then (st, value, true)
    else
      let p := value.take 2
      let value := value.drop 2
      match atoi p with
      | Option.none => ({ st with year := 0 }, value, true)
      | some year =>
        -- Unix time starts Dec 31 1969 in some time zones
        ({ st with year := if year ≥ 69 then year + 1900 else year + 2000 }, value, false)
  | Std.stdLongYear =>
    if value.length < 4 ∨ !isDigit value 0 then (st, value, true)
    else
      let p := value.take 4
      let value := value.drop 4
      match atoi p with
      | Option.none => ({ st with year := 0 }, value, true)
      | some year => ({ st with year := year }, value, false)
  | Std.stdMonth =>
    match lookupTab shortMonthNames value 0 with
    | some (i, value) => ({ st with month := i + 1 }, value, false)
    | Option.none => ({ st with month := 0 }, value, true)
  | Std.stdLongMonth =>
    match lookupTab longMonthNames value 0 with
    | some (i, value) => ({ st with month := i + 1 }, value, false)
    | Option.none => ({ st with month := 0 }, value, true)
  | Std.stdNumMonth | Std.stdZeroMonth =>
    match getnum value (std == Std.stdZeroMonth) with
    | some (month, value) =>
      if month ≤ 0 ∨ 12 < month then
        ({ st with month := month, rangeErrString := str "month" }, value, false)
      else ({ st with month := month }, value, false)
    | Option.none => ({ st with month := 0 }, value, true)
  | Std.stdWeekDay =>
    -- Ignore weekday except for error checking.
    match lookupTab shortDayNames value 0 with
    | some (_, value) => (st, value, false)
    | Option.none => (st, value, true)
  | Std.stdLongWeekDay =>
    match lookupTab longDayNames value 0 with
    | some (_, value) => (st, value, false)
    | Option.none => (st, value, true)
  | Std.stdDay | Std.stdUnderDay | Std.stdZeroDay =>
    let value := if std = Std.stdUnderDay ∧ hasPre value [32] then value.drop 1
                 else value
    -- Note that we allow any one- or two-digit day here.
    match getnum value (std == Std.stdZeroDay) with
    | some (day, value) => ({ st with day := day }, value, false)
    | Option.none => ({ st with day := 0 }, value, true)
  | Std.stdUnderYearDay | Std.stdZeroYearDay =>
    let strip := fun (v : GoString) =>
      if std = Std.stdUnderYearDay ∧ hasPre v [32] then v.drop 1 else v
    let value := strip (strip value)
    match getnum3 value (std == Std.stdZeroYearDay) with
    | some (yday, value) => ({ st with yday := yday }, value, false)
    | Option.none => ({ st with yday := 0 }, value, true)
  | Std.stdHour =>
    match getnum value false with
    | some (hour, value) =>
      if hour < 0 ∨ 24 ≤ hour then
        ({ st with hour := hour, rangeErrString := str "hour" }, value, false)
      else ({ st with hour := hour }, value, false)
    | Option.none => ({ st with hour := 0 }, value, true)
  | Std.stdHour12 | Std.stdZeroHour12 =>
    match getnum value (std == Std.stdZeroHour12) with
    | some (hour, value) =>
      if hour < 0 ∨ 12 < hour then
        ({ st with hour := hour, rangeErrString := str "hour" }, value, false)
      else ({ st with hour := hour }, value, false)
    | Option.none => ({ st with hour := 0 }, value, true)
  | Std.stdMinute | Std.stdZeroMinute =>
    match getnum value (std == Std.stdZeroMinute) with
    | some (min, value) =>
      if min < 0 ∨ 60 ≤ min then
        ({ st with min := min, rangeErrString := str "minute" }, value, false)
      else ({ st with min := min }, value, false)
    | Option.none => ({ st with min := 0 }, value, true)
  | Std.stdSecond | Std.stdZeroSecond =>
    match getnum value (std == Std.stdZeroSecond) with
    | Option.none => ({ st with sec := 0 }, value, true)
    | some (sec, value) =>
      if sec < 0 ∨ 60 ≤ sec then
        ({ st with sec := sec, rangeErrString := str "second" }, value, false)
      -- Special case: do we have a fractional second but no fractional
      -- second in the format?
      else if value.length ≥ 2 ∧ commaOrPeriod (value.getD 0 0) ∧ isDigit value 1 then
        match (nextStdChunk layout).2.1 with
        | Std.stdFracSecond0 _ _ => ({ st with sec := sec }, value, false)
        | Std.stdFracSecond9 _ _ => ({ st with sec := sec }, value, false)
        | _ =>
          -- No fractional second in the layout but we have one in the input.
          let n := 2 + ((value.drop 2).takeWhile (fun c => decide (48 ≤ c ∧ c ≤ 57))).length
          let (nsec, r, err) := parseNanoseconds value n
          ({ st with sec := sec, nsec := nsec, rangeErrString := r }, value.drop n, err)
      else ({ st with sec := sec }, value, false)
  | Std.stdPM =>
    if value.length < 2 then (st, value, true)
    else
      let p := value.take 2
      let value := value.drop 2
      if p = str "PM" then ({ st with pmSet := true }, value, false)
      else if p = str "AM" then ({ st with amSet := true }, value, false)
      else (st, value, true)
  | Std.stdpm =>
    if value.length < 2 then (st, value, true)
    else
      let p := value.take 2
      let value := value.drop 2
      if p = str "pm" then ({ st with pmSet := true }, value, false)
      else if p = str "am" then ({ st with amSet := true }, value, false)
      else (st, value, true)
  | Std.stdISO8601TZ | Std.stdISO8601ShortTZ | Std.stdISO8601ColonTZ
  | Std.stdISO8601SecondsTZ | Std.stdISO8601ColonSecondsTZ =>
    if hasPre value [90] then ({ st with z := true }, value.drop 1, false)
    else parseNumTZ std st value
  | Std.stdNumTZ | Std.stdNumShortTZ | Std.stdNumColonTZ | Std.stdNumSecondsTz
  | Std.stdNumColonSecondsTZ => parseNumTZ std st value
  | Std.stdTZ =>
    -- Does it look like a time zone?
    if hasPre value (str "UTC") then ({ st with z := true }, value.drop 3, false)
    else
      match parseTimeZone value with
      | Option.none => (st, value, true)
      | some n => ({ st with zoneName := value.take n }, value.drop n, false)
  | Std.stdFracSecond0 digits _ =>
    -- stdFracSecond0 requires the exact number of digits as specified in
    -- the layout.
    let ndigit := 1 + digits
    if value.length < ndigit then (st, value, true)
    else
      let (nsec, r, err) := parseNanoseconds value ndigit
      ({ st with nsec := nsec, rangeErrString := r }, value.drop ndigit, err)
  | Std.stdFracSecond9 _ _ =>
    if value.length < 2 ∨ !commaOrPeriod (value.getD 0 0) ∨ !isDigit value 1 then
      -- Fractional second omitted.
      (st, value, false)
    else
      -- Take any number of digits, even more than asked for, because it is
      -- what the stdSecond case would do.
      let i := ((value.drop 1).takeWhile (fun c => decide (48 ≤ c ∧ c ≤ 57))).length
      let (nsec, r, err) := parseNanoseconds value (1 + i)
      ({ st with nsec := nsec, rangeErrString := r }, value.drop (1 + i), err)

/-- Go newParseError. -/
def newParseError (layout value layoutElem valueElem message : GoString) : ParseError :=
  { Layout := layout, Value := value, LayoutElem := layoutElem, ValueElem := valueElem,
    Message := message }

/-- The end of Go parse, after the layout has been read to its end: the
twelve-hour clock, the day of the year, the check of the day of the month,
and the choice of the location. -/
def parseFinish (Local : Location) (alayout avalue value : GoString) (st : parseState) :
    Time × Option ParseError :=
  let hour :=
    if st.pmSet ∧ st.hour < 12 then st.hour + 12
    else if st.amSet ∧ st.hour = 12 then 0
    else st.hour
  let year := st.year
  -- Convert yday to day, month.
  let dm : Except ParseError (Int × Int) :=
    if st.yday ≥ 0 then
      let leapDay := isLeap year && st.yday == 31 + 29
      let yday := if isLeap year && st.yday > 31 + 29 then st.yday - 1 else st.yday
      if yday < 1 ∨ yday > 365 then
        Except.error (newParseError alayout avalue [] value (str ": day-of-year out of range"))
      else
        let m0 := (yday - 1) / 31 + 1
        let m1 := if daysBefore m0 < yday then m0 + 1 else m0
        let (m, d) := if leapDay then ((2 : Int), (29 : Int)) else (m1, yday - daysBefore (m1 - 1))
        -- If month, day already seen, yday's m, d must match.
        if st.month ≥ 0 ∧ st.month ≠ m then
          Except.error (newParseError alayout avalue [] value
            (str ": day-of-year does not match month"))
        else if st.day ≥ 0 ∧ st.day ≠ d then
          Except.error (newParseError alayout avalue [] value
            (str ": day-of-year does not match day"))
        else Except.ok (m, d)
    else
      Except.ok (if st.month < 0 then 1 else st.month, if st.day < 0 then 1 else st.day)
  match dm with
  | Except.error e => (Time.zero, some e)
  | Except.ok (month, day) =>
    -- Validate the day of the month.
    if day < 1 ∨ day > daysIn month year then
      (Time.zero, some (newParseError alayout avalue [] value (str ": day out of range")))
    else if st.z then
      (Date year month day hour st.min st.sec st.nsec UTC, Option.none)
    else if st.zoneOffset ≠ -1 then
      let t := (Date year month day hour st.min st.sec st.nsec UTC).addSec (-st.zoneOffset)
      -- Look for local zone with the given offset. If a match is found, use it.
      let span := Local.lookup t.unixSec
      if span.offset = st.zoneOffset ∧ (st.zoneName = [] ∨ span.name = st.zoneName) then
        (t.setLoc (some Local), Option.none)
      else
        -- Otherwise create fake zone.
        (t.setLoc (some (FixedZone st.zoneName st.zoneOffset)), Option.none)
    else if st.zoneName ≠ [] then
      let t := Date year month day hour st.min st.sec st.nsec UTC
      -- Look for local zone with the given offset. If a match is found, use it.
      match Local.lookupName st.zoneName t.unixSec with
      | some offset => ((t.addSec (-offset)).setLoc (some Local), Option.none)
      | Option.none =>
        -- Otherwise, create fake zone with unknown offset.
        let offset :=
          if st.zoneName.length > 3 ∧ hasPre st.zoneName (str "GMT") then
            (match atoi (st.zoneName.drop 3) with
             | some n => n * 3600
             | Option.none => 0)
          else 0
        (t.setLoc (some (FixedZone st.zoneName offset)), Option.none)
    else
      -- Otherwise, fall back to default.
      (Date year month day hour st.min st.sec st.nsec UTC, Option.none)

/-- The loop of Go parse: each turn reads one layout element. The bound
fuel on the number of turns is never reached when it exceeds the length of
the layout, every element taking a byte of it at least. -/
def parseLoop (Local : Location) (alayout avalue : GoString) :
    Nat → GoString → GoString → parseState → Time × Option ParseError
  | 0, _, value, _ => (Time.zero, some (newParseError alayout avalue [] value []))
  | fuel + 1, layout, value, st =>
    let (pre, std, suffix) := nextStdChunk layout
    let stdstr := (layout.drop pre.length).take (layout.length - pre.length - suffix.length)
    let (value, ok) := skip value pre
    if !ok then (Time.zero, some (newParseError alayout avalue pre value []))
    else if std = Std.none then
      if value.length ≠ 0 then
        (Time.zero, some (newParseError alayout avalue [] value
          (str ": extra text: " ++ quote value)))
      else parseFinish Local alayout avalue value st
    else
      let hold := value
      let (st, value, err) := parseStd std suffix st value
      if st.rangeErrString ≠ [] then
        (Time.zero, some (newParseError alayout avalue stdstr value
          (str ": " ++ st.rangeErrString ++ str " out of range")))
      else if err then (Time.zero, some (newParseError alayout avalue stdstr hold []))
      else parseLoop Local alayout avalue fuel suffix value st

/-- Go time.Parse: the time written in value according to layout, in UTC
when value names no zone. Local is the location time.Local. -/
def Parse (Local : Location) (layout value : GoString) : Time × Option ParseError :=
  parseLoop Local layout value (layout.length + 1) layout value parseState.init

/-- Layouts of package time. -/
def ANSIC : GoString := str "Mon Jan _2 15:04:05 2006"
def UnixDate : GoString := str "Mon Jan _2 15:04:05 MST 2006"
def RubyDate : GoString := str "Mon Jan 02 15:04:05 -0700 2006"
def RFC822 : GoString := str "02 Jan 06 15:04 MST"
def RFC822Z : GoString := str "02 Jan 06 15:04 -0700"
def RFC850 : GoString := str "Monday, 02-Jan-06 15:04:05 MST"
def RFC1123 : GoString := str "Mon, 02 Jan 2006 15:04:05 MST"
def RFC1123Z : GoString := str "Mon, 02 Jan 2006 15:04:05 -0700"
def RFC3339 : GoString := str "2006-01-02T15:04:05Z07:00"
def RFC3339Nano : GoString := str "2006-01-02T15:04:05.999999999Z07:00"

/-! ## package time: Format -/

/-- Decimal digits of u, most significant first (at most fuel of them). -/
def decimalDigits : Nat → Nat → GoString
  | 0, _ => []
  | fuel + 1, u => if u < 10 then [48 + u] else decimalDigits fuel (u / 10) ++ [48 + u % 10]

/-- Go appendInt: the decimal form of x, padded with zeros to the given
width, after a minus sign when x is negative. -/
def appendInt (b : GoString) (x : Int) (width : Nat) : GoString :=
  let b := if x < 0 then b ++ [45] else b
  let u := x.natAbs
  -- 2-digit fields are the most common in time formats.
  if width = 2 ∧ u < 100 then b ++ [48 + u / 10, 48 + u % 10]
  else
    let ds := decimalDigits 20 u
    b ++ List.replicate (width - ds.length) 48 ++ ds

/-- Go appendNano: the fractional second of the given element. -/
def appendNano (b : GoString) (nanosec : Int) (trim : Bool) (n dot : Nat) : GoString :=
  if trim ∧ (n = 0 ∨ nanosec = 0) then b
  else
    let ds := (appendInt [] nanosec 9).take n
    if trim then
      let ds := (ds.reverse.dropWhile (fun c => c == 48)).reverse
      if ds = [] then b else b ++ [dot] ++ ds
    else b ++ [dot] ++ ds

/-- The numeric zone of Format: sign, hours, and as the element asks a colon,
minutes and seconds. -/
def appendZone (b : GoString) (std : Std) (offset : Int) : GoString :=
  let iso := std = Std.stdISO8601TZ ∨ std = Std.stdISO8601ColonTZ ∨
    std = Std.stdISO8601SecondsTZ ∨ std = Std.stdISO8601ShortTZ ∨
    std = Std.stdISO8601ColonSecondsTZ
  if offset = 0 ∧ iso then b ++ [90]
  else
    let zone := goDiv offset 60
    let (b, zone, absoffset) :=
      if zone < 0 then (b ++ [45], -zone, -offset) else (b ++ [43], zone, offset)
    let b := appendInt b (goDiv zone 60) 2
    let colon := std = Std.stdISO8601ColonTZ ∨ std = Std.stdNumColonTZ ∨
      std = Std.stdISO8601ColonSecondsTZ ∨ std = Std.stdNumColonSecondsTZ
    let b := if colon then b ++ [58] else b
    let b := if std ≠ Std.stdNumShortTZ ∧ std ≠ Std.stdISO8601ShortTZ then
      appendInt b (goRem zone 60) 2 else b
    if std = Std.stdISO8601SecondsTZ ∨ std = Std.stdNumSecondsTz ∨
        std = Std.stdNumColonSecondsTZ ∨ std = Std.stdISO8601ColonSecondsTZ then
      let b := if std = Std.stdNumColonSecondsTZ ∨ std = Std.stdISO8601ColonSecondsTZ then
        b ++ [58] else b
      appendInt b (goRem absoffset 60) 2
    else b

/-- One turn of the switch of Go Time.appendFormat: the text of the layout
element std for the time t, appended to b. -/
def formatStd (t : Time) (b : GoString) (std : Std) : GoString :=
  let abs := t.abs
  let span := t.loc.lookup t.unixSec
  let (year, month, day, yday0) := absDate abs
  let yday := yday0 + 1
  let (hour, min, sec) := absClock abs
  match std with
  | Std.none => b
  | Std.stdYear =>
    let y := if year < 0 then -year else year
    appendInt b (goRem y 100) 2
  | Std.stdLongYear => appendInt b year 4
  | Std.stdMonth => b ++ (longMonthNames.getD (month - 1).toNat []).take 3
  | Std.stdLongMonth => b ++ longMonthNames.getD (month - 1).toNat []
  | Std.stdNumMonth => appendInt b month 0
  | Std.stdZeroMonth => appendInt b month 2
  | Std.stdWeekDay => b ++ (longDayNames.getD (absWeekday abs) []).take 3
  | Std.stdLongWeekDay => b ++ longDayNames.getD (absWeekday abs) []
  | Std.stdDay => appendInt b day 0
  | Std.stdUnderDay => appendInt (if day < 10 then b ++ [32] else b) day 0
  | Std.stdZeroDay => appendInt b day 2
  | Std.stdUnderYearDay =>
    appendInt (if yday < 10 then b ++ [32, 32] else if yday < 100 then b ++ [32] else b) yday 0
  | Std.stdZeroYearDay => appendInt b yday 3
  | Std.stdHour => appendInt b hour 2
  | Std.stdHour12 =>
    -- Noon is 12PM, midnight is 12AM.
    appendInt b (if goRem hour 12 = 0 then 12 else goRem hour 12) 0
  | Std.stdZeroHour12 => appendInt b (if goRem hour 12 = 0 then 12 else goRem hour 12) 2
  | Std.stdMinute => appendInt b min 0
  | Std.stdZeroMinute => appendInt b min 2
  | Std.stdSecond => appendInt b sec 0
  | Std.stdZeroSecond => appendInt b sec 2
  | Std.stdPM => b ++ (if hour ≥ 12 then str "PM" else str "AM")
  | Std.stdpm => b ++ (if hour ≥ 12 then str "pm" else str "am")
  | Std.stdTZ =>
    if span.name ≠ [] then b ++ span.name
    else
      -- No time zone known for this time, but we must print one.
      let zone := goDiv span.offset 60
      let (b, zone) := if zone < 0 then (b ++ [45], -zone) else (b ++ [43], zone)
      appendInt (appendInt b (goDiv zone 60) 2) (goRem zone 60) 2
  | Std.stdFracSecond0 n dot => appendNano b t.nsec false n dot
  | Std.stdFracSecond9 n dot => appendNano b t.nsec true n dot
  | _ => appendZone b std span.offset

/-- The loop of Go Time.appendFormat, with a bound on the number of turns
that the length of the layout never reaches. -/
def formatLoop (t : Time) : Nat → GoString → GoString → GoString
  | 0, b, _ => b
  | fuel + 1, b, layout =>
    if layout = [] then b
    else
      let (pre, std, suffix) := nextStdChunk layout
      let b := b ++ pre
      if std = Std.none then b
      else formatLoop t fuel (formatStd t b std) suffix

/-- Go Time.Format: the text of t according to layout. -/
def Time.Format (t : Time) (layout : GoString) : GoString :=
  formatLoop t (layout.length + 1) [] layout

/-! ## carddate.go -/

def invalidYearFrom : Int := 2000
def invalidYearTo : Int := 2050

/-- The error values of the package: its three sentinel errors, the error of
time.Parse passed on unchanged, and the error that Scan makes with
fmt.Errorf, given by its text. -/
inductive Err where
  | ErrUnknownFormat
  | ErrInvalidYear
  | ErrInvalidMonth
  | parse (e : ParseError)
  | errorf (text : GoString)
deriving DecidableEq

/-- The text of an error (Go error.Error). -/
def Err.Error : Err → GoString
  | Err.ErrUnknownFormat => str "unknown format of card date"
  | Err.ErrInvalidYear => str "invalid year in card date"
  | Err.ErrInvalidMonth => str "invalid month in card date"
  | Err.parse e => e.Error
  | Err.errorf text => text

/-- CardDate is a nullable time.Time. -/
structure CardDate where
  Time : Time
  Valid : Bool

/-- The zero value `CardDate{}`. -/
def CardDate.zero : CardDate := { Time := Time.zero, Valid := false }

/-- NewCardDate creates a new Time. -/
def NewCardDate (t : Time) (valid : Bool) : CardDate := { Time := t, Valid := valid }

/-- CardDateFrom creates a new Time that will always be valid. -/
def CardDateFrom (t : Time) : CardDate := NewCardDate t true

/-- Function timeParser of carddate.go. -/
def timeParser (Local : Location) (layout value : GoString) : Time × Option Err :=
  match Parse Local layout value with
  | (t, some err) =>
    if stringsContains err.Error (str "month out of range") then (t, some Err.ErrInvalidMonth)
    else (Time.zero, some (Err.parse err))
  | (t, Option.none) =>
    let t := t.UTC
    if t.Year ≤ invalidYearFrom ∨ t.Year > invalidYearTo then
      (Time.zero, some Err.ErrInvalidYear)
    else (t, Option.none)

/-- Function stringToTime of carddate.go. -/
def stringToTime (Local : Location) (s : GoString) : Time × Option Err :=
  if MatchString cardDateRFC3339Regex s then timeParser Local RFC3339 s
  else if MatchString cardDateRFC3339NanoRegex s then timeParser Local RFC3339Nano s
  else if MatchString cardDateRFC1123ZRegex s then timeParser Local RFC1123Z s
  else if MatchString cardDateRFC1123Regex s then timeParser Local RFC1123 s
  else if MatchString cardDateRFC850Regex s then timeParser Local RFC850 s
  else if MatchString cardDateRFC822Regex s then timeParser Local RFC822 s
  else if MatchString cardDateRFC822ZRegex s then timeParser Local RFC822Z s
  else if MatchString cardDateRubyFormatRegex s then timeParser Local RubyDate s
  else if MatchString cardDateUnixFormatRegex s then timeParser Local UnixDate s
  else if MatchString cardDateANSICFormatRegex s then timeParser Local ANSIC s
  else if s.length = 4 then timeParser Local (str "0106") s
  else if s.length = 6 then timeParser Local (str "012006") s
  else if s.length = 5 ∧ stringsContains s (str "/") then timeParser Local (str "01/06") s
  else if s.length = 5 ∧ stringsContains s (str "-") then timeParser Local (str "01-06") s
  else if s.length = 7 ∧ stringsContains s (str "/") then timeParser Local (str "01/2006") s
  else if s.length = 7 ∧ stringsContains s (str "-") then timeParser Local (str "01-2006") s
  else (Time.zero, some Err.ErrUnknownFormat)

/-- ParseExpToTime takes a exp_date in certain format and returns time.time. -/
def ParseExpToTime (Local : Location) (exp : GoString) : Time × Option Err :=
  stringToTime Local exp

/-- CardDateFromString creates a new Time that valid, if format[01/06] is
valid. Else return error and invalid struct. -/
def CardDateFromString (Local : Location) (s : GoString) : CardDate × Option Err :=
  match ParseExpToTime Local s with
  | (_, some err) => (CardDate.zero, some err)
  | (t, Option.none) => ({ Time := t, Valid := true }, Option.none)

/-- Method SetValidFromStr: the receiver after the call. -/
def CardDate.SetValidFromStr (Local : Location) (_t : CardDate) (v : GoString) : CardDate :=
  let parsed := (ParseExpToTime Local v).1
  { Time := parsed, Valid := true }

/-- Method String. -/
def CardDate.String (t : CardDate) : GoString :=
  if t.Valid then t.Time.Format (str "01/06") else str "null"

/-- Modelled from the spec: the variable NullBytes is declared in another file
of the package; the JSON null token, the four bytes of the word null. -/
def NullBytes : GoString := str "null"

/-- CardDateFromMustString creates a CardDate from a string or panics: the
result is the CardDate returned, or the value the function panics with. -/
def CardDateFromMustString (Local : Location) (s : GoString) : Except Err CardDate :=
  match ParseExpToTime Local s with
  | (_, some err) => Except.error err
  | (t, Option.none) => Except.ok { Time := t, Valid := true }

/-- Method UnmarshalJSON: the receiver after the call and the error returned. -/
def CardDate.UnmarshalJSON (Local : Location) (t : CardDate) (data : GoString) :
    CardDate × Option Err :=
  if data = NullBytes then
    ({ t with Valid := false, Time := Time.zero }, Option.none)
  else
    let s := stringsTrimPre data (str "\"")
    let s := stringsTrimSuf s (str "\"")
    let s := stringsReplaceAll s (str "\\") (str "")
    match ParseExpToTime Local s with
    | (_, some err) => ({ t with Valid := false, Time := Time.zero }, some err)
    | (parsed, Option.none) => ({ t with Time := parsed, Valid := true }, Option.none)

/-- Method UnmarshalText: the receiver after the call and the error returned. -/
def CardDate.UnmarshalText (Local : Location) (t : CardDate) (text : GoString) :
    CardDate × Option Err :=
  if text = NullBytes then
    ({ t with Valid := false, Time := Time.zero }, Option.none)
  else
    match ParseExpToTime Local text with
    | (parsed, some err) => ({ t with Time := parsed, Valid := false }, some err)
    | (parsed, Option.none) => ({ t with Time := parsed, Valid := true }, Option.none)

/-- A value of type interface as Scan receives it and Value returns it
(driver.Value), by its dynamic type: a time.Time, a string, nil, or a value
of any other type, of which the texts that the verbs %T and %v print are
kept. -/
inductive DriverValue where
  | time (x : Time)
  | string (x : GoString)
  | nil
  | other (typeText valueText : GoString)

/-- Method Scan: the receiver after the call and the error returned. -/
def CardDate.Scan (Local : Location) (t : CardDate) (value : DriverValue) :
    CardDate × Option Err :=
  match value with
  | DriverValue.time x => ({ t with Time := x, Valid := true }, Option.none)
  | DriverValue.string x =>
    match ParseExpToTime Local x with
    | (parsed, err) => ({ t with Time := parsed, Valid := err.isNone }, err)
  | DriverValue.nil => ({ t with Valid := false }, Option.none)
  | DriverValue.other typeText valueText =>
    let err := Err.errorf (str "null: cannot scan type " ++ typeText ++
      str " into null.Time: " ++ valueText)
    ({ t with Valid := false }, some err)

/-- Method Value: the driver value and the error returned. -/
def CardDate.Value (t : CardDate) : DriverValue × Option Err :=
  if !t.Valid then (DriverValue.nil, Option.none)
  else (DriverValue.time t.Time, Option.none)

/-- Method SetValid: the receiver after the call. -/
def CardDate.SetValid (t : CardDate) (v : Null.Time) : CardDate :=
  { t with Time := v, Valid := true }

/-- Method AddDate: the CardDate returned; the receiver is passed by value. -/
def CardDate.AddDate (t : CardDate) (years months days : Int) : CardDate :=
  let n := t.Time.AddDate years months days
  { t with Time := n }

/-- The ten patterns of stringToTime with the layout each one selects, in the
order in which the switch tries them. -/
def cardDatePatterns : List (List Piece × GoString) :=
  [(cardDateRFC3339Regex, RFC3339), (cardDateRFC3339NanoRegex, RFC3339Nano),
   (cardDateRFC1123ZRegex, RFC1123Z), (cardDateRFC1123Regex, RFC1123),
   (cardDateRFC850Regex, RFC850), (cardDateRFC822Regex, RFC822),
   (cardDateRFC822ZRegex, RFC822Z), (cardDateRubyFormatRegex, RubyDate),
   (cardDateUnixFormatRegex, UnixDate), (cardDateANSICFormatRegex, ANSIC)]

/-- A location used to run the parser on concrete inputs: the process runs
with time.Local set to UTC. -/
def localUTC : Location := FixedZone (str "UTC") 0

/-! ## Auxiliary definitions for the statements and proofs -/

/-- Classes of the bytes that every match of the pieces starts with: the
pieces of fixed width from the left, and the compulsory part of the first
piece of variable width. -/
def fixedClasses : List Piece → List (Nat → Bool)
  | [] => []
  | Piece.rep cls mn mx :: ps =>
    if mn = mx then List.replicate mn cls ++ fixedClasses ps else List.replicate mn cls
  | Piece.dot :: _ => []

/-- Whether s starts with bytes of the given classes, one byte each. -/
def checkClasses : List (Nat → Bool) → GoString → Bool
  | [], _ => true
  | _ :: _, [] => false
  | cls :: cs, c :: s => cls c && checkClasses cs s

/-- Least length of a match of the pieces. -/
def minLen : List Piece → Nat
  | [] => 0
  | Piece.rep _ mn _ :: ps => mn + minLen ps
  | Piece.dot :: ps => 1 + minLen ps

/-- Greatest length in bytes of a match of the pieces. -/
def maxLen : List Piece → Nat
  | [] => 0
  | Piece.rep _ mn mx :: ps => mn + (mx - mn) + maxLen ps
  | Piece.dot :: ps => 4 + maxLen ps

/-- The index in cardDatePatterns of the only pattern that s can match, read
off a few bytes of s and its length. -/
def classify (s : GoString) : Nat :=
  if clsDigit (s.getD 0 0) then
    if clsDigit (s.getD 2 0) then (if s.length ≤ 25 then 0 else 1)
    else if clsAlpha (s.getD 16 0) then 5 else 6
  else if s.getD 3 0 = 44 then (if clsAlpha (s.getD 26 0) then 3 else 2)
  else if clsAlpha (s.getD 3 0) then 4
  else if clsSign (s.getD 20 0) then 7
  else if clsAlpha (s.getD 20 0) then 8
  else 9

/-- The layout of the first pattern of the table ps that matches s, the
patterns being tried in the order of ps; none when no pattern matches. -/
def firstMatch : List (List Piece × GoString) → GoString → Option GoString
  | [], _ => Option.none
  | (re, layout) :: ps, s => if MatchString re s then some layout else firstMatch ps s

/-- The two-digit decimal field of n. -/
def two (n : Nat) : GoString := [48 + n / 10, 48 + n % 10]

/-- The four-digit decimal field of n. -/
def four (n : Nat) : GoString := [48 + n / 1000, 48 + n / 100 % 10, 48 + n / 10 % 10, 48 + n % 10]

/-- The text that UnmarshalJSON hands to the parser, in the words of the
specification: data with one leading double quote removed, one trailing
double quote removed and every backslash removed. -/
def unquotedSpec (data : GoString) : GoString :=
  let s := match data with
    | 34 :: rest => rest
    | _ => data
  let s := if s.getLast? = some 34 then s.dropLast else s
  s.filter (fun c => c != 92)

/-- A timestamp as RFC 3339 writes it without a fraction of a second: the
civil date and time of day, and the zone, which is Z (none) or a numeric
offset given by its sign (true for minus), hours and minutes. -/
structure Stamp where
  year : Nat
  month : Nat
  day : Nat
  hour : Nat
  min : Nat
  sec : Nat
  zone : Option (Bool × Nat × Nat)

/-- The text of the zone of a Stamp: Z, or the sign, two digits of hours, a
colon and two digits of minutes. -/
def zoneText : Option (Bool × Nat × Nat) → GoString
  | Option.none => [90]
  | some (neg, hh, mm) => (if neg then 45 else 43) :: (two hh ++ 58 :: two mm)

/-- The offset of the zone of a Stamp, in seconds east of UTC. -/
def zoneSeconds : Option (Bool × Nat × Nat) → Int
  | Option.none => 0
  | some (neg, hh, mm) =>
    if neg then -((((hh : Int) * 60 + (mm : Int)) * 60)) else ((hh : Int) * 60 + (mm : Int)) * 60

/-- The text of a Stamp in the layout 2006-01-02T15:04:05Z07:00. -/
def Stamp.text (s : Stamp) : GoString :=
  four s.year ++ 45 :: (two s.month ++ 45 :: (two s.day ++ 84 :: (two s.hour ++
    58 :: (two s.min ++ 58 :: (two s.sec ++ zoneText s.zone)))))

/-- Whether the fields of a Stamp are those of a date and time of day that
exist: a year of four digits, a month 1 .. 12, a day of that month, an hour
0 .. 23, minute and second 0 .. 59, and an offset below 24:00. -/
def Stamp.valid (s : Stamp) : Bool :=
  decide (s.year ≤ 9999) && decide (1 ≤ s.month) && decide (s.month ≤ 12) &&
  decide (1 ≤ s.day) && decide ((s.day : Int) ≤ daysIn s.month s.year) &&
  decide (s.hour ≤ 23) && decide (s.min ≤ 59) && decide (s.sec ≤ 59) &&
  (match s.zone with
   | Option.none => true
   | some (_, hh, mm) => decide (hh ≤ 23) && decide (mm ≤ 59))

/-- The instant a Stamp denotes, in seconds since January 1 of year 1,
00:00:00 UTC: the written civil time read in UTC, minus the offset. -/
def Stamp.instant (s : Stamp) : Int :=
  (Date s.year s.month s.day s.hour s.min s.sec 0 UTC).sec - zoneSeconds s.zone

/-- The check of the year that timeParser makes on a time in UTC. -/
def yearChecked (t : Time) : Time × Option Err :=
  if t.Year ≤ invalidYearFrom ∨ t.Year > invalidYearTo then (Time.zero, some Err.ErrInvalidYear)
  else (t, Option.none)

/-- GenerateCardDate of carddate.go. The argument nextInt is a function with
a state of its own: a call takes the state and returns the value and the
state after the call, and GenerateCardDate returns the state next to its
result. The sums are formed in int64. -/
def GenerateCardDate {σ : Type} (nextInt : σ → Int × σ) (state : σ) (_fieldType : GoString)
    (shouldBeNull : Bool) : CardDate × σ :=
  let t := CardDate.zero
  if shouldBeNull then ({ t with Time := Time.zero, Valid := false }, state)
  else
    match nextInt state with
    | (a, state) =>
      match nextInt state with
      | (b, state) =>
        match nextInt state with
        | (c, state) =>
          ({ t with
              Time := Date (wrapInt64 (2020 + goRem a 60)) (wrapInt64 (1 + goRem b 12))
                (wrapInt64 (1 + goRem c 25)) 0 0 0 0 UTC,
              Valid := true }, state)

/-- Whether no element of the layout, among the first elements up to the
bound, is a zone abbreviation (MST). -/
def noZoneName : Nat → GoString → Bool
  | 0, _ => true
  | fuel + 1, layout =>
    match nextStdChunk layout with
    | (_, std, suffix) =>
      decide (std ≠ Std.stdTZ) && (decide (std = Std.none) || noZoneName fuel suffix)

/-- A location in which the abbreviation MST stands for seven hours west of
UTC, as in America/Phoenix. -/
def localMST : Location := FixedZone (str "MST") (-25200)

/-! ## The parser returns dates inside the acceptance window -/

theorem timeParser_error_ne_unknown (Local : Location) (layout value : GoString) :
    (timeParser Local layout value).2 ≠ some Err.ErrUnknownFormat := by
  unfold timeParser
  split
  · split_ifs <;> simp
  · dsimp only
    split_ifs <;> simp

theorem timeParser_ok (Local : Location) (layout value : GoString) (t : Time)
    (h : timeParser Local layout value = (t, Option.none)) :
    t.loc = UTC ∧ invalidYearFrom < t.Year ∧ t.Year ≤ invalidYearTo := by
  unfold timeParser at h
  split at h
  · split_ifs at h <;> simp at h
  · rename_i t0 _
    dsimp only at h
    split_ifs at h with hy
    · simp at h
    · simp only [Prod.mk.injEq, and_true] at h
      subst h
      refine ⟨rfl, ?_, ?_⟩ <;> omega

theorem ite_cases {α : Type} (Q : α → Prop) (c : Prop) [Decidable c] (a b : α)
    (ha : Q a) (hb : Q b) : Q (if c then a else b) := by
  split
  · exact ha
  · exact hb

theorem stringToTime_cases (Local : Location) (s : GoString) :
    stringToTime Local s = (Time.zero, some Err.ErrUnknownFormat) ∨
    ∃ layout, stringToTime Local s = timeParser Local layout s := by
  have hp : ∀ layout, (fun r => r = (Time.zero, some Err.ErrUnknownFormat) ∨
      ∃ layout, r = timeParser Local layout s) (timeParser Local layout s) :=
    fun layout => Or.inr ⟨layout, rfl⟩
  unfold stringToTime
  repeat' apply ite_cases (fun r => r = (Time.zero, some Err.ErrUnknownFormat) ∨
      ∃ layout, r = timeParser Local layout s)
  all_goals first
    | exact hp _
    | exact Or.inl rfl

/-- C1: whenever ParseExpToTime returns no error, the returned time is in UTC
and its calendar year y satisfies 2000 < y and y ≤ 2050. -/
theorem parseExpToTime_ok_utc_in_window (Local : Location) (s : GoString) (t : Time)
    (h : ParseExpToTime Local s = (t, Option.none)) :
    t.loc = UTC ∧ 2000 < t.Year ∧ t.Year ≤ 2050 := by
  unfold ParseExpToTime at h
  rcases stringToTime_cases Local s with h0 | ⟨layout, h1⟩
  · rw [h0] at h
    simp at h
  · rw [h1] at h
    exact timeParser_ok Local layout s t h

theorem parseExpToTime_ok_utc_in_window_witness :
    (Date 2022 9 1 0 0 0 0 UTC).loc = UTC ∧ 2000 < (Date 2022 9 1 0 0 0 0 UTC).Year ∧
      (Date 2022 9 1 0 0 0 0 UTC).Year ≤ 2050 :=
  parseExpToTime_ok_utc_in_window localUTC (str "09/22") (Date 2022 9 1 0 0 0 0 UTC) rfl

/-! ## Unknown format -/

theorem ite_unknown_iff (Local : Location) (s layout : GoString) (c : Prop) [Decidable c]
    (rest : Time × Option Err) :
    (if c then timeParser Local layout s else rest).2 = some Err.ErrUnknownFormat ↔
      ¬c ∧ rest.2 = some Err.ErrUnknownFormat := by
  split
  · rename_i hc
    constructor
    · intro h
      exact absurd h (timeParser_error_ne_unknown Local layout s)
    · intro h
      exact absurd hc h.1
  · rename_i hc
    exact ⟨fun h => ⟨hc, h⟩, fun h => h.2⟩

/-- C6: ParseExpToTime returns ErrUnknownFormat exactly when s matches none
of the ten patterns, its length is neither 4 nor 6, and it is not the case
that its length is 5 or 7 and it contains a slash or a minus sign; so a
string to which a positional rule applies is never reported as of unknown
format. -/
theorem parseExpToTime_unknown_iff (Local : Location) (s : GoString) :
    ((ParseExpToTime Local s).2 = some Err.ErrUnknownFormat ↔
      ((∀ p ∈ cardDatePatterns, MatchString p.1 s = false) ∧ s.length ≠ 4 ∧ s.length ≠ 6 ∧
        ¬((s.length = 5 ∨ s.length = 7) ∧
          (stringsContains s (str "/") = true ∨ stringsContains s (str "-") = true)))) ∧
    ((s.length = 4 ∨ s.length = 6 ∨ ((s.length = 5 ∨ s.length = 7) ∧
          (stringsContains s (str "/") = true ∨ stringsContains s (str "-") = true))) →
      (ParseExpToTime Local s).2 ≠ some Err.ErrUnknownFormat) := by
  have key : (ParseExpToTime Local s).2 = some Err.ErrUnknownFormat ↔
      ((∀ p ∈ cardDatePatterns, MatchString p.1 s = false) ∧ s.length ≠ 4 ∧ s.length ≠ 6 ∧
        ¬((s.length = 5 ∨ s.length = 7) ∧
          (stringsContains s (str "/") = true ∨ stringsContains s (str "-") = true))) := by
    unfold ParseExpToTime stringToTime
    simp only [ite_unknown_iff, cardDatePatterns, List.forall_mem_cons, List.not_mem_nil,
      IsEmpty.forall_iff, implies_true, and_true, Bool.not_eq_true]
    tauto
  refine ⟨key, fun h hu => ?_⟩
  have h2 := key.mp hu
  tauto

theorem parseExpToTime_unknown_iff_witness :
    (ParseExpToTime localUTC (str "1/234")).2 ≠ some Err.ErrUnknownFormat ∧
    (ParseExpToTime localUTC (str "1/234")).2 =
      some (Err.parse (newParseError (str "01/06") (str "1/234") (str "01") (str "1/234") [])) :=
  ⟨(parseExpToTime_unknown_iff localUTC (str "1/234")).2 (by decide), by decide⟩

/-! ## The ten patterns exclude one another -/

theorem checkClasses_append (a b : List (Nat → Bool)) (s : GoString) :
    checkClasses (a ++ b) s = (checkClasses a s && checkClasses b (s.drop a.length)) := by
  induction a generalizing s with
  | nil => simp [checkClasses]
  | cons cls a ih =>
    cases s with
    | nil => simp [checkClasses]
    | cons c s => simp [checkClasses, ih, Bool.and_assoc]

theorem repReq_spec (cls : Nat → Bool) (k : GoString → Bool) (n : Nat) (s : GoString)
    (h : repReq cls k n s = true) :
    checkClasses (List.replicate n cls) s = true ∧ k (s.drop n) = true ∧ n ≤ s.length := by
  induction n generalizing s with
  | zero => simpa [repReq, checkClasses] using h
  | succ n ih =>
    cases s with
    | nil => simp [repReq] at h
    | cons c s =>
      simp only [repReq, Bool.and_eq_true] at h
      obtain ⟨h1, h2, h3⟩ := ih s h.2
      refine ⟨?_, ?_, ?_⟩
      · simp [List.replicate, checkClasses, h.1, h1]
      · simpa using h2
      · simpa using h3

theorem repOpt_spec (cls : Nat → Bool) (k : GoString → Bool) (n : Nat) (s : GoString)
    (h : repOpt cls k n s = true) :
    ∃ j, j ≤ n ∧ j ≤ s.length ∧ k (s.drop j) = true := by
  induction n generalizing s with
  | zero => exact ⟨0, le_refl _, Nat.zero_le _, by simpa [repOpt] using h⟩
  | succ n ih =>
    simp only [repOpt, Bool.or_eq_true] at h
    rcases h with h | h
    · exact ⟨0, Nat.zero_le _, Nat.zero_le _, by simpa using h⟩
    · cases s with
      | nil => simp at h
      | cons c s =>
        simp only [Bool.and_eq_true] at h
        obtain ⟨j, hj, hl, hk⟩ := ih s h.2
        exact ⟨j + 1, by omega, by simp; omega, by simpa using hk⟩

theorem matchPieces_fixed (ps : List Piece) (s : GoString) (h : matchPieces ps s = true) :
    checkClasses (fixedClasses ps) s = true := by
  induction ps generalizing s with
  | nil => simp [fixedClasses, checkClasses]
  | cons p ps ih =>
    cases p with
    | dot => simp [fixedClasses, checkClasses]
    | rep cls mn mx =>
      simp only [matchPieces] at h
      obtain ⟨h1, h2, _⟩ := repReq_spec _ _ _ _ h
      simp only [fixedClasses]
      split
      · rename_i hmm
        subst hmm
        simp only [Nat.sub_self, repOpt] at h2
        rw [checkClasses_append, h1, ih _ (by simpa using h2)]
        simp
      · exact h1

theorem runeWidth_le (s : GoString) : runeWidth s ≤ 4 := by
  unfold runeWidth
  split
  · omega
  · dsimp only
    split_ifs <;> first | omega | (split <;> first | omega | (split_ifs <;> omega))

theorem matchPieces_length (ps : List Piece) (s : GoString) (h : matchPieces ps s = true) :
    minLen ps ≤ s.length ∧ s.length ≤ maxLen ps := by
  induction ps generalizing s with
  | nil =>
    cases s with
    | nil => simp [minLen, maxLen]
    | cons c s => simp [matchPieces] at h
  | cons p ps ih =>
    cases p with
    | dot =>
      cases s with
      | nil => simp [matchPieces] at h
      | cons c s =>
        simp only [matchPieces, Bool.and_eq_true] at h
        have := ih _ h.2
        have hw := runeWidth_le (c :: s)
        have hw1 : 1 ≤ runeWidth (c :: s) := by
          unfold runeWidth
          dsimp only
          split_ifs <;> first | omega | (split <;> first | omega | (split_ifs <;> omega))
        simp only [List.length_drop, List.length_cons, minLen, maxLen] at this ⊢
        omega
    | rep cls mn mx =>
      simp only [matchPieces] at h
      obtain ⟨_, h2, h3⟩ := repReq_spec _ _ _ _ h
      obtain ⟨j, hj, hl, hk⟩ := repOpt_spec _ _ _ _ h2
      have := ih _ hk
      simp only [List.length_drop, minLen, maxLen] at this hl ⊢
      omega

theorem checkClasses_getD (cs : List (Nat → Bool)) (s : GoString)
    (h : checkClasses cs s = true) (i : Nat) :
    (cs.getD i (fun _ => true)) (s.getD i 0) = true := by
  induction cs generalizing s i with
  | nil => simp
  | cons cls cs ih =>
    cases s with
    | nil => simp [checkClasses] at h
    | cons c s =>
      simp only [checkClasses, Bool.and_eq_true] at h
      cases i with
      | zero => simpa using h.1
      | succ i => simpa using ih s h.2 i

theorem repReq_or (cls : Nat → Bool) (k k1 k2 : GoString → Bool)
    (hk : ∀ s, k s = true → k1 s = true ∨ k2 s = true) (n : Nat) (s : GoString)
    (h : repReq cls k n s = true) :
    repReq cls k1 n s = true ∨ repReq cls k2 n s = true := by
  induction n generalizing s with
  | zero => exact hk s (by simpa [repReq] using h)
  | succ n ih =>
    cases s with
    | nil => simp [repReq] at h
    | cons c s =>
      simp only [repReq, Bool.and_eq_true] at h ⊢
      rcases ih s h.2 with h1 | h2
      · exact Or.inl ⟨h.1, h1⟩
      · exact Or.inr ⟨h.1, h2⟩

theorem repOpt_or (cls : Nat → Bool) (k k1 k2 : GoString → Bool)
    (hk : ∀ s, k s = true → k1 s = true ∨ k2 s = true) (n : Nat) (s : GoString)
    (h : repOpt cls k n s = true) :
    repOpt cls k1 n s = true ∨ repOpt cls k2 n s = true := by
  induction n generalizing s with
  | zero => exact hk s (by simpa [repOpt] using h)
  | succ n ih =>
    simp only [repOpt, Bool.or_eq_true] at h ⊢
    rcases h with h | h
    · rcases hk s h with h1 | h2
      · exact Or.inl (Or.inl h1)
      · exact Or.inr (Or.inl h2)
    · cases s with
      | nil => simp at h
      | cons c s =>
        simp only [Bool.and_eq_true] at h ⊢
        rcases ih s h.2 with h1 | h2
        · exact Or.inl (Or.inr ⟨h.1, h1⟩)
        · exact Or.inr (Or.inr ⟨h.1, h2⟩)

theorem matchPieces_append_or (A B C : List Piece)
    (hA : ∀ s, matchPieces A s = true → matchPieces B s = true ∨ matchPieces C s = true)
    (X : List Piece) (s : GoString) (h : matchPieces (X ++ A) s = true) :
    matchPieces (X ++ B) s = true ∨ matchPieces (X ++ C) s = true := by
  induction X generalizing s with
  | nil => exact hA s h
  | cons p X ih =>
    cases p with
    | dot =>
      cases s with
      | nil => simp [matchPieces] at h
      | cons c s =>
        simp only [List.cons_append, matchPieces, Bool.and_eq_true] at h ⊢
        rcases ih _ h.2 with h1 | h2
        · exact Or.inl ⟨h.1, h1⟩
        · exact Or.inr ⟨h.1, h2⟩
    | rep cls mn mx =>
      simp only [List.cons_append, matchPieces] at h ⊢
      exact repReq_or cls _ _ _ (fun s hs => repOpt_or cls _ _ _ ih _ s hs) mn s h

theorem rep_one_two_split (cls : Nat → Bool) (Y : List Piece) (s : GoString)
    (h : matchPieces (Piece.rep cls 1 2 :: Y) s = true) :
    matchPieces (Piece.rep cls 1 1 :: Y) s = true ∨
      matchPieces (Piece.rep cls 2 2 :: Y) s = true := by
  cases s with
  | nil => simp [matchPieces, repReq] at h
  | cons c s =>
    simp only [matchPieces, repReq, repOpt, Bool.and_eq_true, Bool.or_eq_true,
      Nat.sub_self, Nat.add_one_sub_one, Nat.reduceSub] at h ⊢
    rcases h with ⟨hc, h | h⟩
    · exact Or.inl ⟨hc, h⟩
    · cases s with
      | nil => simp at h
      | cons d s =>
        simp only [Bool.and_eq_true, repReq] at h ⊢
        exact Or.inr ⟨hc, h.1, h.2⟩

theorem classify_RFC3339 (s : GoString) (h : MatchString cardDateRFC3339Regex s = true) :
    classify s = 0 := by
  have hf := checkClasses_getD _ _ (matchPieces_fixed _ _ h)
  have h0 : clsDigit (s.getD 0 0) = true := hf 0
  have h2 : clsDigit (s.getD 2 0) = true := hf 2
  have hl : s.length ≤ 25 := (matchPieces_length _ _ h).2
  unfold classify
  rw [if_pos h0, if_pos h2, if_pos hl]

theorem classify_RFC3339Nano (s : GoString)
    (h : MatchString cardDateRFC3339NanoRegex s = true) : classify s = 1 := by
  have hf := checkClasses_getD _ _ (matchPieces_fixed _ _ h)
  have h0 : clsDigit (s.getD 0 0) = true := hf 0
  have h2 : clsDigit (s.getD 2 0) = true := hf 2
  have hl : 28 ≤ s.length := (matchPieces_length _ _ h).1
  have hl2 : ¬ s.length ≤ 25 := by omega
  unfold classify
  rw [if_pos h0, if_pos h2, if_neg hl2]

theorem not_digit_of_alpha (c : Nat) (h : clsAlpha c = true) : ¬ clsDigit c = true := by
  simp only [clsAlpha, clsDigit, decide_eq_true_eq] at h ⊢
  omega

theorem not_digit_of_eq (c d : Nat) (hd : d < 48 ∨ 57 < d) (h : (c == d) = true) :
    ¬ clsDigit c = true := by
  simp only [clsDigit, decide_eq_true_eq, beq_iff_eq] at h ⊢
  omega

theorem not_alpha_of_eq (c d : Nat) (hd : d < 65 ∨ (90 < d ∧ d < 97) ∨ 122 < d)
    (h : (c == d) = true) : ¬ clsAlpha c = true := by
  simp only [clsAlpha, decide_eq_true_eq, beq_iff_eq] at h ⊢
  omega

theorem not_alpha_of_sign (c : Nat) (h : clsSign c = true) : ¬ clsAlpha c = true := by
  simp only [clsAlpha, clsSign, decide_eq_true_eq] at h ⊢
  omega

theorem not_alpha_of_digit (c : Nat) (h : clsDigit c = true) : ¬ clsAlpha c = true := by
  simp only [clsAlpha, clsDigit, decide_eq_true_eq] at h ⊢
  omega

theorem not_sign_of_alpha (c : Nat) (h : clsAlpha c = true) : ¬ clsSign c = true := by
  simp only [clsAlpha, clsSign, decide_eq_true_eq] at h ⊢
  omega

theorem not_sign_of_digit (c : Nat) (h : clsDigit c = true) : ¬ clsSign c = true := by
  simp only [clsSign, clsDigit, decide_eq_true_eq] at h ⊢
  omega

theorem classify_RFC1123Z (s : GoString) (h : MatchString cardDateRFC1123ZRegex s = true) :
    classify s = 2 := by
  have hf := checkClasses_getD _ _ (matchPieces_fixed _ _ h)
  have h0 : clsAlpha (s.getD 0 0) = true := hf 0
  have h3 : (s.getD 3 0 == 44) = true := hf 3
  have h26 : clsSign (s.getD 26 0) = true := hf 26
  unfold classify
  rw [if_neg (not_digit_of_alpha _ h0), if_pos (beq_iff_eq.mp h3),
    if_neg (not_alpha_of_sign _ h26)]

theorem classify_RFC1123 (s : GoString) (h : MatchString cardDateRFC1123Regex s = true) :
    classify s = 3 := by
  have hf := checkClasses_getD _ _ (matchPieces_fixed _ _ h)
  have h0 : clsAlpha (s.getD 0 0) = true := hf 0
  have h3 : (s.getD 3 0 == 44) = true := hf 3
  have h26 : clsAlpha (s.getD 26 0) = true := hf 26
  unfold classify
  rw [if_neg (not_digit_of_alpha _ h0), if_pos (beq_iff_eq.mp h3), if_pos h26]

theorem classify_RFC850 (s : GoString) (h : MatchString cardDateRFC850Regex s = true) :
    classify s = 4 := by
  have hf := checkClasses_getD _ _ (matchPieces_fixed _ _ h)
  have h0 : clsAlpha (s.getD 0 0) = true := hf 0
  have h3 : clsAlpha (s.getD 3 0) = true := hf 3
  have h3n : ¬ s.getD 3 0 = 44 := by
    intro he
    rw [he] at h3
    simp [clsAlpha] at h3
  unfold classify
  rw [if_neg (not_digit_of_alpha _ h0), if_neg h3n, if_pos h3]

theorem classify_RFC822 (s : GoString) (h : MatchString cardDateRFC822Regex s = true) :
    classify s = 5 := by
  have hf := checkClasses_getD _ _ (matchPieces_fixed _ _ h)
  have h0 : clsDigit (s.getD 0 0) = true := hf 0
  have h2 : (s.getD 2 0 == 32) = true := hf 2
  have h16 : clsAlpha (s.getD 16 0) = true := hf 16
  unfold classify
  rw [if_pos h0, if_neg (not_digit_of_eq _ 32 (by omega) h2), if_pos h16]

theorem classify_RFC822Z (s : GoString) (h : MatchString cardDateRFC822ZRegex s = true) :
    classify s = 6 := by
  have hf := checkClasses_getD _ _ (matchPieces_fixed _ _ h)
  have h0 : clsDigit (s.getD 0 0) = true := hf 0
  have h2 : (s.getD 2 0 == 32) = true := hf 2
  have h16 : clsSign (s.getD 16 0) = true := hf 16
  unfold classify
  rw [if_pos h0, if_neg (not_digit_of_eq _ 32 (by omega) h2), if_neg (not_alpha_of_sign _ h16)]

theorem classify_tail (s : GoString) (n : Nat) (h0 : clsAlpha (s.getD 0 0) = true)
    (h3 : (s.getD 3 0 == 32) = true)
    (h20 : (clsSign (s.getD 20 0) = true ∧ n = 7) ∨
      (clsAlpha (s.getD 20 0) = true ∧ n = 8) ∨ (clsDigit (s.getD 20 0) = true ∧ n = 9)) :
    classify s = n := by
  have h3n : ¬ s.getD 3 0 = 44 := by
    intro he
    rw [he] at h3
    simp at h3
  unfold classify
  rw [if_neg (not_digit_of_alpha _ h0), if_neg h3n, if_neg (not_alpha_of_eq _ 32 (by omega) h3)]
  rcases h20 with ⟨h, rfl⟩ | ⟨h, rfl⟩ | ⟨h, rfl⟩
  · rw [if_pos h]
  · rw [if_neg (not_sign_of_alpha _ h), if_pos h]
  · rw [if_neg (not_sign_of_digit _ h), if_neg (not_alpha_of_digit _ h)]

theorem classify_Ruby (s : GoString) (h : MatchString cardDateRubyFormatRegex s = true) :
    classify s = 7 := by
  have hf := checkClasses_getD _ _ (matchPieces_fixed _ _ h)
  exact classify_tail s 7 (hf 0) (hf 3) (Or.inl ⟨hf 20, rfl⟩)

theorem classify_Unix (s : GoString) (h : MatchString cardDateUnixFormatRegex s = true) :
    classify s = 8 := by
  have hs := matchPieces_append_or _ _ _ (rep_one_two_split clsDay
    ([lit ' '] ++ hms ++ [lit ' ', Piece.rep clsAlpha 3 4, lit ' ', digits 4]))
    [alphas 3, lit ' ', alphas 3, lit ' '] s h
  rcases hs with h1 | h2
  · have hf := checkClasses_getD _ _ (matchPieces_fixed _ _ h1)
    exact classify_tail s 8 (hf 0) (hf 3) (Or.inr (Or.inl ⟨hf 20, rfl⟩))
  · have hf := checkClasses_getD _ _ (matchPieces_fixed _ _ h2)
    exact classify_tail s 8 (hf 0) (hf 3) (Or.inr (Or.inl ⟨hf 20, rfl⟩))

theorem classify_ANSIC (s : GoString) (h : MatchString cardDateANSICFormatRegex s = true) :
    classify s = 9 := by
  have hs := matchPieces_append_or _ _ _ (rep_one_two_split clsDay
    ([lit ' '] ++ hms ++ [lit ' ', digits 4]))
    [alphas 3, lit ' ', alphas 3, lit ' '] s h
  rcases hs with h1 | h2
  · have hf := checkClasses_getD _ _ (matchPieces_fixed _ _ h1)
    exact classify_tail s 9 (hf 0) (hf 3) (Or.inr (Or.inr ⟨hf 20, rfl⟩))
  · have hf := checkClasses_getD _ _ (matchPieces_fixed _ _ h2)
    exact classify_tail s 9 (hf 0) (hf 3) (Or.inr (Or.inr ⟨hf 20, rfl⟩))

theorem classify_of_match (s : GoString) (i : Nat) (hi : i < cardDatePatterns.length)
    (h : MatchString (cardDatePatterns.get ⟨i, hi⟩).1 s = true) : classify s = i := by
  have h10 : i < 10 := hi
  interval_cases i
  · exact classify_RFC3339 s h
  · exact classify_RFC3339Nano s h
  · exact classify_RFC1123Z s h
  · exact classify_RFC1123 s h
  · exact classify_RFC850 s h
  · exact classify_RFC822 s h
  · exact classify_RFC822Z s h
  · exact classify_Ruby s h
  · exact classify_Unix s h
  · exact classify_ANSIC s h

theorem short_no_match (s : GoString) (hl : s.length ≤ 18) (p : List Piece × GoString)
    (hp : p ∈ cardDatePatterns) : MatchString p.1 s = false := by
  cases hm : MatchString p.1 s with
  | false => rfl
  | true =>
    exfalso
    simp only [cardDatePatterns, List.mem_cons, List.mem_singleton, List.not_mem_nil,
      or_false] at hp
    rcases hp with rfl | rfl | rfl | rfl | rfl | rfl | rfl | rfl | rfl | rfl
    · have h19 : 19 ≤ s.length := le_trans (by decide) (matchPieces_length _ _ hm).1
      omega
    · have h19 : 19 ≤ s.length := le_trans (by decide) (matchPieces_length _ _ hm).1
      omega
    · have h19 : 19 ≤ s.length := le_trans (by decide) (matchPieces_length _ _ hm).1
      omega
    · have h19 : 19 ≤ s.length := le_trans (by decide) (matchPieces_length _ _ hm).1
      omega
    · have h19 : 19 ≤ s.length := le_trans (by decide) (matchPieces_length _ _ hm).1
      omega
    · have h19 : 19 ≤ s.length := le_trans (by decide) (matchPieces_length _ _ hm).1
      omega
    · have h19 : 19 ≤ s.length := le_trans (by decide) (matchPieces_length _ _ hm).1
      omega
    · have h19 : 19 ≤ s.length := le_trans (by decide) (matchPieces_length _ _ hm).1
      omega
    · have h19 : 19 ≤ s.length := le_trans (by decide) (matchPieces_length _ _ hm).1
      omega
    · have h19 : 19 ≤ s.length := le_trans (by decide) (matchPieces_length _ _ hm).1
      omega

theorem stringToTime_of_match (Local : Location) (s : GoString) (p : List Piece × GoString)
    (hp : p ∈ cardDatePatterns) (hm : MatchString p.1 s = true) :
    stringToTime Local s = timeParser Local p.2 s := by
  simp only [cardDatePatterns, List.mem_cons, List.mem_singleton, List.not_mem_nil,
    or_false] at hp
  rcases hp with rfl | rfl | rfl | rfl | rfl | rfl | rfl | rfl | rfl | rfl
  · have hc := classify_RFC3339 s hm
    unfold stringToTime
    rw [if_pos hm]
  · have hc := classify_RFC3339Nano s hm
    have n0 : ¬ MatchString cardDateRFC3339Regex s = true := fun h0 => by
      have := classify_RFC3339 s h0
      omega
    unfold stringToTime
    rw [if_neg n0, if_pos hm]
  · have hc := classify_RFC1123Z s hm
    have n0 : ¬ MatchString cardDateRFC3339Regex s = true := fun h0 => by
      have := classify_RFC3339 s h0
      omega
    have n1 : ¬ MatchString cardDateRFC3339NanoRegex s = true := fun h0 => by
      have := classify_RFC3339Nano s h0
      omega
    unfold stringToTime
    rw [if_neg n0, if_neg n1, if_pos hm]
  · have hc := classify_RFC1123 s hm
    have n0 : ¬ MatchString cardDateRFC3339Regex s = true := fun h0 => by
      have := classify_RFC3339 s h0
      omega
    have n1 : ¬ MatchString cardDateRFC3339NanoRegex s = true := fun h0 => by
      have := classify_RFC3339Nano s h0
      omega
    have n2 : ¬ MatchString cardDateRFC1123ZRegex s = true := fun h0 => by
      have := classify_RFC1123Z s h0
      omega
    unfold stringToTime
    rw [if_neg n0, if_neg n1, if_neg n2, if_pos hm]
  · have hc := classify_RFC850 s hm
    have n0 : ¬ MatchString cardDateRFC3339Regex s = true := fun h0 => by
      have := classify_RFC3339 s h0
      omega
    have n1 : ¬ MatchString cardDateRFC3339NanoRegex s = true := fun h0 => by
      have := classify_RFC3339Nano s h0
      omega
    have n2 : ¬ MatchString cardDateRFC1123ZRegex s = true := fun h0 => by
      have := classify_RFC1123Z s h0
      omega
    have n3 : ¬ MatchString cardDateRFC1123Regex s = true := fun h0 => by
      have := classify_RFC1123 s h0
      omega
    unfold stringToTime
    rw [if_neg n0, if_neg n1, if_neg n2, if_neg n3, if_pos hm]
  · have hc := classify_RFC822 s hm
    have n0 : ¬ MatchString cardDateRFC3339Regex s = true := fun h0 => by
      have := classify_RFC3339 s h0
      omega
    have n1 : ¬ MatchString cardDateRFC3339NanoRegex s = true := fun h0 => by
      have := classify_RFC3339Nano s h0
      omega
    have n2 : ¬ MatchString cardDateRFC1123ZRegex s = true := fun h0 => by
      have := classify_RFC1123Z s h0
      omega
    have n3 : ¬ MatchString cardDateRFC1123Regex s = true := fun h0 => by
      have := classify_RFC1123 s h0
      omega
    have n4 : ¬ MatchString cardDateRFC850Regex s = true := fun h0 => by
      have := classify_RFC850 s h0
      omega
    unfold stringToTime
    rw [if_neg n0, if_neg n1, if_neg n2, if_neg n3, if_neg n4, if_pos hm]
  · have hc := classify_RFC822Z s hm
    have n0 : ¬ MatchString cardDateRFC3339Regex s = true := fun h0 => by
      have := classify_RFC3339 s h0
      omega
    have n1 : ¬ MatchString cardDateRFC3339NanoRegex s = true := fun h0 => by
      have := classify_RFC3339Nano s h0
      omega
    have n2 : ¬ MatchString cardDateRFC1123ZRegex s = true := fun h0 => by
      have := classify_RFC1123Z s h0
      omega
    have n3 : ¬ MatchString cardDateRFC1123Regex s = true := fun h0 => by
      have := classify_RFC1123 s h0
      omega
    have n4 : ¬ MatchString cardDateRFC850Regex s = true := fun h0 => by
      have := classify_RFC850 s h0
      omega
    have n5 : ¬ MatchString cardDateRFC822Regex s = true := fun h0 => by
      have := classify_RFC822 s h0
      omega
    unfold stringToTime
    rw [if_neg n0, if_neg n1, if_neg n2, if_neg n3, if_neg n4, if_neg n5, if_pos hm]
  · have hc := classify_Ruby s hm
    have n0 : ¬ MatchString cardDateRFC3339Regex s = true := fun h0 => by
      have := classify_RFC3339 s h0
      omega
    have n1 : ¬ MatchString cardDateRFC3339NanoRegex s = true := fun h0 => by
      have := classify_RFC3339Nano s h0
      omega
    have n2 : ¬ MatchString cardDateRFC1123ZRegex s = true := fun h0 => by
      have := classify_RFC1123Z s h0
      omega
    have n3 : ¬ MatchString cardDateRFC1123Regex s = true := fun h0 => by
      have := classify_RFC1123 s h0
      omega
    have n4 : ¬ MatchString cardDateRFC850Regex s = true := fun h0 => by
      have := classify_RFC850 s h0
      omega
    have n5 : ¬ MatchString cardDateRFC822Regex s = true := fun h0 => by
      have := classify_RFC822 s h0
      omega
    have n6 : ¬ MatchString cardDateRFC822ZRegex s = true := fun h0 => by
      have := classify_RFC822Z s h0
      omega
    unfold stringToTime
    rw [if_neg n0, if_neg n1, if_neg n2, if_neg n3, if_neg n4, if_neg n5, if_neg n6, if_pos hm]
  · have hc := classify_Unix s hm
    have n0 : ¬ MatchString cardDateRFC3339Regex s = true := fun h0 => by
      have := classify_RFC3339 s h0
      omega
    have n1 : ¬ MatchString cardDateRFC3339NanoRegex s = true := fun h0 => by
      have := classify_RFC3339Nano s h0
      omega
    have n2 : ¬ MatchString cardDateRFC1123ZRegex s = true := fun h0 => by
      have := classify_RFC1123Z s h0
      omega
    have n3 : ¬ MatchString cardDateRFC1123Regex s = true := fun h0 => by
      have := classify_RFC1123 s h0
      omega
    have n4 : ¬ MatchString cardDateRFC850Regex s = true := fun h0 => by
      have := classify_RFC850 s h0
      omega
    have n5 : ¬ MatchString cardDateRFC822Regex s = true := fun h0 => by
      have := classify_RFC822 s h0
      omega
    have n6 : ¬ MatchString cardDateRFC822ZRegex s = true := fun h0 => by
      have := classify_RFC822Z s h0
      omega
    have n7 : ¬ MatchString cardDateRubyFormatRegex s = true := fun h0 => by
      have := classify_Ruby s h0
      omega
    unfold stringToTime
    rw [if_neg n0, if_neg n1, if_neg n2, if_neg n3, if_neg n4, if_neg n5, if_neg n6, if_neg n7, if_pos hm]
  · have hc := classify_ANSIC s hm
    have n0 : ¬ MatchString cardDateRFC3339Regex s = true := fun h0 => by
      have := classify_RFC3339 s h0
      omega
    have n1 : ¬ MatchString cardDateRFC3339NanoRegex s = true := fun h0 => by
      have := classify_RFC3339Nano s h0
      omega
    have n2 : ¬ MatchString cardDateRFC1123ZRegex s = true := fun h0 => by
      have := classify_RFC1123Z s h0
      omega
    have n3 : ¬ MatchString cardDateRFC1123Regex s = true := fun h0 => by
      have := classify_RFC1123 s h0
      omega
    have n4 : ¬ MatchString cardDateRFC850Regex s = true := fun h0 => by
      have := classify_RFC850 s h0
      omega
    have n5 : ¬ MatchString cardDateRFC822Regex s = true := fun h0 => by
      have := classify_RFC822 s h0
      omega
    have n6 : ¬ MatchString cardDateRFC822ZRegex s = true := fun h0 => by
      have := classify_RFC822Z s h0
      omega
    have n7 : ¬ MatchString cardDateRubyFormatRegex s = true := fun h0 => by
      have := classify_Ruby s h0
      omega
    have n8 : ¬ MatchString cardDateUnixFormatRegex s = true := fun h0 => by
      have := classify_Unix s h0
      omega
    unfold stringToTime
    rw [if_neg n0, if_neg n1, if_neg n2, if_neg n3, if_neg n4, if_neg n5, if_neg n6, if_neg n7, if_neg n8, if_pos hm]

theorem match_unique (s : GoString) (p q : List Piece × GoString)
    (hp : p ∈ cardDatePatterns) (hq : q ∈ cardDatePatterns)
    (hmp : MatchString p.1 s = true) (hmq : MatchString q.1 s = true) : p = q := by
  obtain ⟨i, rfl⟩ := List.get_of_mem hp
  obtain ⟨j, rfl⟩ := List.get_of_mem hq
  have hi := classify_of_match s i.1 i.2 hmp
  have hj := classify_of_match s j.1 j.2 hmq
  have : i = j := Fin.ext (hi.symm.trans hj)
  rw [this]

theorem firstMatch_some (s : GoString) (p : List Piece × GoString)
    (hmp : MatchString p.1 s = true) (ps : List (List Piece × GoString))
    (hsub : ∀ q ∈ ps, q ∈ cardDatePatterns) (hp : p ∈ ps) :
    firstMatch ps s = some p.2 := by
  induction ps with
  | nil => simp at hp
  | cons q ps ih =>
    obtain ⟨re, layout⟩ := q
    unfold firstMatch
    by_cases hq : MatchString re s = true
    · rw [if_pos hq]
      have := match_unique s p (re, layout) (hsub p hp) (hsub _ (List.mem_cons_self _ _)) hmp hq
      rw [this]
    · rw [if_neg hq]
      have hne : p ≠ (re, layout) := by
        intro h
        rw [h] at hmp
        exact hq hmp
      rcases List.mem_cons.mp hp with h | h
      · exact absurd h hne
      · exact ih (fun q hq => hsub q (List.mem_cons_of_mem _ hq)) h

theorem firstMatch_none (s : GoString) (ps : List (List Piece × GoString))
    (h : ∀ q ∈ ps, ¬ MatchString q.1 s = true) : firstMatch ps s = Option.none := by
  induction ps with
  | nil => rfl
  | cons q ps ih =>
    obtain ⟨re, layout⟩ := q
    unfold firstMatch
    rw [if_neg (h (re, layout) (List.mem_cons_self _ _))]
    exact ih (fun q hq => h q (List.mem_cons_of_mem _ hq))

theorem firstMatch_perm (s : GoString) (ps : List (List Piece × GoString))
    (hperm : ps.Perm cardDatePatterns) : firstMatch ps s = firstMatch cardDatePatterns s := by
  by_cases h : ∃ p ∈ cardDatePatterns, MatchString p.1 s = true
  · obtain ⟨p, hp, hm⟩ := h
    rw [firstMatch_some s p hm ps (fun q hq => hperm.mem_iff.mp hq) (hperm.mem_iff.mpr hp),
      firstMatch_some s p hm cardDatePatterns (fun q hq => hq) hp]
  · have hn : ∀ q ∈ cardDatePatterns, ¬ MatchString q.1 s = true := fun q hq hm => h ⟨q, hq, hm⟩
    rw [firstMatch_none s ps (fun q hq => hn q (hperm.mem_iff.mp hq)),
      firstMatch_none s cardDatePatterns hn]

theorem stringToTime_firstMatch (Local : Location) (s layout : GoString)
    (h : firstMatch cardDatePatterns s = some layout) :
    stringToTime Local s = timeParser Local layout s := by
  by_cases hex : ∃ p ∈ cardDatePatterns, MatchString p.1 s = true
  · obtain ⟨p, hp, hm⟩ := hex
    rw [firstMatch_some s p hm cardDatePatterns (fun q hq => hq) hp] at h
    simp only [Option.some.injEq] at h
    rw [← h]
    exact stringToTime_of_match Local s p hp hm
  · have hn : ∀ q ∈ cardDatePatterns, ¬ MatchString q.1 s = true :=
      fun q hq hm => hex ⟨q, hq, hm⟩
    rw [firstMatch_none s cardDatePatterns hn] at h
    simp at h

/-- C7: at most one of the ten patterns matches a given string, and no string
of length 4 to 7 matches any of them; so the layout chosen does not depend on
the order in which the patterns are tried: trying them in any other order
selects the same layout, and the layout that stringToTime passes to
timeParser is the layout of whichever pattern matches. -/
theorem patterns_exclusive (Local : Location) (s : GoString) :
    (∀ (i j : Nat) (hi : i < cardDatePatterns.length) (hj : j < cardDatePatterns.length),
      MatchString (cardDatePatterns.get ⟨i, hi⟩).1 s = true →
      MatchString (cardDatePatterns.get ⟨j, hj⟩).1 s = true → i = j) ∧
    (4 ≤ s.length → s.length ≤ 7 → ∀ p ∈ cardDatePatterns, MatchString p.1 s = false) ∧
    (∀ ps : List (List Piece × GoString), ps.Perm cardDatePatterns →
      firstMatch ps s = firstMatch cardDatePatterns s) ∧
    (∀ layout, firstMatch cardDatePatterns s = some layout →
      stringToTime Local s = timeParser Local layout s) ∧
    (∀ p ∈ cardDatePatterns, MatchString p.1 s = true →
      stringToTime Local s = timeParser Local p.2 s) := by
  refine ⟨fun i j hi hj h1 h2 => ?_, fun _ h7 p hp => ?_, fun ps hps => ?_,
    fun layout h => ?_, fun p hp hm => ?_⟩
  · rw [← classify_of_match s i hi h1, ← classify_of_match s j hj h2]
  · exact short_no_match s (by omega) p hp
  · exact firstMatch_perm s ps hps
  · exact stringToTime_firstMatch Local s layout h
  · exact stringToTime_of_match Local s p hp hm

theorem patterns_exclusive_witness :
    stringToTime localUTC (str "2023-11-30T00:00:00Z") =
      timeParser localUTC RFC3339 (str "2023-11-30T00:00:00Z") :=
  (patterns_exclusive localUTC (str "2023-11-30T00:00:00Z")).2.2.2.2
    (cardDateRFC3339Regex, RFC3339) (by simp [cardDatePatterns]) (by decide)

/-- C10: CardDateFromString returns the error of ParseExpToTime, the zero
CardDate when there is an error, and otherwise the valid CardDate holding the
time that ParseExpToTime returns. -/
theorem cardDateFromString_spec (Local : Location) (s : GoString) :
    (CardDateFromString Local s).2 = (ParseExpToTime Local s).2 ∧
    ((ParseExpToTime Local s).2 ≠ Option.none →
      (CardDateFromString Local s).1 = { Time := Time.zero, Valid := false }) ∧
    ((ParseExpToTime Local s).2 = Option.none →
      (CardDateFromString Local s).1 = { Time := (ParseExpToTime Local s).1, Valid := true }) := by
  unfold CardDateFromString
  split
  · rename_i t err he
    rw [he]
    exact ⟨rfl, fun _ => rfl, fun h => by simp at h⟩
  · rename_i t he
    rw [he]
    exact ⟨rfl, fun h => by simp at h, fun _ => rfl⟩

theorem cardDateFromString_spec_witness :
    (CardDateFromString localUTC (str "09/2051")).2 = some Err.ErrInvalidYear ∧
    (CardDateFromString localUTC (str "09/2051")).1 = { Time := Time.zero, Valid := false } :=
  ⟨(cardDateFromString_spec localUTC (str "09/2051")).1.trans (by decide),
   (cardDateFromString_spec localUTC (str "09/2051")).2.1 (by decide)⟩

/-- C9: the code departs from the claim. After SetValidFromStr on 13/22,
which ParseExpToTime rejects with ErrInvalidMonth, the receiver is valid and
holds the zero time, while the other paths from a string to a CardDate
(CardDateFromString, UnmarshalJSON, UnmarshalText, Scan) leave the value
invalid on the same string. -/
theorem setValidFromStr_valid_without_parse :
    (CardDate.zero.SetValidFromStr localUTC (str "13/22")).Valid = true ∧
    (CardDate.zero.SetValidFromStr localUTC (str "13/22")).Time = Time.zero ∧
    (ParseExpToTime localUTC (str "13/22")).2 = some Err.ErrInvalidMonth ∧
    (CardDateFromString localUTC (str "13/22")).1.Valid = false ∧
    (CardDate.zero.UnmarshalJSON localUTC (str "\"13/22\"")).1.Valid = false ∧
    (CardDate.zero.UnmarshalText localUTC (str "13/22")).1.Valid = false ∧
    (CardDate.zero.Scan localUTC (DriverValue.string (str "13/22"))).1.Valid = false :=
  ⟨by decide, rfl, by decide, by decide, by decide, by decide, by decide⟩

/-! ## time.Parse on the positional layouts -/

theorem getnum_two (m : Nat) (hm : m < 100) (rest : GoString) (fx : Bool) :
    getnum (two m ++ rest) fx = some ((m : Int), rest) := by
  have h1 : 48 ≤ 48 + m / 10 ∧ 48 + m / 10 ≤ 57 := by omega
  have h2 : 48 ≤ 48 + m % 10 ∧ 48 + m % 10 ≤ 57 := by omega
  simp only [two, List.cons_append, List.nil_append, getnum, isDigit0, h1, h2, decide_True,
    Bool.not_true, and_self]
  simp only [Bool.false_eq_true, ↓reduceIte, Nat.add_sub_cancel_left, Option.some.injEq,
    Prod.mk.injEq, and_true]
  norm_cast
  omega

theorem atoi_two (y : Nat) (hy : y < 100) : atoi (two y) = some (y : Int) := by
  have h1 : ¬ (48 + y / 10 = 45 ∨ 48 + y / 10 = 43) := by omega
  have h2 : ¬ (48 + y / 10 < 48 ∨ 48 + y / 10 > 57) := by omega
  have h3 : ¬ (48 + y % 10 < 48 ∨ 48 + y % 10 > 57) := by omega
  have h4 : ¬ (9223372036854775808 / 10 < 0 * 10 + (48 + y / 10) - 48) := by omega
  have h5 : ¬ (0 > 9223372036854775808 / 10) := by omega
  have h6 : ¬ (0 * 10 + (48 + y / 10) - 48 > 9223372036854775808) := by omega
  have h7 : ¬ ((0 * 10 + (48 + y / 10) - 48) * 10 + (48 + y % 10) - 48 > 9223372036854775808) := by
    omega
  have h8 : ¬ (0 * 10 + (48 + y / 10) - 48 > 9223372036854775808 / 10) := by omega
  simp only [two, atoi, h1, if_false, leadingInt, h2, h3, h5, h6, h7, h8]
  simp
  omega

theorem atoi_four (y : Nat) (hy : y < 10000) : atoi (four y) = some (y : Int) := by
  have h1 : ¬ (48 + y / 1000 = 45 ∨ 48 + y / 1000 = 43) := by omega
  have a1 : ¬ (48 + y / 1000 < 48 ∨ 48 + y / 1000 > 57) := by omega
  have a2 : ¬ (48 + y / 100 % 10 < 48 ∨ 48 + y / 100 % 10 > 57) := by omega
  have a3 : ¬ (48 + y / 10 % 10 < 48 ∨ 48 + y / 10 % 10 > 57) := by omega
  have a4 : ¬ (48 + y % 10 < 48 ∨ 48 + y % 10 > 57) := by omega
  have b0 : ¬ (0 > 9223372036854775808 / 10) := by omega
  have b1 : ¬ (0 * 10 + (48 + y / 1000) - 48 > 9223372036854775808) := by omega
  have b2 : ¬ (0 * 10 + (48 + y / 1000) - 48 > 9223372036854775808 / 10) := by omega
  have b3 : ¬ ((0 * 10 + (48 + y / 1000) - 48) * 10 + (48 + y / 100 % 10) - 48 >
      9223372036854775808) := by omega
  have b4 : ¬ ((0 * 10 + (48 + y / 1000) - 48) * 10 + (48 + y / 100 % 10) - 48 >
      9223372036854775808 / 10) := by omega
  have b5 : ¬ (((0 * 10 + (48 + y / 1000) - 48) * 10 + (48 + y / 100 % 10) - 48) * 10 +
      (48 + y / 10 % 10) - 48 > 9223372036854775808) := by omega
  have b6 : ¬ (((0 * 10 + (48 + y / 1000) - 48) * 10 + (48 + y / 100 % 10) - 48) * 10 +
      (48 + y / 10 % 10) - 48 > 9223372036854775808 / 10) := by omega
  have b7 : ¬ ((((0 * 10 + (48 + y / 1000) - 48) * 10 + (48 + y / 100 % 10) - 48) * 10 +
      (48 + y / 10 % 10) - 48) * 10 + (48 + y % 10) - 48 > 9223372036854775808) := by omega
  simp only [four, atoi, h1, if_false, leadingInt, a1, a2, a3, a4, b0, b1, b2, b3, b4, b5, b6, b7]
  simp
  omega

theorem parseStd_zeroMonth_bad (layout : GoString) (st : parseState) (m : Nat) (hm : m < 100)
    (hr : m = 0 ∨ 12 < m) (rest : GoString) :
    parseStd Std.stdZeroMonth layout st (two m ++ rest) =
      ({ st with month := (m : Int), rangeErrString := str "month" }, rest, false) := by
  have hi : ((m : Int) ≤ 0 ∨ 12 < (m : Int)) := by omega
  simp only [parseStd, getnum_two m hm, hi, if_true]

theorem parseStd_zeroMonth_ok (layout : GoString) (st : parseState) (m : Nat)
    (h1 : 1 ≤ m) (h12 : m ≤ 12) (rest : GoString) :
    parseStd Std.stdZeroMonth layout st (two m ++ rest) =
      ({ st with month := (m : Int) }, rest, false) := by
  have hi : ¬ ((m : Int) ≤ 0 ∨ 12 < (m : Int)) := by omega
  simp only [parseStd, getnum_two m (by omega), hi, if_false]

theorem parseStd_year (layout : GoString) (st : parseState) (y : Nat) (hy : y < 100) :
    parseStd Std.stdYear layout st (two y) =
      ({ st with year := if (y : Int) ≥ 69 then (y : Int) + 1900 else (y : Int) + 2000 },
        [], false) := by
  have h : ¬ ((two y).length < 2) := by simp [two]
  have ht : List.take 2 (two y) = two y := by simp [two]
  have hd : List.drop 2 (two y) = [] := by simp [two]
  simp only [parseStd, h, if_false, ht, hd, atoi_two y hy]

theorem parseStd_longYear (layout : GoString) (st : parseState) (y : Nat) (hy : y < 10000) :
    parseStd Std.stdLongYear layout st (four y) = ({ st with year := (y : Int) }, [], false) := by
  have hdg : isDigit (four y) 0 = true := by
    have : 48 ≤ 48 + y / 1000 ∧ 48 + y / 1000 ≤ 57 := by omega
    simp [four, isDigit, isDigit0, this]
  have h : ¬ ((four y).length < 4 ∨ (!isDigit (four y) 0) = true) := by
    rw [hdg]
    simp [four]
  have ht : List.take 4 (four y) = four y := by simp [four]
  have hd : List.drop 4 (four y) = [] := by simp [four]
  simp only [parseStd, h, if_false, ht, hd, atoi_four y hy]

theorem parseLoop_step (Local : Location) (al av : GoString) (fuel : Nat)
    (layout value : GoString) (st : parseState) (pre : GoString) (std : Std)
    (suffix value1 : GoString) (h1 : nextStdChunk layout = (pre, std, suffix))
    (h2 : skip value pre = (value1, true)) (h3 : std ≠ Std.none) :
    parseLoop Local al av (fuel + 1) layout value st =
      if (parseStd std suffix st value1).1.rangeErrString ≠ [] then
        (Time.zero, some (newParseError al av
          ((layout.drop pre.length).take (layout.length - pre.length - suffix.length))
          (parseStd std suffix st value1).2.1
          (str ": " ++ (parseStd std suffix st value1).1.rangeErrString ++ str " out of range")))
      else if (parseStd std suffix st value1).2.2 then
        (Time.zero, some (newParseError al av
          ((layout.drop pre.length).take (layout.length - pre.length - suffix.length))
          value1 []))
      else parseLoop Local al av fuel suffix (parseStd std suffix st value1).2.1
        (parseStd std suffix st value1).1 := by
  simp only [parseLoop, h1, h2, h3, Bool.not_true, Bool.false_eq_true, if_false]

theorem parseLoop_end (Local : Location) (al av : GoString) (fuel : Nat)
    (layout value : GoString) (st : parseState) (pre suffix : GoString)
    (h1 : nextStdChunk layout = (pre, Std.none, suffix))
    (h2 : skip value pre = ([], true)) :
    parseLoop Local al av (fuel + 1) layout value st = parseFinish Local al av [] st := by
  simp only [parseLoop, h1, h2, Bool.not_true, Bool.false_eq_true, if_false, if_true,
    List.length_nil, ne_eq, not_true_eq_false]

theorem daysIn_pos (m : Nat) (h1 : 1 ≤ m) (h12 : m ≤ 12) (year : Int) :
    ¬ (1 > daysIn (m : Int) year) := by
  interval_cases m <;> cases hl : isLeap year <;> simp [daysIn, hl] <;> decide

theorem parseFinish_month_year (Local : Location) (al av : GoString) (m : Nat)
    (h1 : 1 ≤ m) (h12 : m ≤ 12) (year : Int) :
    parseFinish Local al av [] { parseState.init with month := (m : Int), year := year } =
      (Date year m 1 0 0 0 0 UTC, Option.none) := by
  have hm : ¬ ((m : Int) < 0) := by omega
  simp only [parseFinish, parseState.init, Bool.false_eq_true, false_and, if_false,
    Int.reduceNeg, ge_iff_le, Int.reduceLE, hm, Int.reduceLT, if_true, daysIn_pos m h1 h12 year,
    ne_eq, not_true_eq_false, false_or, or_self]

theorem skip_nil (value : GoString) : skip value [] = (value, true) := by
  simp [skip, skipLoop]

theorem skip_sep (c : Nat) (hc : c ≠ 32) (rest : GoString) :
    skip (c :: rest) [c] = (rest, true) := by
  simp [skip, skipLoop, hc]

theorem parse_0106 (Local : Location) (m y : Nat) (hm : m < 100) (hy : y < 100) :
    Parse Local (str "0106") (two m ++ two y) =
      if m = 0 ∨ 12 < m then
        (Time.zero, some (newParseError (str "0106") (two m ++ two y) (str "01") (two y)
          (str ": month out of range")))
      else (Date (if (y : Int) ≥ 69 then (y : Int) + 1900 else (y : Int) + 2000) m 1 0 0 0 0 UTC, Option.none) := by
  have e1 : nextStdChunk (str "0106") = ([], Std.stdZeroMonth, str "06") := by decide
  have e2 : nextStdChunk (str "06") = (str "", Std.stdYear, []) := by decide
  have e3 : nextStdChunk [] = ([], Std.none, []) := by decide
  have n1 : str "month" ≠ [] := by decide
  have n2 : ¬ (([] : GoString) ≠ []) := by simp
  unfold Parse
  rw [show (str "0106").length + 1 = 2 + 1 + 1 + 1 from rfl]
  rw [parseLoop_step Local _ _ _ _ _ _ _ _ _ _ e1 (skip_nil _) (by decide)]
  by_cases hr : m = 0 ∨ 12 < m
  · rw [if_pos hr, parseStd_zeroMonth_bad _ _ m hm hr]
    dsimp only
    rw [if_pos n1]
    rfl
  · have h1 : 1 ≤ m := by omega
    have h12 : m ≤ 12 := by omega
    rw [if_neg hr, parseStd_zeroMonth_ok _ _ m h1 h12]
    dsimp only [parseState.init]
    rw [if_neg n2, if_neg (by simp)]
    rw [parseLoop_step Local _ _ _ _ _ _ _ _ _ _ e2 (skip_nil _) (by decide)]
    rw [parseStd_year _ _ y hy]
    dsimp only
    rw [if_neg n2, if_neg (by simp)]
    rw [parseLoop_end Local _ _ _ _ _ _ _ _ e3 (skip_nil _)]
    exact parseFinish_month_year Local _ _ m h1 h12 _

theorem parse_01_slash_06 (Local : Location) (m y : Nat) (hm : m < 100) (hy : y < 100) :
    Parse Local (str "01/06") (two m ++ 47 :: two y) =
      if m = 0 ∨ 12 < m then
        (Time.zero, some (newParseError (str "01/06") (two m ++ 47 :: two y) (str "01") (47 :: two y)
          (str ": month out of range")))
      else (Date (if (y : Int) ≥ 69 then (y : Int) + 1900 else (y : Int) + 2000) m 1 0 0 0 0 UTC, Option.none) := by
  have e1 : nextStdChunk (str "01/06") = ([], Std.stdZeroMonth, str "/06") := by decide
  have e2 : nextStdChunk (str "/06") = (str "/", Std.stdYear, []) := by decide
  have e3 : nextStdChunk [] = ([], Std.none, []) := by decide
  have n1 : str "month" ≠ [] := by decide
  have n2 : ¬ (([] : GoString) ≠ []) := by simp
  unfold Parse
  rw [show (str "01/06").length + 1 = 3 + 1 + 1 + 1 from rfl]
  rw [parseLoop_step Local _ _ _ _ _ _ _ _ _ _ e1 (skip_nil _) (by decide)]
  by_cases hr : m = 0 ∨ 12 < m
  · rw [if_pos hr, parseStd_zeroMonth_bad _ _ m hm hr]
    dsimp only
    rw [if_pos n1]
    rfl
  · have h1 : 1 ≤ m := by omega
    have h12 : m ≤ 12 := by omega
    rw [if_neg hr, parseStd_zeroMonth_ok _ _ m h1 h12]
    dsimp only [parseState.init]
    rw [if_neg n2, if_neg (by simp)]
    rw [parseLoop_step Local _ _ _ _ _ _ _ _ _ _ e2 (skip_sep 47 (by decide) _) (by decide)]
    rw [parseStd_year _ _ y hy]
    dsimp only
    rw [if_neg n2, if_neg (by simp)]
    rw [parseLoop_end Local _ _ _ _ _ _ _ _ e3 (skip_nil _)]
    exact parseFinish_month_year Local _ _ m h1 h12 _

theorem parse_01_dash_06 (Local : Location) (m y : Nat) (hm : m < 100) (hy : y < 100) :
    Parse Local (str "01-06") (two m ++ 45 :: two y) =
      if m = 0 ∨ 12 < m then
        (Time.zero, some (newParseError (str "01-06") (two m ++ 45 :: two y) (str "01") (45 :: two y)
          (str ": month out of range")))
      else (Date (if (y : Int) ≥ 69 then (y : Int) + 1900 else (y : Int) + 2000) m 1 0 0 0 0 UTC, Option.none) := by
  have e1 : nextStdChunk (str "01-06") = ([], Std.stdZeroMonth, str "-06") := by decide
  have e2 : nextStdChunk (str "-06") = (str "-", Std.stdYear, []) := by decide
  have e3 : nextStdChunk [] = ([], Std.none, []) := by decide
  have n1 : str "month" ≠ [] := by decide
  have n2 : ¬ (([] : GoString) ≠ []) := by simp
  unfold Parse
  rw [show (str "01-06").length + 1 = 3 + 1 + 1 + 1 from rfl]
  rw [parseLoop_step Local _ _ _ _ _ _ _ _ _ _ e1 (skip_nil _) (by decide)]
  by_cases hr : m = 0 ∨ 12 < m
  · rw [if_pos hr, parseStd_zeroMonth_bad _ _ m hm hr]
    dsimp only
    rw [if_pos n1]
    rfl
  · have h1 : 1 ≤ m := by omega
    have h12 : m ≤ 12 := by omega
    rw [if_neg hr, parseStd_zeroMonth_ok _ _ m h1 h12]
    dsimp only [parseState.init]
    rw [if_neg n2, if_neg (by simp)]
    rw [parseLoop_step Local _ _ _ _ _ _ _ _ _ _ e2 (skip_sep 45 (by decide) _) (by decide)]
    rw [parseStd_year _ _ y hy]
    dsimp only
    rw [if_neg n2, if_neg (by simp)]
    rw [parseLoop_end Local _ _ _ _ _ _ _ _ e3 (skip_nil _)]
    exact parseFinish_month_year Local _ _ m h1 h12 _

theorem parse_012006 (Local : Location) (m y : Nat) (hm : m < 100) (hy : y < 10000) :
    Parse Local (str "012006") (two m ++ four y) =
      if m = 0 ∨ 12 < m then
        (Time.zero, some (newParseError (str "012006") (two m ++ four y) (str "01") (four y)
          (str ": month out of range")))
      else (Date (y : Int) m 1 0 0 0 0 UTC, Option.none) := by
  have e1 : nextStdChunk (str "012006") = ([], Std.stdZeroMonth, str "2006") := by decide
  have e2 : nextStdChunk (str "2006") = (str "", Std.stdLongYear, []) := by decide
  have e3 : nextStdChunk [] = ([], Std.none, []) := by decide
  have n1 : str "month" ≠ [] := by decide
  have n2 : ¬ (([] : GoString) ≠ []) := by simp
  unfold Parse
  rw [show (str "012006").length + 1 = 4 + 1 + 1 + 1 from rfl]
  rw [parseLoop_step Local _ _ _ _ _ _ _ _ _ _ e1 (skip_nil _) (by decide)]
  by_cases hr : m = 0 ∨ 12 < m
  · rw [if_pos hr, parseStd_zeroMonth_bad _ _ m hm hr]
    dsimp only
    rw [if_pos n1]
    rfl
  · have h1 : 1 ≤ m := by omega
    have h12 : m ≤ 12 := by omega
    rw [if_neg hr, parseStd_zeroMonth_ok _ _ m h1 h12]
    dsimp only [parseState.init]
    rw [if_neg n2, if_neg (by simp)]
    rw [parseLoop_step Local _ _ _ _ _ _ _ _ _ _ e2 (skip_nil _) (by decide)]
    rw [parseStd_longYear _ _ y hy]
    dsimp only
    rw [if_neg n2, if_neg (by simp)]
    rw [parseLoop_end Local _ _ _ _ _ _ _ _ e3 (skip_nil _)]
    exact parseFinish_month_year Local _ _ m h1 h12 _

theorem parse_01_slash_2006 (Local : Location) (m y : Nat) (hm : m < 100) (hy : y < 10000) :
    Parse Local (str "01/2006") (two m ++ 47 :: four y) =
      if m = 0 ∨ 12 < m then
        (Time.zero, some (newParseError (str "01/2006") (two m ++ 47 :: four y) (str "01") (47 :: four y)
          (str ": month out of range")))
      else (Date (y : Int) m 1 0 0 0 0 UTC, Option.none) := by
  have e1 : nextStdChunk (str "01/2006") = ([], Std.stdZeroMonth, str "/2006") := by decide
  have e2 : nextStdChunk (str "/2006") = (str "/", Std.stdLongYear, []) := by decide
  have e3 : nextStdChunk [] = ([], Std.none, []) := by decide
  have n1 : str "month" ≠ [] := by decide
  have n2 : ¬ (([] : GoString) ≠ []) := by simp
  unfold Parse
  rw [show (str "01/2006").length + 1 = 5 + 1 + 1 + 1 from rfl]
  rw [parseLoop_step Local _ _ _ _ _ _ _ _ _ _ e1 (skip_nil _) (by decide)]
  by_cases hr : m = 0 ∨ 12 < m
  · rw [if_pos hr, parseStd_zeroMonth_bad _ _ m hm hr]
    dsimp only
    rw [if_pos n1]
    rfl
  · have h1 : 1 ≤ m := by omega
    have h12 : m ≤ 12 := by omega
    rw [if_neg hr, parseStd_zeroMonth_ok _ _ m h1 h12]
    dsimp only [parseState.init]
    rw [if_neg n2, if_neg (by simp)]
    rw [parseLoop_step Local _ _ _ _ _ _ _ _ _ _ e2 (skip_sep 47 (by decide) _) (by decide)]
    rw [parseStd_longYear _ _ y hy]
    dsimp only
    rw [if_neg n2, if_neg (by simp)]
    rw [parseLoop_end Local _ _ _ _ _ _ _ _ e3 (skip_nil _)]
    exact parseFinish_month_year Local _ _ m h1 h12 _

theorem parse_01_dash_2006 (Local : Location) (m y : Nat) (hm : m < 100) (hy : y < 10000) :
    Parse Local (str "01-2006") (two m ++ 45 :: four y) =
      if m = 0 ∨ 12 < m then
        (Time.zero, some (newParseError (str "01-2006") (two m ++ 45 :: four y) (str "01") (45 :: four y)
          (str ": month out of range")))
      else (Date (y : Int) m 1 0 0 0 0 UTC, Option.none) := by
  have e1 : nextStdChunk (str "01-2006") = ([], Std.stdZeroMonth, str "-2006") := by decide
  have e2 : nextStdChunk (str "-2006") = (str "-", Std.stdLongYear, []) := by decide
  have e3 : nextStdChunk [] = ([], Std.none, []) := by decide
  have n1 : str "month" ≠ [] := by decide
  have n2 : ¬ (([] : GoString) ≠ []) := by simp
  unfold Parse
  rw [show (str "01-2006").length + 1 = 5 + 1 + 1 + 1 from rfl]
  rw [parseLoop_step Local _ _ _ _ _ _ _ _ _ _ e1 (skip_nil _) (by decide)]
  by_cases hr : m = 0 ∨ 12 < m
  · rw [if_pos hr, parseStd_zeroMonth_bad _ _ m hm hr]
    dsimp only
    rw [if_pos n1]
    rfl
  · have h1 : 1 ≤ m := by omega
    have h12 : m ≤ 12 := by omega
    rw [if_neg hr, parseStd_zeroMonth_ok _ _ m h1 h12]
    dsimp only [parseState.init]
    rw [if_neg n2, if_neg (by simp)]
    rw [parseLoop_step Local _ _ _ _ _ _ _ _ _ _ e2 (skip_sep 45 (by decide) _) (by decide)]
    rw [parseStd_longYear _ _ y hy]
    dsimp only
    rw [if_neg n2, if_neg (by simp)]
    rw [parseLoop_end Local _ _ _ _ _ _ _ _ e3 (skip_nil _)]
    exact parseFinish_month_year Local _ _ m h1 h12 _

/-! ## time.Date and the calendar -/

theorem absYear_core (a b c e yd s : Nat) (hb : b ≤ 3) (hc : c ≤ 24) (he : e ≤ 3)
    (hyd : yd < 365) (hs : s < 86400) :
    absYear ((146097 * a + 36524 * b + 1461 * c + 365 * e + yd) * 86400 + s) =
      (((400 * a + 100 * b + 4 * c + e : Nat) : Int) + absoluteZeroYear, yd) := by
  have h0 : ((146097 * a + 36524 * b + 1461 * c + 365 * e + yd) * 86400 + s) / 86400 =
      146097 * a + 36524 * b + 1461 * c + 365 * e + yd := by omega
  have h1 : (146097 * a + 36524 * b + 1461 * c + 365 * e + yd) / 146097 = a := by omega
  have h1' : 146097 * a + 36524 * b + 1461 * c + 365 * e + yd - 146097 * a =
      36524 * b + 1461 * c + 365 * e + yd := by omega
  have h2 : (36524 * b + 1461 * c + 365 * e + yd) / 36524 = b := by omega
  have h2' : b - b / 4 = b := by omega
  have h2'' : 36524 * b + 1461 * c + 365 * e + yd - 36524 * b = 1461 * c + 365 * e + yd := by
    omega
  have h3 : (1461 * c + 365 * e + yd) / 1461 = c := by omega
  have h3' : 1461 * c + 365 * e + yd - 1461 * c = 365 * e + yd := by omega
  have h4 : (365 * e + yd) / 365 = e := by omega
  have h4' : e - e / 4 = e := by omega
  have h4'' : 365 * e + yd - 365 * e = yd := by omega
  simp only [absYear, daysPer400Years, daysPer100Years, daysPer4Years, h0, h1, h1', h2, h2',
    h2'', h3, h3', h4, h4', h4'']

theorem daysSinceEpoch_eq (y : Int) (hy : -292277022399 ≤ y) (hy2 : y ≤ 292277022399) :
    daysSinceEpoch y =
      146097 * ((y + 292277022399).toNat / 400) + 36524 * ((y + 292277022399).toNat % 400 / 100) +
      1461 * ((y + 292277022399).toNat % 100 / 4) + 365 * ((y + 292277022399).toNat % 4) := by
  have hw : wrapUint64 (y - absoluteZeroYear) = (y + 292277022399).toNat := by
    simp only [wrapUint64, absoluteZeroYear]
    omega
  simp only [daysSinceEpoch, hw, daysPer400Years, daysPer100Years, daysPer4Years]
  generalize (y + 292277022399).toNat = Y
  omega

theorem norm_id (hi lo base : Int) (h0 : 0 ≤ lo) (h1 : lo < base) :
    norm hi lo base = (hi, lo) := by
  have a : ¬ lo < 0 := by omega
  have b : ¬ lo ≥ base := by omega
  simp only [norm, a, b, if_false]

theorem time_abs_unixTime (x n : Int) (h1 : 0 ≤ x) (h2 : x ≤ 18446744003434500607) :
    (unixTime (wrapInt64 (x + (absoluteToInternal + internalToUnix))) n).abs = x.toNat := by
  simp only [Time.abs, unixTime, Time.unixSec, wrapInt64, wrapUint64, absoluteToInternal,
    internalToUnix, unixToInternal, internalToAbsolute]
  omega

theorem absYear_date (y : Int) (hy : -1000000 ≤ y) (hy2 : y ≤ 1000000)
    (yd s : Nat) (hyd : yd < 365) (hs : s < 86400) :
    absYear ((daysSinceEpoch y + yd) * 86400 + s) = (y, yd) := by
  rw [daysSinceEpoch_eq y (by omega) (by omega)]
  rw [absYear_core _ _ _ _ yd s (by omega) (by omega) (by omega) hyd hs]
  simp only [absoluteZeroYear, Prod.mk.injEq, and_true]
  omega

theorem date_utc_normal (year month day hour min sec nsec : Int)
    (hmo : 1 ≤ month ∧ month ≤ 12) (hh : 0 ≤ hour ∧ hour < 24) (hmi : 0 ≤ min ∧ min < 60)
    (hs : 0 ≤ sec ∧ sec < 60) (hn : 0 ≤ nsec ∧ nsec < 1000000000) :
    Date year month day hour min sec nsec UTC =
      unixTime (wrapInt64 (((daysSinceEpoch year : Int) + daysBefore (month - 1) +
        (if (isLeap year && decide (month ≥ 3)) = true then 1 else 0) + (day - 1)) * 86400 +
        (hour * 3600 + min * 60 + sec) + (absoluteToInternal + internalToUnix))) nsec := by
  have e1 : norm year (month - 1) 12 = (year, month - 1) := norm_id _ _ _ (by omega) (by omega)
  have e2 : norm sec nsec 1000000000 = (sec, nsec) := norm_id _ _ _ (by omega) (by omega)
  have e3 : norm min sec 60 = (min, sec) := norm_id _ _ _ (by omega) (by omega)
  have e4 : norm hour min 60 = (hour, min) := norm_id _ _ _ (by omega) (by omega)
  have e5 : norm day hour 24 = (day, hour) := norm_id _ _ _ (by omega) (by omega)
  have e6 : month - 1 + 1 = month := by omega
  unfold Date
  simp only [e1]
  simp only [e2]
  simp only [e3, e4, e5, e6]
  simp only [UTC, Loc.lookup]
  rw [if_neg (by simp)]
  simp only [Time.setLoc, unixTime, secondsPerDay]
  split <;> simp only [add_zero]

theorem year_date_first (y : Int) (hy : -1000000 ≤ y) (hy2 : y ≤ 1000000) (m : Nat)
    (h1 : 1 ≤ m) (h12 : m ≤ 12) : (Date y m 1 0 0 0 0 UTC).UTC.Year = y := by
  rw [date_utc_normal y m 1 0 0 0 0 (by omega) (by omega) (by omega) (by omega) (by omega)]
  have hyd : ∃ yd : Nat, yd < 365 ∧ daysBefore ((m : Int) - 1) +
      (if (isLeap y && decide ((m : Int) ≥ 3)) = true then 1 else 0) + (1 - 1) = (yd : Int) := by
    refine ⟨(daysBefore ((m : Int) - 1) +
      (if (isLeap y && decide ((m : Int) ≥ 3)) = true then 1 else 0) + (1 - 1)).toNat, ?_, ?_⟩ <;>
    interval_cases m <;> cases isLeap y <;> simp [daysBefore, daysBeforeTab]
  obtain ⟨yd, hyd, he⟩ := hyd
  have hx : ((daysSinceEpoch y : Int) + daysBefore ((m : Int) - 1) +
      (if (isLeap y && decide ((m : Int) ≥ 3)) = true then 1 else 0) + (1 - 1)) * 86400 +
      (0 * 3600 + 0 * 60 + 0) = (((daysSinceEpoch y + yd) * 86400 + 0 : Nat) : Int) := by
    push_cast
    omega
  rw [hx]
  have hb := daysSinceEpoch_eq y (by omega) (by omega)
  have habs : (unixTime (wrapInt64 ((((daysSinceEpoch y + yd) * 86400 + 0 : Nat) : Int) +
      (absoluteToInternal + internalToUnix))) 0).UTC.abs = (daysSinceEpoch y + yd) * 86400 + 0 := by
    have := time_abs_unixTime (((daysSinceEpoch y + yd) * 86400 + 0 : Nat) : Int) 0
      (by omega) (by omega)
    simpa [Time.UTC, Time.setLoc, unixTime, Time.abs] using this
  unfold Time.Year
  rw [habs, absYear_date y hy hy2 yd 0 hyd (by omega)]

/-! ## Months of instants -/

theorem absDate_year (abs : Nat) : (absDate abs).1 = (absYear abs).1 := by
  unfold absDate
  split
  rename_i year ydayN he
  rw [he]
  dsimp only
  split
  · rfl
  · split <;> rfl

theorem isLeap_iff (y : Int) :
    isLeap y = true ↔ y % 4 = 0 ∧ (y % 100 ≠ 0 ∨ y % 400 = 0) := by
  have h4 : goRem y 4 = 0 ↔ y % 4 = 0 := by
    unfold goRem
    rw [← Int.dvd_iff_tmod_eq_zero, Int.dvd_iff_emod_eq_zero]
  have h100 : goRem y 100 = 0 ↔ y % 100 = 0 := by
    unfold goRem
    rw [← Int.dvd_iff_tmod_eq_zero, Int.dvd_iff_emod_eq_zero]
  have h400 : goRem y 400 = 0 ↔ y % 400 = 0 := by
    unfold goRem
    rw [← Int.dvd_iff_tmod_eq_zero, Int.dvd_iff_emod_eq_zero]
  simp only [isLeap, Bool.and_eq_true, Bool.or_eq_true, beq_iff_eq, bne_iff_ne, ne_eq, h4, h100,
    h400]

theorem absYear_yday (abs : Nat) :
    (absYear abs).2 ≤ 365 ∧ ((absYear abs).2 = 365 → isLeap (absYear abs).1 = true) := by
  rw [isLeap_iff]
  simp only [absYear, daysPer400Years, daysPer100Years, daysPer4Years, absoluteZeroYear]
  generalize abs / 86400 = d
  have hn1 := Nat.div_add_mod d 146097
  have hd1 := Nat.mod_lt d (show 146097 > 0 by norm_num)
  generalize d / 146097 = n1 at *
  have e1 : d - 146097 * n1 = d % 146097 := by omega
  rw [e1]
  generalize d % 146097 = d1 at *
  have hn2 := Nat.div_add_mod d1 36524
  have hd2 := Nat.mod_lt d1 (show 36524 > 0 by norm_num)
  generalize d1 / 36524 = n2 at *
  have hn2' : n2 ≤ 4 := by omega
  have hq2 : n2 / 4 = if n2 = 4 then 1 else 0 := by split <;> omega
  rw [hq2]
  generalize hd2e : d1 - 36524 * (n2 - if n2 = 4 then 1 else 0) = d2
  generalize hn2e : (n2 - if n2 = 4 then 1 else 0) = m2 at *
  have hm2 : m2 ≤ 3 := by split at hn2e <;> omega
  have hd2b : d2 ≤ 36524 := by split at hn2e <;> omega
  have hd2c : d2 = 36524 → m2 = 3 := by split at hn2e <;> omega
  have hn3 := Nat.div_add_mod d2 1461
  have hd3 := Nat.mod_lt d2 (show 1461 > 0 by norm_num)
  generalize d2 / 1461 = n3 at *
  have e3 : d2 - 1461 * n3 = d2 % 1461 := by omega
  rw [e3]
  generalize d2 % 1461 = d3 at *
  have hn4 := Nat.div_add_mod d3 365
  have hd4 := Nat.mod_lt d3 (show 365 > 0 by norm_num)
  generalize d3 / 365 = n4 at *
  have hn4' : n4 ≤ 4 := by omega
  have hq4 : n4 / 4 = if n4 = 4 then 1 else 0 := by split <;> omega
  rw [hq4]
  constructor
  · split <;> omega
  · intro h
    split at h
    · rename_i h4
      subst h4
      simp only [↓reduceIte, Nat.reduceSub, Nat.cast_add, Nat.cast_mul, Nat.cast_ofNat]
      omega
    · omega

theorem month_of_day (day : Int) (h0 : 0 ≤ day) (h1 : day ≤ 364) :
    1 ≤ (if day ≥ daysBefore (day / 31 + 1) then (day / 31 + 1, daysBefore (day / 31 + 1))
          else (day / 31, daysBefore (day / 31))).1 + 1 ∧
    (if day ≥ daysBefore (day / 31 + 1) then (day / 31 + 1, daysBefore (day / 31 + 1))
          else (day / 31, daysBefore (day / 31))).1 + 1 ≤ 12 := by
  obtain ⟨k, hk, hk11⟩ : ∃ k : Nat, day / 31 = (k : Int) ∧ k ≤ 11 :=
    ⟨(day / 31).toNat, by omega, by omega⟩
  rw [hk]
  have key : ∀ (c : Prop) [Decidable c] (a b x y : Int), 0 ≤ a → a ≤ 11 → 0 ≤ b → b ≤ 10 →
      (1 ≤ (if c then (a, x) else (b, y)).1 + 1 ∧ (if c then (a, x) else (b, y)).1 + 1 ≤ 12) := by
    intro c _ a b x y h1 h2 h3 h4
    split <;> constructor <;> dsimp only <;> omega
  by_cases h11 : k = 11
  · subst h11
    have hlt : ¬ (day ≥ daysBefore ((11 : Nat) + 1)) := by
      simp [daysBefore, daysBeforeTab]
      omega
    rw [if_neg hlt]
    constructor <;> dsimp only <;> omega
  · exact key _ _ _ _ _ (by omega) (by omega) (by omega) (by omega)

theorem absDate_month_range (abs : Nat) :
    1 ≤ (absDate abs).2.1 ∧ (absDate abs).2.1 ≤ 12 := by
  have hy := absYear_yday abs
  unfold absDate
  split
  rename_i year ydayN he
  rw [he] at hy
  dsimp only at hy ⊢
  split
  · exact ⟨by norm_num, by norm_num⟩
  · rename_i hleapday
    cases hl : isLeap year
    · have h364 : ydayN ≤ 364 := by
        rcases Nat.lt_or_ge ydayN 365 with h | h
        · omega
        · have := hy.2 (by omega)
          rw [hl] at this
          simp at this
      simp only [Bool.false_and, Bool.false_eq_true, if_false]
      exact month_of_day _ (by omega) (by omega)
    · simp only [hl, Bool.true_and, beq_iff_eq] at hleapday
      simp only [Bool.true_and, decide_eq_true_eq]
      split
      · exact month_of_day _ (by omega) (by omega)
      · exact month_of_day _ (by omega) (by omega)

theorem time_month_range (t : Time) : 1 ≤ t.Month ∧ t.Month ≤ 12 :=
  absDate_month_range t.abs

/-! ## ParseExpToTime on the positional forms -/

theorem hasPre_self (s : GoString) : hasPre s s = true := by
  induction s with
  | nil => rfl
  | cons c s ih => simp [hasPre, ih]

theorem stringsContains_append (a sub : GoString) : stringsContains (a ++ sub) sub = true := by
  induction a with
  | nil =>
    cases sub with
    | nil => rfl
    | cons c s => simp [stringsContains, hasPre_self]
  | cons x a ih => simp [stringsContains, ih]

theorem stringsContains_singleton (s : GoString) (c : Nat) :
    stringsContains s [c] = true ↔ c ∈ s := by
  induction s with
  | nil => simp [stringsContains]
  | cons x s ih =>
    simp only [stringsContains, hasPre, Bool.and_true, Bool.or_eq_true, beq_iff_eq, ih,
      List.mem_cons]
    constructor
    · rintro (h | h)
      · exact Or.inl h.symm
      · exact Or.inr h
    · rintro (h | h)
      · exact Or.inl h.symm
      · exact Or.inr h

theorem timeParser_month_error (Local : Location) (layout value le ve : GoString)
    (h : Parse Local layout value =
      (Time.zero, some (newParseError layout value le ve (str ": month out of range")))) :
    timeParser Local layout value = (Time.zero, some Err.ErrInvalidMonth) := by
  have hc : stringsContains
      (newParseError layout value le ve (str ": month out of range")).Error
      (str "month out of range") = true := by
    have e : (newParseError layout value le ve (str ": month out of range")).Error =
        (str "parsing time " ++ quote value ++ str ": ") ++ str "month out of range" := by
      simp only [ParseError.Error, newParseError]
      rw [if_neg (by decide)]
      have : str ": month out of range" = str ": " ++ str "month out of range" := by decide
      rw [this]
      simp only [List.append_assoc]
    rw [e]
    exact stringsContains_append _ _
  unfold timeParser
  rw [h]
  simp only [hc, if_true]

theorem timeParser_first_of_month (Local : Location) (layout value : GoString) (y : Int)
    (hy : -1000000 ≤ y) (hy2 : y ≤ 1000000) (m : Nat) (h1 : 1 ≤ m) (h12 : m ≤ 12)
    (h : Parse Local layout value = (Date y m 1 0 0 0 0 UTC, Option.none)) :
    timeParser Local layout value =
      if 2001 ≤ y ∧ y ≤ 2050 then (Date y m 1 0 0 0 0 UTC, Option.none)
      else (Time.zero, some Err.ErrInvalidYear) := by
  have hu : (Date y m 1 0 0 0 0 UTC).UTC = Date y m 1 0 0 0 0 UTC := by
    rw [date_utc_normal y m 1 0 0 0 0 (by omega) (by omega) (by omega) (by omega) (by omega)]
    rfl
  unfold timeParser
  rw [h]
  dsimp only
  rw [year_date_first y hy hy2 m h1 h12, hu]
  simp only [invalidYearFrom, invalidYearTo]
  by_cases hw : 2001 ≤ y ∧ y ≤ 2050
  · rw [if_pos hw, if_neg (by omega)]
  · rw [if_neg hw, if_pos (by omega)]

theorem stringToTime_short (Local : Location) (s : GoString) (hl : s.length ≤ 18) :
    stringToTime Local s =
      if s.length = 4 then timeParser Local (str "0106") s
      else if s.length = 6 then timeParser Local (str "012006") s
      else if s.length = 5 ∧ stringsContains s (str "/") then timeParser Local (str "01/06") s
      else if s.length = 5 ∧ stringsContains s (str "-") then timeParser Local (str "01-06") s
      else if s.length = 7 ∧ stringsContains s (str "/") then timeParser Local (str "01/2006") s
      else if s.length = 7 ∧ stringsContains s (str "-") then timeParser Local (str "01-2006") s
      else (Time.zero, some Err.ErrUnknownFormat) := by
  have hn : ∀ p ∈ cardDatePatterns, ¬ MatchString p.1 s = true := fun p hp => by
    rw [short_no_match s hl p hp]
    simp
  have m0 := hn (cardDateRFC3339Regex, RFC3339) (by simp [cardDatePatterns])
  have m1 := hn (cardDateRFC3339NanoRegex, RFC3339Nano) (by simp [cardDatePatterns])
  have m2 := hn (cardDateRFC1123ZRegex, RFC1123Z) (by simp [cardDatePatterns])
  have m3 := hn (cardDateRFC1123Regex, RFC1123) (by simp [cardDatePatterns])
  have m4 := hn (cardDateRFC850Regex, RFC850) (by simp [cardDatePatterns])
  have m5 := hn (cardDateRFC822Regex, RFC822) (by simp [cardDatePatterns])
  have m6 := hn (cardDateRFC822ZRegex, RFC822Z) (by simp [cardDatePatterns])
  have m7 := hn (cardDateRubyFormatRegex, RubyDate) (by simp [cardDatePatterns])
  have m8 := hn (cardDateUnixFormatRegex, UnixDate) (by simp [cardDatePatterns])
  have m9 := hn (cardDateANSICFormatRegex, ANSIC) (by simp [cardDatePatterns])
  unfold stringToTime
  rw [if_neg m0, if_neg m1, if_neg m2, if_neg m3, if_neg m4, if_neg m5, if_neg m6, if_neg m7,
    if_neg m8, if_neg m9]

theorem two_length (n : Nat) : (two n).length = 2 := rfl

theorem four_length (n : Nat) : (four n).length = 4 := rfl

theorem not_mem_two (c n : Nat) (hc : c < 48) : c ∉ two n := by
  simp only [two, List.mem_cons, List.mem_singleton, List.not_mem_nil, or_false]
  omega

theorem not_mem_four (c n : Nat) (hc : c < 48) : c ∉ four n := by
  simp only [four, List.mem_cons, List.mem_singleton, List.not_mem_nil, or_false]
  omega

theorem stringToTime_MMYY (Local : Location) (m y : Nat) :
    stringToTime Local (two m ++ two y) = timeParser Local (str "0106") (two m ++ two y) := by
  rw [stringToTime_short Local _ (by simp [two_length]), if_pos (by simp [two_length])]

theorem stringToTime_MMYYYY (Local : Location) (m y : Nat) :
    stringToTime Local (two m ++ four y) = timeParser Local (str "012006") (two m ++ four y) := by
  rw [stringToTime_short Local _ (by simp [two_length, four_length]),
    if_neg (by simp [two_length, four_length]), if_pos (by simp [two_length, four_length])]

theorem stringToTime_MM_slash_YY (Local : Location) (m y : Nat) :
    stringToTime Local (two m ++ 47 :: two y) =
      timeParser Local (str "01/06") (two m ++ 47 :: two y) := by
  have hc : stringsContains (two m ++ 47 :: two y) (str "/") = true :=
    (stringsContains_singleton _ 47).mpr (by simp)
  rw [stringToTime_short Local _ (by simp [two_length]), if_neg (by simp [two_length]),
    if_neg (by simp [two_length]), if_pos ⟨by simp [two_length], hc⟩]

theorem stringToTime_MM_dash_YY (Local : Location) (m y : Nat) :
    stringToTime Local (two m ++ 45 :: two y) =
      timeParser Local (str "01-06") (two m ++ 45 :: two y) := by
  have hc : stringsContains (two m ++ 45 :: two y) (str "-") = true :=
    (stringsContains_singleton _ 45).mpr (by simp)
  have hs : ¬ stringsContains (two m ++ 45 :: two y) (str "/") = true := by
    rw [show str "/" = [47] from rfl, stringsContains_singleton]
    have := not_mem_two 47 m (by omega)
    have := not_mem_two 47 y (by omega)
    simp [*]
  rw [stringToTime_short Local _ (by simp [two_length]), if_neg (by simp [two_length]),
    if_neg (by simp [two_length]), if_neg (fun h => hs h.2), if_pos ⟨by simp [two_length], hc⟩]

theorem stringToTime_MM_slash_YYYY (Local : Location) (m y : Nat) :
    stringToTime Local (two m ++ 47 :: four y) =
      timeParser Local (str "01/2006") (two m ++ 47 :: four y) := by
  have hc : stringsContains (two m ++ 47 :: four y) (str "/") = true :=
    (stringsContains_singleton _ 47).mpr (by simp)
  rw [stringToTime_short Local _ (by simp [two_length, four_length]),
    if_neg (by simp [two_length, four_length]), if_neg (by simp [two_length, four_length]),
    if_neg (by simp [two_length, four_length]), if_neg (by simp [two_length, four_length]),
    if_pos ⟨by simp [two_length, four_length], hc⟩]

theorem stringToTime_MM_dash_YYYY (Local : Location) (m y : Nat) :
    stringToTime Local (two m ++ 45 :: four y) =
      timeParser Local (str "01-2006") (two m ++ 45 :: four y) := by
  have hc : stringsContains (two m ++ 45 :: four y) (str "-") = true :=
    (stringsContains_singleton _ 45).mpr (by simp)
  have hs : ¬ stringsContains (two m ++ 45 :: four y) (str "/") = true := by
    rw [show str "/" = [47] from rfl, stringsContains_singleton]
    have := not_mem_two 47 m (by omega)
    have := not_mem_four 47 y (by omega)
    simp [*]
  rw [stringToTime_short Local _ (by simp [two_length, four_length]),
    if_neg (by simp [two_length, four_length]), if_neg (by simp [two_length, four_length]),
    if_neg (by simp [two_length, four_length]), if_neg (by simp [two_length, four_length]),
    if_neg (fun h => hs h.2), if_pos ⟨by simp [two_length, four_length], hc⟩]


/-- C3: month overflow precedence. For a two-digit month field that is 00 or
13 .. 99 and any year field of decimal digits, ParseExpToTime returns
ErrInvalidMonth on each of the forms MMYY, MM/YY, MM-YY, MMYYYY, MM/YYYY and
MM-YYYY, whatever the year (47 and 45 are the bytes of the slash and of the
minus sign). -/
theorem month_overflow_precedence (Local : Location) (m yy yyyy : Nat) (hm : m < 100)
    (hbad : m = 0 ∨ 13 ≤ m) (hyy : yy < 100) (hyyyy : yyyy < 10000) :
    (ParseExpToTime Local (two m ++ two yy)).2 = some Err.ErrInvalidMonth ∧
    (ParseExpToTime Local (two m ++ 47 :: two yy)).2 = some Err.ErrInvalidMonth ∧
    (ParseExpToTime Local (two m ++ 45 :: two yy)).2 = some Err.ErrInvalidMonth ∧
    (ParseExpToTime Local (two m ++ four yyyy)).2 = some Err.ErrInvalidMonth ∧
    (ParseExpToTime Local (two m ++ 47 :: four yyyy)).2 = some Err.ErrInvalidMonth ∧
    (ParseExpToTime Local (two m ++ 45 :: four yyyy)).2 = some Err.ErrInvalidMonth := by
  have hr : m = 0 ∨ 12 < m := by omega
  have p1 := parse_0106 Local m yy hm hyy
  have p2 := parse_01_slash_06 Local m yy hm hyy
  have p3 := parse_01_dash_06 Local m yy hm hyy
  have p4 := parse_012006 Local m yyyy hm hyyyy
  have p5 := parse_01_slash_2006 Local m yyyy hm hyyyy
  have p6 := parse_01_dash_2006 Local m yyyy hm hyyyy
  rw [if_pos hr] at p1 p2 p3 p4 p5 p6
  unfold ParseExpToTime
  rw [stringToTime_MMYY, stringToTime_MM_slash_YY, stringToTime_MM_dash_YY,
    stringToTime_MMYYYY, stringToTime_MM_slash_YYYY, stringToTime_MM_dash_YYYY,
    timeParser_month_error Local _ _ _ _ p1, timeParser_month_error Local _ _ _ _ p2,
    timeParser_month_error Local _ _ _ _ p3, timeParser_month_error Local _ _ _ _ p4,
    timeParser_month_error Local _ _ _ _ p5, timeParser_month_error Local _ _ _ _ p6]
  exact ⟨rfl, rfl, rfl, rfl, rfl, rfl⟩

theorem month_overflow_precedence_witness :
    (ParseExpToTime localUTC (str "13/22")).2 = some Err.ErrInvalidMonth :=
  (month_overflow_precedence localUTC 13 22 2022 (by decide) (by decide) (by decide)
    (by decide)).2.1

/-- C4: year boundary on the layouts with a four-digit year. For a month 01 ..
12 and a four-digit year, ParseExpToTime on MM/YYYY, MM-YYYY and MMYYYY returns
the first day of that month at 00:00:00 UTC when the year is 2001 .. 2050, and
otherwise the zero time with ErrInvalidYear. -/
theorem year_boundary_long_layouts (Local : Location) (m yyyy : Nat) (h1 : 1 ≤ m)
    (h12 : m ≤ 12) (hyyyy : yyyy < 10000) :
    ParseExpToTime Local (two m ++ 47 :: four yyyy) =
      (if 2001 ≤ yyyy ∧ yyyy ≤ 2050 then (Date yyyy m 1 0 0 0 0 UTC, Option.none)
       else (Time.zero, some Err.ErrInvalidYear)) ∧
    ParseExpToTime Local (two m ++ 45 :: four yyyy) =
      (if 2001 ≤ yyyy ∧ yyyy ≤ 2050 then (Date yyyy m 1 0 0 0 0 UTC, Option.none)
       else (Time.zero, some Err.ErrInvalidYear)) ∧
    ParseExpToTime Local (two m ++ four yyyy) =
      (if 2001 ≤ yyyy ∧ yyyy ≤ 2050 then (Date yyyy m 1 0 0 0 0 UTC, Option.none)
       else (Time.zero, some Err.ErrInvalidYear)) := by
  have hr : ¬ (m = 0 ∨ 12 < m) := by omega
  have p4 := parse_012006 Local m yyyy (by omega) hyyyy
  have p5 := parse_01_slash_2006 Local m yyyy (by omega) hyyyy
  have p6 := parse_01_dash_2006 Local m yyyy (by omega) hyyyy
  rw [if_neg hr] at p4 p5 p6
  have e : (2001 ≤ (yyyy : Int) ∧ (yyyy : Int) ≤ 2050) ↔ (2001 ≤ yyyy ∧ yyyy ≤ 2050) := by omega
  unfold ParseExpToTime
  rw [stringToTime_MMYYYY, stringToTime_MM_slash_YYYY, stringToTime_MM_dash_YYYY,
    timeParser_first_of_month Local _ _ yyyy (by omega) (by omega) m h1 h12 p4,
    timeParser_first_of_month Local _ _ yyyy (by omega) (by omega) m h1 h12 p5,
    timeParser_first_of_month Local _ _ yyyy (by omega) (by omega) m h1 h12 p6]
  simp only [e, and_self]

theorem year_boundary_long_layouts_witness :
    ParseExpToTime localUTC (str "09/2000") = (Time.zero, some Err.ErrInvalidYear) ∧
    ParseExpToTime localUTC (str "09/2001") = (Date 2001 9 1 0 0 0 0 UTC, Option.none) ∧
    ParseExpToTime localUTC (str "09/2050") = (Date 2050 9 1 0 0 0 0 UTC, Option.none) ∧
    ParseExpToTime localUTC (str "09/2051") = (Time.zero, some Err.ErrInvalidYear) :=
  ⟨(year_boundary_long_layouts localUTC 9 2000 (by decide) (by decide) (by decide)).1,
   (year_boundary_long_layouts localUTC 9 2001 (by decide) (by decide) (by decide)).1,
   (year_boundary_long_layouts localUTC 9 2050 (by decide) (by decide) (by decide)).1,
   (year_boundary_long_layouts localUTC 9 2051 (by decide) (by decide) (by decide)).1⟩

theorem parse_MM_slash_YY (Local : Location) (m yy : Nat) (h1 : 1 ≤ m) (h12 : m ≤ 12)
    (hyy : yy < 100) :
    Parse Local (str "01/06") (two m ++ 47 :: two yy) =
      (Date (if yy ≥ 69 then 1900 + yy else 2000 + yy : Nat) m 1 0 0 0 0 UTC, Option.none) := by
  have hr : ¬ (m = 0 ∨ 12 < m) := by omega
  have p2 := parse_01_slash_06 Local m yy (by omega) hyy
  rw [if_neg hr] at p2
  have ey : (if (yy : Int) ≥ 69 then (yy : Int) + 1900 else (yy : Int) + 2000) =
      ((if yy ≥ 69 then 1900 + yy else 2000 + yy : Nat) : Int) := by
    split <;> split <;> omega
  rw [ey] at p2
  exact p2

theorem parseExpToTime_MM_slash_YY (Local : Location) (m yy : Nat) (h1 : 1 ≤ m) (h12 : m ≤ 12)
    (hyy : yy < 100) :
    ParseExpToTime Local (two m ++ 47 :: two yy) =
      (if 1 ≤ yy ∧ yy ≤ 50 then (Date (2000 + yy : Nat) m 1 0 0 0 0 UTC, Option.none)
       else (Time.zero, some Err.ErrInvalidYear)) := by
  have p2 := parse_MM_slash_YY Local m yy h1 h12 hyy
  have hb : (if yy ≥ 69 then 1900 + yy else 2000 + yy : Nat) ≤ 2099 := by split <;> omega
  unfold ParseExpToTime
  rw [stringToTime_MM_slash_YY,
    timeParser_first_of_month Local _ _ _ (by omega) (by omega) m h1 h12 p2]
  by_cases hw : 1 ≤ yy ∧ yy ≤ 50
  · have e2 : (if yy ≥ 69 then 1900 + yy else 2000 + yy : Nat) = 2000 + yy := by
      rw [if_neg (by omega)]
    rw [if_pos hw, e2, if_pos (by omega)]
  · rw [if_neg hw, if_neg]
    split <;> omega

/-- C5: the layout with a two-digit year. For a month 01 .. 12 and two decimal
digits YY, time.Parse reads YY as year 2000 + YY below 69 and as 1900 + YY from
69 on, and ParseExpToTime on MM/YY (47 is the byte of the slash) returns the
first day of month MM of year 2000 + YY at 00:00:00 UTC when YY is 01 .. 50,
and the zero time with ErrInvalidYear for every other YY. -/
theorem two_digit_year_layout (Local : Location) (m yy : Nat) (h1 : 1 ≤ m) (h12 : m ≤ 12)
    (hyy : yy < 100) :
    Parse Local (str "01/06") (two m ++ 47 :: two yy) =
      (Date (if yy ≥ 69 then 1900 + yy else 2000 + yy : Nat) m 1 0 0 0 0 UTC, Option.none) ∧
    ParseExpToTime Local (two m ++ 47 :: two yy) =
      (if 1 ≤ yy ∧ yy ≤ 50 then (Date (2000 + yy : Nat) m 1 0 0 0 0 UTC, Option.none)
       else (Time.zero, some Err.ErrInvalidYear)) := by
  constructor
  · exact parse_MM_slash_YY Local m yy h1 h12 hyy
  · exact parseExpToTime_MM_slash_YY Local m yy h1 h12 hyy

theorem two_digit_year_layout_witness :
    ParseExpToTime localUTC (str "09/22") = (Date 2022 9 1 0 0 0 0 UTC, Option.none) :=
  (two_digit_year_layout localUTC 9 22 (by decide) (by decide) (by decide)).2

/-! ## Rendering and the round trip -/

theorem appendInt_two (b : GoString) (x : Int) (h0 : 0 ≤ x) (h1 : x < 100) :
    appendInt b x 2 = b ++ two x.toNat := by
  have hn : ¬ x < 0 := by omega
  have he : x.natAbs = x.toNat := by omega
  have hu : x.toNat < 100 := by omega
  simp only [appendInt, hn, if_false, he, hu, and_self, if_true, two]

theorem formatStd_zeroMonth (t : Time) (b : GoString) :
    formatStd t b Std.stdZeroMonth = appendInt b (absDate t.abs).2.1 2 := by
  rcases h : absDate t.abs with ⟨y, m, d, yd⟩
  rcases h2 : absClock t.abs with ⟨hh, mm, ss⟩
  simp only [formatStd, h, h2]

theorem formatStd_year (t : Time) (b : GoString) :
    formatStd t b Std.stdYear =
      appendInt b (goRem (if (absDate t.abs).1 < 0 then -(absDate t.abs).1
        else (absDate t.abs).1) 100) 2 := by
  rcases h : absDate t.abs with ⟨y, m, d, yd⟩
  rcases h2 : absClock t.abs with ⟨hh, mm, ss⟩
  simp only [formatStd, h, h2]

theorem formatLoop_0106 (t : Time) :
    t.Format (str "01/06") =
      formatStd t (formatStd t [] Std.stdZeroMonth ++ str "/") Std.stdYear := by
  have e1 : nextStdChunk (str "01/06") = ([], Std.stdZeroMonth, str "/06") := by decide
  have e2 : nextStdChunk (str "/06") = (str "/", Std.stdYear, []) := by decide
  have hl1 : (str "01/06").length + 1 = 4 + 1 + 1 := rfl
  have hne1 : ¬ (str "01/06" = []) := by decide
  have hne2 : ¬ (str "/06" = []) := by decide
  have hs1 : ¬ (Std.stdZeroMonth = Std.none) := by decide
  have hs2 : ¬ (Std.stdYear = Std.none) := by decide
  unfold Time.Format
  rw [hl1]
  simp only [formatLoop, hne1, hne2, if_false, e1, e2, hs1, hs2, List.nil_append, if_true]


theorem format_0106 (t : Time) :
    t.Format (str "01/06") = two t.Month.toNat ++ 47 :: two (t.Year.natAbs % 100) := by
  have hm := time_month_range t
  have hy : (absDate t.abs).1 = t.Year := absDate_year t.abs
  have hmo : (absDate t.abs).2.1 = t.Month := rfl
  rw [formatLoop_0106, formatStd_year, formatStd_zeroMonth, hy, hmo]
  have hg : goRem (if t.Year < 0 then -t.Year else t.Year) 100 =
      ((t.Year.natAbs % 100 : Nat) : Int) := by
    unfold goRem
    rw [Int.tmod_eq_emod (by split <;> omega) (by norm_num)]
    split <;> omega
  rw [hg, appendInt_two _ t.Month (by omega) (by omega),
    appendInt_two _ _ (by omega) (by omega), Int.toNat_ofNat]
  rfl

/-- C8, as the claim states it, fails for a negative year: the date of March
of year -5 renders as 03/05, while -5 mod 100 is 95 and the Go remainder of -5
by 100 is -5. -/
theorem string_of_negative_year :
    (CardDateFrom (Date (-5) 3 1 0 0 0 0 UTC)).Valid = true ∧
    (CardDateFrom (Date (-5) 3 1 0 0 0 0 UTC)).Time.Year = -5 ∧
    (CardDateFrom (Date (-5) 3 1 0 0 0 0 UTC)).Time.Month = 3 ∧
    (CardDateFrom (Date (-5) 3 1 0 0 0 0 UTC)).String = str "03/05" ∧
    (CardDateFrom (Date (-5) 3 1 0 0 0 0 UTC)).String ≠
      two 3 ++ 47 :: two ((-5 : Int) % 100).toNat ∧
    goRem (-5) 100 = -5 := by
  decide

/-- C8, amended: a valid CardDate renders as exactly five characters, the
two-digit zero-padded month of its time (a month 1 .. 12), a slash, and the
two-digit zero-padded value of the absolute value of the year mod 100, which
is the year mod 100 when the year is not negative; an invalid CardDate renders
as null whatever its time. -/
theorem string_canonical (c : CardDate) :
    (c.Valid = true →
      c.String = two c.Time.Month.toNat ++ 47 :: two (c.Time.Year.natAbs % 100) ∧
      c.String.length = 5 ∧ 1 ≤ c.Time.Month ∧ c.Time.Month ≤ 12 ∧
      (0 ≤ c.Time.Year → ((c.Time.Year.natAbs % 100 : Nat) : Int) = c.Time.Year % 100)) ∧
    (c.Valid = false → c.String = str "null") := by
  constructor
  · intro hv
    have hs : c.String = two c.Time.Month.toNat ++ 47 :: two (c.Time.Year.natAbs % 100) := by
      unfold CardDate.String
      rw [if_pos hv, format_0106]
    refine ⟨hs, ?_, (time_month_range c.Time).1, (time_month_range c.Time).2, fun h => by omega⟩
    rw [hs]
    rfl
  · intro hv
    unfold CardDate.String
    rw [if_neg (by simp [hv])]

theorem string_canonical_witness :
    (NewCardDate (Date 2022 9 1 0 0 0 0 UTC) true).String =
      two (Date 2022 9 1 0 0 0 0 UTC).Month.toNat ++
        47 :: two ((Date 2022 9 1 0 0 0 0 UTC).Year.natAbs % 100) ∧
    (NewCardDate (Date 2022 9 1 0 0 0 0 UTC) false).String = str "null" :=
  ⟨((string_canonical (NewCardDate (Date 2022 9 1 0 0 0 0 UTC) true)).1 rfl).1,
   (string_canonical (NewCardDate (Date 2022 9 1 0 0 0 0 UTC) false)).2 rfl⟩

/-- C2: round trip. For a date d in UTC whose year is 2001 .. 2050 and whose
month is 1 .. 12, whatever its day and time of day, parsing the rendering of
CardDateFrom d returns no error and the valid CardDate of the first day of the
month and year of d at 00:00:00.000000000 UTC. -/
theorem round_trip (Local : Location) (d : Time) (_hu : d.loc = UTC)
    (hy : 2001 ≤ d.Year ∧ d.Year ≤ 2050) (hm : 1 ≤ d.Month ∧ d.Month ≤ 12) :
    CardDateFromString Local (CardDateFrom d).String =
      ({ Time := Date d.Year d.Month 1 0 0 0 0 UTC, Valid := true }, Option.none) := by
  have hs : (CardDateFrom d).String = two d.Month.toNat ++ 47 :: two (d.Year.natAbs % 100) := by
    unfold CardDateFrom NewCardDate CardDate.String
    rw [if_pos rfl, format_0106]
  have hp := parseExpToTime_MM_slash_YY Local d.Month.toNat (d.Year.natAbs % 100) (by omega)
    (by omega) (by omega)
  rw [if_pos (by omega)] at hp
  have e1 : ((2000 + d.Year.natAbs % 100 : Nat) : Int) = d.Year := by omega
  have e2 : ((d.Month.toNat : Nat) : Int) = d.Month := by omega
  rw [e1, e2] at hp
  unfold CardDateFromString
  rw [hs, hp]

theorem round_trip_witness :
    CardDateFromString localUTC (CardDateFrom (Date 2022 9 17 13 45 10 99 UTC)).String =
      ({ Time := Date 2022 9 1 0 0 0 0 UTC, Valid := true }, Option.none) :=
  round_trip localUTC (Date 2022 9 17 13 45 10 99 UTC) rfl (by decide) (by decide)

/-! ## The bounds on the loops are immaterial -/

theorem dropWhile_length_le (p : Nat → Bool) (l : GoString) :
    (l.dropWhile p).length ≤ l.length :=
  (List.dropWhile_sublist p).length_le

theorem chunk_some_length (n : Nat) (k : Nat) (std : Std) (x : GoString) (hx : x.length < n) :
    ∀ k1 std1 suf, some (k, std, x) = some (k1, std1, suf) → suf.length < n := by
  intro k1 std1 suf h
  simp only [Option.some.injEq, Prod.mk.injEq] at h
  obtain ⟨_, _, rfl⟩ := h
  exact hx

theorem chunk_none_length (n : Nat) :
    ∀ k1 std1 (suf : GoString), (Option.none : Option (Nat × Std × GoString)) =
      some (k1, std1, suf) → suf.length < n := by
  intro k1 std1 suf h
  simp at h

theorem chunk_ite_length (n : Nat) (c : Prop) [Decidable c] (a b : Option (Nat × Std × GoString))
    (ha : ∀ k std suf, a = some (k, std, suf) → suf.length < n)
    (hb : ∀ k std suf, b = some (k, std, suf) → suf.length < n) :
    ∀ k std suf, (if c then a else b) = some (k, std, suf) → suf.length < n := by
  split
  · exact ha
  · exact hb

theorem stdChunkAt_length (l : GoString) :
    ∀ k std suf, stdChunkAt l = some (k, std, suf) → suf.length < l.length := by
  cases l with
  | nil =>
    intro k std suf h
    simp [stdChunkAt] at h
  | cons c rest =>
    cases rest with
    | nil =>
      unfold stdChunkAt
      dsimp only
      repeat' apply chunk_ite_length
      all_goals first
        | exact chunk_none_length _
        | exact chunk_some_length _ _ _ _ (by simp)
    | cons d rest2 =>
      have hdw := dropWhile_length_le (fun b => b == d) (d :: rest2)
      unfold stdChunkAt
      dsimp only
      repeat' apply chunk_ite_length
      all_goals first
        | exact chunk_none_length _
        | exact chunk_some_length _ _ _ _ (by simp only [List.length_drop, List.length_cons]; omega)
        | exact chunk_some_length _ _ _ _ (by simp only [List.length_cons] at hdw ⊢; omega)


theorem nextStdChunkFrom_length (l : GoString) :
    ∀ seen, (nextStdChunkFrom seen l).2.1 ≠ Std.none →
      (nextStdChunkFrom seen l).2.2.length < l.length := by
  induction l with
  | nil =>
    intro seen h
    simp [nextStdChunkFrom] at h
  | cons c rest ih =>
    intro seen h
    unfold nextStdChunkFrom at h ⊢
    split at h
    · rename_i k std suffix he
      exact stdChunkAt_length _ _ _ _ he
    · have := ih _ h
      simp only [List.length_cons]
      omega

theorem nextStdChunk_length (layout pre suffix : GoString) (std : Std)
    (h : nextStdChunk layout = (pre, std, suffix)) (hs : std ≠ Std.none) :
    suffix.length < layout.length := by
  have := nextStdChunkFrom_length layout []
  unfold nextStdChunk at h
  rw [h] at this
  exact this hs

/-- The bound on the turns of parseLoop is immaterial: any two bounds above
the length of the layout give the same result. -/
theorem parseLoop_fuel (Local : Location) (al av : GoString) :
    ∀ (fuel1 fuel2 : Nat) (layout value : GoString) (st : parseState),
      layout.length < fuel1 → layout.length < fuel2 →
      parseLoop Local al av fuel1 layout value st = parseLoop Local al av fuel2 layout value st := by
  intro fuel1
  induction fuel1 with
  | zero =>
    intro fuel2 layout value st h1
    omega
  | succ n ih =>
    intro fuel2 layout value st h1 h2
    cases fuel2 with
    | zero => omega
    | succ m =>
      rcases hn : nextStdChunk layout with ⟨pre, std, suffix⟩
      rcases hk : skip value pre with ⟨value1, ok⟩
      cases ok with
      | false => simp only [parseLoop, hn, hk, Bool.not_false, if_true]
      | true =>
        by_cases hstd : std = Std.none
        · simp only [parseLoop, hn, hk, hstd, Bool.not_true, Bool.false_eq_true, if_false, if_true]
        · have hl := nextStdChunk_length layout pre suffix std hn hstd
          rw [parseLoop_step Local al av n layout value st pre std suffix value1 hn hk hstd,
            parseLoop_step Local al av m layout value st pre std suffix value1 hn hk hstd,
            ih m suffix _ _ (by omega) (by omega)]

/-- The result of Parse does not depend on the bound given to its loop. -/
theorem parse_fuel (Local : Location) (layout value : GoString) (fuel : Nat)
    (h : layout.length < fuel) :
    parseLoop Local layout value fuel layout value parseState.init = Parse Local layout value :=
  parseLoop_fuel Local layout value fuel (layout.length + 1) layout value parseState.init h
    (by omega)

theorem cutspace_length (s : GoString) : (cutspace s).length ≤ s.length :=
  dropWhile_length_le _ s

/-- The bound on the turns of skipLoop is immaterial from the length of the
literal text on. -/
theorem skipLoop_fuel :
    ∀ (fuel1 fuel2 : Nat) (value pre : GoString), pre.length ≤ fuel1 → pre.length ≤ fuel2 →
      skipLoop value pre fuel1 = skipLoop value pre fuel2 := by
  intro fuel1
  induction fuel1 with
  | zero =>
    intro fuel2 value pre h1 h2
    have : pre = [] := List.length_eq_zero.mp (by omega)
    subst this
    cases fuel2 <;> rfl
  | succ n ih =>
    intro fuel2 value pre h1 h2
    cases pre with
    | nil => cases fuel2 <;> rfl
    | cons p ps =>
      cases fuel2 with
      | zero => simp at h2
      | succ m =>
        have hc : (cutspace (p :: ps)).length ≤ (p :: ps).length := cutspace_length _
        simp only [List.length_cons] at h1 h2 hc
        by_cases hp : p = 32
        · have hc2 : (cutspace (p :: ps)).length ≤ ps.length := by
            subst hp
            have : cutspace (32 :: ps) = cutspace ps := by simp [cutspace]
            rw [this]
            exact cutspace_length ps
          cases value with
          | nil =>
            simp only [skipLoop, hp, if_true]
            exact ih m _ _ (by subst hp; omega) (by subst hp; omega)
          | cons v vs =>
            simp only [skipLoop, hp, if_true]
            split
            · rfl
            · exact ih m _ _ (by subst hp; omega) (by subst hp; omega)
        · cases value with
          | nil => simp only [skipLoop, hp, if_false]
          | cons v vs =>
            simp only [skipLoop, hp, if_false]
            split
            · rfl
            · exact ih m _ _ (by omega) (by omega)

/-- The bound on the turns of formatLoop is immaterial above the length of
the layout. -/
theorem formatLoop_fuel (t : Time) :
    ∀ (fuel1 fuel2 : Nat) (b layout : GoString), layout.length < fuel1 → layout.length < fuel2 →
      formatLoop t fuel1 b layout = formatLoop t fuel2 b layout := by
  intro fuel1
  induction fuel1 with
  | zero =>
    intro fuel2 b layout h1
    omega
  | succ n ih =>
    intro fuel2 b layout h1 h2
    cases fuel2 with
    | zero => omega
    | succ m =>
      rcases hn : nextStdChunk layout with ⟨pre, std, suffix⟩
      by_cases hl : layout = []
      · simp only [formatLoop, hl, if_true]
      · by_cases hstd : std = Std.none
        · simp only [formatLoop, hl, hn, hstd, if_false, if_true]
        · have hlen := nextStdChunk_length layout pre suffix std hn hstd
          simp only [formatLoop, hl, hn, hstd, if_false]
          exact ih m _ _ (by omega) (by omega)

/-! ## UnmarshalJSON and UnmarshalText -/

theorem hasPre_singleton (s : GoString) (c : Nat) : hasPre s [c] = (s.head? == some c) := by
  rcases s with _ | ⟨d, s⟩
  · rfl
  · show (d == c && hasPre s []) = _
    cases s <;> simp [hasPre]

theorem stringsTrimPre_quote (s : GoString) :
    stringsTrimPre s (str "\"") = (match s with | 34 :: rest => rest | _ => s) := by
  unfold stringsTrimPre
  have e : str "\"" = [34] := rfl
  rw [e, hasPre_singleton]
  rcases s with _ | ⟨c, s⟩
  · rfl
  · by_cases h : c = 34
    · subst h; simp
    · simp only [List.head?_cons, beq_iff_eq, Option.some.injEq, h, if_false]
      split
      · rename_i heq; injection heq with h1 _; exact absurd h1 h
      · rfl

theorem stringsTrimSuf_quote (s : GoString) :
    stringsTrimSuf s (str "\"") = if s.getLast? = some 34 then s.dropLast else s := by
  unfold stringsTrimSuf hasSuf
  have e : (str "\"").reverse = [34] := rfl
  have l : (str "\"").length = 1 := rfl
  rw [e, l, hasPre_singleton, List.head?_reverse, ← List.dropLast_eq_take]
  simp

theorem replaceFrom_backslash (s : GoString) :
    replaceFrom (str "\\") (str "") 0 s = s.filter (fun c => c != 92) := by
  induction s with
  | nil => rfl
  | cons c s ih =>
    unfold replaceFrom
    have e : hasPre (c :: s) (str "\\") = (c == 92) := by
      show (c == 92 && hasPre s []) = _
      cases s <;> simp [hasPre]
    rw [e]
    have l : (str "\\").length - 1 = 0 := rfl
    rw [l, ih]
    by_cases h : c = 92
    · subst h; rfl
    · simp [h, str]

theorem unmarshalJSON_text (data : GoString) :
    stringsReplaceAll (stringsTrimSuf (stringsTrimPre data (str "\"")) (str "\""))
      (str "\\") (str "") = unquotedSpec data := by
  unfold stringsReplaceAll unquotedSpec
  rw [replaceFrom_backslash, stringsTrimSuf_quote, stringsTrimPre_quote]

/-- C11: for every receiver and every data other than the null token,
UnmarshalJSON has the outcome of ParseExpToTime on data with one leading
double quote, one trailing double quote and every backslash removed: on
success the receiver holds that time with Valid true and no error is
returned, on failure that error is returned and the receiver is the zero
CardDate. -/
theorem unmarshalJSON_spec (Local : Location) (t : CardDate) (data : GoString)
    (h : data ≠ NullBytes) :
    t.UnmarshalJSON Local data =
      match ParseExpToTime Local (unquotedSpec data) with
      | (parsed, Option.none) => ({ Time := parsed, Valid := true }, Option.none)
      | (_, some err) => (CardDate.zero, some err) := by
  unfold CardDate.UnmarshalJSON
  rw [if_neg h]
  dsimp only
  rw [unmarshalJSON_text]
  rcases ParseExpToTime Local (unquotedSpec data) with ⟨p, _ | e⟩ <;> rfl

theorem unmarshalJSON_spec_witness :
    str "\"09\\/22\"" ≠ NullBytes ∧ unquotedSpec (str "\"09\\/22\"") = str "09/22" ∧
    ((CardDateFrom (Date 2030 1 1 0 0 0 0 UTC)).UnmarshalJSON localUTC (str "\"09\\/22\"")) =
      match ParseExpToTime localUTC (unquotedSpec (str "\"09\\/22\"")) with
      | (parsed, Option.none) => ({ Time := parsed, Valid := true }, Option.none)
      | (_, some err) => (CardDate.zero, some err) :=
  ⟨by decide, by decide, unmarshalJSON_spec localUTC _ _ (by decide)⟩

/-- C12: UnmarshalJSON and UnmarshalText applied to the null token return no
error and leave every receiver with Valid false and the zero time; the token
does not go through the parser, which rejects its four bytes. -/
theorem unmarshal_null (Local : Location) (t : CardDate) :
    t.UnmarshalJSON Local NullBytes = (CardDate.zero, Option.none) ∧
    t.UnmarshalText Local NullBytes = (CardDate.zero, Option.none) ∧
    NullBytes.length = 4 ∧
    (ParseExpToTime Local NullBytes).2 ≠ Option.none := by
  refine ⟨?_, ?_, rfl, ?_⟩
  · unfold CardDate.UnmarshalJSON
    rw [if_pos rfl]; rfl
  · unfold CardDate.UnmarshalText
    rw [if_pos rfl]; rfl
  · have : ∃ e, (ParseExpToTime Local NullBytes).2 = some e := ⟨_, rfl⟩
    rcases this with ⟨e, he⟩
    rw [he]; simp

/-! ## Scan, Value and AddDate -/

/-- C13: Scan returns an error exactly when the value is a string that
ParseExpToTime rejects or is neither a timestamp, a string nor nil; the
receiver is valid afterwards exactly when the value is a timestamp, which is
stored as it is, or a string that ParseExpToTime accepts; nil gives Valid
false and no error. -/
theorem scan_spec (Local : Location) (t : CardDate) (v : DriverValue) :
    ((t.Scan Local v).2 ≠ Option.none ↔
      ((∃ s, v = DriverValue.string s ∧ (ParseExpToTime Local s).2 ≠ Option.none) ∨
       ((∀ x, v ≠ DriverValue.time x) ∧ (∀ s, v ≠ DriverValue.string s) ∧
         v ≠ DriverValue.nil))) ∧
    ((t.Scan Local v).1.Valid = true ↔
      ((∃ x, v = DriverValue.time x) ∨
       (∃ s, v = DriverValue.string s ∧ (ParseExpToTime Local s).2 = Option.none))) ∧
    (∀ x, v = DriverValue.time x → (t.Scan Local v).1.Time = x) ∧
    (v = DriverValue.nil →
      (t.Scan Local v).1.Valid = false ∧ (t.Scan Local v).2 = Option.none) := by
  cases v with
  | time x => simp [CardDate.Scan]
  | string s =>
    rcases h : ParseExpToTime Local s with ⟨p, _ | e⟩ <;> simp [CardDate.Scan, h]
  | nil => simp [CardDate.Scan]
  | other a b => simp [CardDate.Scan]

theorem scan_spec_witness :
    (((CardDate.zero.Scan localUTC DriverValue.nil).1.Valid = false ∧
      (CardDate.zero.Scan localUTC DriverValue.nil).2 = Option.none)) :=
  (scan_spec localUTC CardDate.zero DriverValue.nil).2.2.2 rfl

/-- C14: for a valid CardDate, Value returns its time and no error, and
scanning that value into any receiver gives the CardDate back; for an
invalid one, Value returns nil and no error, and scanning it into the zero
receiver gives Valid false. -/
theorem value_scan_round_trip (Local : Location) (c r : CardDate) :
    (c.Valid = true →
      c.Value = (DriverValue.time c.Time, Option.none) ∧
      r.Scan Local c.Value.1 = (c, Option.none)) ∧
    (c.Valid = false →
      c.Value = (DriverValue.nil, Option.none) ∧
      (CardDate.zero.Scan Local c.Value.1).1.Valid = false ∧
      (CardDate.zero.Scan Local c.Value.1).2 = Option.none) := by
  rcases c with ⟨tm, v⟩
  constructor
  · intro h
    dsimp only at h
    subst h
    exact ⟨rfl, rfl⟩
  · intro h
    dsimp only at h
    subst h
    exact ⟨rfl, rfl, rfl⟩

theorem value_scan_round_trip_witness :
    (CardDateFrom (Date 2023 9 1 0 0 0 0 UTC)).Value =
      (DriverValue.time (Date 2023 9 1 0 0 0 0 UTC), Option.none) ∧
    CardDate.zero.Scan localUTC (CardDateFrom (Date 2023 9 1 0 0 0 0 UTC)).Value.1 =
      (CardDateFrom (Date 2023 9 1 0 0 0 0 UTC), Option.none) :=
  (value_scan_round_trip localUTC (CardDateFrom (Date 2023 9 1 0 0 0 0 UTC)) CardDate.zero).1 rfl

/-- C17: AddDate returns a CardDate with the Valid flag of the receiver, its
time being the receiver time moved by Time.AddDate, and applies no check of
the acceptance window: from a date that the parser accepts, one month more
gives a valid result in 2051, and one month less a valid result in 2000. -/
theorem addDate_valid_unchecked (c : CardDate) (years months days : Int) :
    (c.AddDate years months days).Valid = c.Valid ∧
    (c.AddDate years months days).Time = c.Time.AddDate years months days ∧
    (∃ d : CardDate, (CardDateFromString localUTC (str "12/50")) = (d, Option.none) ∧
      d.Valid = true ∧ invalidYearFrom < d.Time.Year ∧ d.Time.Year ≤ invalidYearTo ∧
      (d.AddDate 0 1 0).Valid = true ∧ (d.AddDate 0 1 0).Time.Year > invalidYearTo) ∧
    (∃ d : CardDate, (CardDateFromString localUTC (str "01/01")) = (d, Option.none) ∧
      d.Valid = true ∧ invalidYearFrom < d.Time.Year ∧ d.Time.Year ≤ invalidYearTo ∧
      (d.AddDate 0 (-1) 0).Valid = true ∧ (d.AddDate 0 (-1) 0).Time.Year ≤ invalidYearFrom) := by
  refine ⟨rfl, rfl, ⟨(CardDateFromString localUTC (str "12/50")).1, rfl, ?_⟩,
    ⟨(CardDateFromString localUTC (str "01/01")).1, rfl, ?_⟩⟩
  · decide
  · decide

/-! ## The time returned with an error -/

theorem parseFinish_error_zero (Local : Location) (al av value : GoString) (st : parseState)
    (h : (parseFinish Local al av value st).2 ≠ none) :
    (parseFinish Local al av value st).1 = Time.zero := by
  revert h
  unfold parseFinish
  dsimp only
  repeat' split
  all_goals first | (intro _; rfl) | (intro h; exact absurd rfl h)

theorem parseLoop_error_zero (Local : Location) (al av : GoString) (fuel : Nat) :
    ∀ (layout value : GoString) (st : parseState),
      (parseLoop Local al av fuel layout value st).2 ≠ none →
      (parseLoop Local al av fuel layout value st).1 = Time.zero := by
  induction fuel with
  | zero => intro layout value st _; rfl
  | succ n ih =>
    intro layout value st
    unfold parseLoop
    dsimp only
    split_ifs
    · intro _; rfl
    · intro _; rfl
    · exact parseFinish_error_zero _ _ _ _ _
    · intro _; rfl
    · intro _; rfl
    · exact ih _ _ _

theorem parse_error_zero (Local : Location) (layout value : GoString)
    (h : (Parse Local layout value).2 ≠ none) : (Parse Local layout value).1 = Time.zero :=
  parseLoop_error_zero _ _ _ _ _ _ _ h

theorem timeParser_error_zero (Local : Location) (layout value : GoString)
    (h : (timeParser Local layout value).2 ≠ none) :
    (timeParser Local layout value).1 = Time.zero := by
  have hp := parse_error_zero Local layout value
  revert h
  unfold timeParser
  rcases hq : Parse Local layout value with ⟨t, _ | e⟩
  · dsimp only
    split_ifs
    · intro _; rfl
    · intro h; exact absurd rfl h
  · rw [hq] at hp
    dsimp only
    split_ifs
    · intro _; exact hp (by simp)
    · intro _; rfl

theorem stringToTime_error_zero (Local : Location) (s : GoString)
    (h : (stringToTime Local s).2 ≠ none) : (stringToTime Local s).1 = Time.zero := by
  rcases stringToTime_cases Local s with h1 | ⟨layout, h1⟩
  · rw [h1]
  · rw [h1] at h ⊢
    exact timeParser_error_zero _ _ _ h

/-- C18: whenever ParseExpToTime returns an error, the time returned with it
is the zero time. -/
theorem parseExpToTime_error_zero_time (Local : Location) (s : GoString)
    (h : (ParseExpToTime Local s).2 ≠ Option.none) :
    (ParseExpToTime Local s).1 = Time.zero :=
  stringToTime_error_zero Local s h

theorem parseExpToTime_error_zero_time_witness :
    (ParseExpToTime localUTC (str "14/2022")).2 = some Err.ErrInvalidMonth ∧
    (ParseExpToTime localUTC (str "14/2022")).1 = Time.zero :=
  ⟨by decide, parseExpToTime_error_zero_time localUTC (str "14/2022") (by decide)⟩

/-! ## Fractional seconds -/

/-- C19: the code departs from the claim: a timestamp in RFC 3339 form with
one fractional digit and a numeric offset, whose instant lies in 2023, is
reported as of unknown format, whatever time.Local is; the same instant
written with seven fractional digits is accepted. -/
theorem rfc3339_short_fraction_unknown (Local : Location) :
    ParseExpToTime Local (str "2023-11-30T00:00:00.5+07:00") =
      (Time.zero, some Err.ErrUnknownFormat) ∧
    (ParseExpToTime localUTC (str "2023-11-30T00:00:00.5000000+07:00")).2 = Option.none ∧
    (ParseExpToTime localUTC (str "2023-11-30T00:00:00.5000000+07:00")).1.Year = 2023 := by
  refine ⟨rfl, ?_, ?_⟩
  · decide
  · decide

/-! ## CardDateFromMustString -/

/-- C20: CardDateFromMustString panics exactly when ParseExpToTime returns
an error, with that error as the value of the panic, and otherwise returns
the valid CardDate that CardDateFromString returns. -/
theorem cardDateFromMustString_spec (Local : Location) (s : GoString) :
    ((∃ e, CardDateFromMustString Local s = Except.error e) ↔
      (ParseExpToTime Local s).2 ≠ Option.none) ∧
    (∀ e, CardDateFromMustString Local s = Except.error e ↔
      (ParseExpToTime Local s).2 = some e) ∧
    ((ParseExpToTime Local s).2 = Option.none →
      CardDateFromMustString Local s = Except.ok (CardDateFromString Local s).1 ∧
      (CardDateFromString Local s).1.Valid = true ∧
      (CardDateFromString Local s).2 = Option.none) := by
  unfold CardDateFromMustString CardDateFromString
  rcases ParseExpToTime Local s with ⟨p, _ | e⟩
  · simp
  · simp

theorem cardDateFromMustString_spec_witness :
    CardDateFromMustString localUTC (str "09/2022") =
      Except.ok (CardDateFromString localUTC (str "09/2022")).1 ∧
    (CardDateFromString localUTC (str "09/2022")).1.Valid = true ∧
    (CardDateFromString localUTC (str "09/2022")).2 = Option.none :=
  (cardDateFromMustString_spec localUTC (str "09/2022")).2.2 (by decide)

theorem cardDateFromMustString_panics :
    CardDateFromMustString localUTC (str "09/2051") = Except.error Err.ErrInvalidYear := by
  rfl

/-! ## AddDate on the first day of a month -/

theorem norm_twelve (hi lo : Int) : norm hi lo 12 = (hi + lo / 12, lo % 12) := by
  unfold norm goDiv
  by_cases h : lo < 0
  · have e : Int.tdiv (-lo - 1) 12 = (-lo - 1) / 12 := Int.tdiv_eq_ediv (by omega) (by norm_num)
    have hn : ¬ (lo + ((-lo - 1) / 12 + 1) * 12 ≥ 12) := by omega
    simp only [h, if_true, e, hn, if_false, Prod.mk.injEq]
    constructor <;> omega
  · by_cases h2 : lo ≥ 12
    · have e : Int.tdiv lo 12 = lo / 12 := Int.tdiv_eq_ediv (by omega) (by norm_num)
      simp only [h, if_false, h2, if_true, e, Prod.mk.injEq]
      exact ⟨trivial, by omega⟩
    · simp only [h, if_false, h2, Prod.mk.injEq]
      constructor <;> omega

theorem date_month_norm (year month day hour min sec nsec : Int) (loc : Loc) :
    Date year month day hour min sec nsec loc =
      Date (year + (month - 1) / 12) ((month - 1) % 12 + 1) day hour min sec nsec loc := by
  have e1 := norm_twelve year (month - 1)
  have e2 : norm (year + (month - 1) / 12) ((month - 1) % 12 + 1 - 1) 12 =
      (year + (month - 1) / 12, (month - 1) % 12) := by
    rw [norm_twelve, Prod.mk.injEq]
    constructor <;> omega
  unfold Date
  dsimp only
  rw [e1, e2]

theorem absYear_date_wide (y : Int) (hy : -292277022399 ≤ y) (hy2 : y ≤ 292277022399)
    (yd s : Nat) (hyd : yd < 365) (hs : s < 86400) :
    absYear ((daysSinceEpoch y + yd) * 86400 + s) = (y, yd) := by
  rw [daysSinceEpoch_eq y (by omega) (by omega)]
  rw [absYear_core _ _ _ _ yd s (by omega) (by omega) (by omega) hyd hs]
  simp only [absoluteZeroYear, Prod.mk.injEq, and_true]
  omega

theorem date_first_abs (y : Int) (hy : -292277022399 ≤ y) (hy2 : y ≤ 292277022399) (m : Nat)
    (h1 : 1 ≤ m) (h12 : m ≤ 12) :
    ∃ yd : Nat, yd < 365 ∧
      (yd : Int) = daysBefore ((m : Int) - 1) +
        (if (isLeap y && decide ((m : Int) ≥ 3)) = true then 1 else 0) ∧
      (Date y m 1 0 0 0 0 UTC).abs = (daysSinceEpoch y + yd) * 86400 + 0 ∧
      absYear ((Date y m 1 0 0 0 0 UTC).abs) = (y, yd) := by
  rw [date_utc_normal y m 1 0 0 0 0 (by omega) (by omega) (by omega) (by omega) (by omega)]
  have hyd : ∃ yd : Nat, yd < 365 ∧ daysBefore ((m : Int) - 1) +
      (if (isLeap y && decide ((m : Int) ≥ 3)) = true then 1 else 0) = (yd : Int) := by
    refine ⟨(daysBefore ((m : Int) - 1) +
      (if (isLeap y && decide ((m : Int) ≥ 3)) = true then 1 else 0)).toNat, ?_, ?_⟩ <;>
    interval_cases m <;> cases isLeap y <;> simp [daysBefore, daysBeforeTab]
  obtain ⟨yd, hyd, he⟩ := hyd
  have hx : ((daysSinceEpoch y : Int) + daysBefore ((m : Int) - 1) +
      (if (isLeap y && decide ((m : Int) ≥ 3)) = true then 1 else 0) + (1 - 1)) * 86400 +
      (0 * 3600 + 0 * 60 + 0) = (((daysSinceEpoch y + yd) * 86400 + 0 : Nat) : Int) := by
    push_cast
    omega
  rw [hx]
  have hb := daysSinceEpoch_eq y (by omega) (by omega)
  have habs : (unixTime (wrapInt64 ((((daysSinceEpoch y + yd) * 86400 + 0 : Nat) : Int) +
      (absoluteToInternal + internalToUnix))) 0).abs = (daysSinceEpoch y + yd) * 86400 + 0 := by
    have := time_abs_unixTime (((daysSinceEpoch y + yd) * 86400 + 0 : Nat) : Int) 0
      (by omega) (by omega)
    simpa using this
  refine ⟨yd, hyd, he.symm, habs, ?_⟩
  rw [habs, absYear_date_wide y hy hy2 yd 0 hyd (by omega)]

theorem absDate_first (y : Int) (m : Nat) (h1 : 1 ≤ m) (h12 : m ≤ 12) (yd : Nat)
    (hyd : (yd : Int) = daysBefore ((m : Int) - 1) +
        (if (isLeap y && decide ((m : Int) ≥ 3)) = true then 1 else 0))
    (abs : Nat) (h : absYear abs = (y, yd)) :
    absDate abs = (y, (m : Int), 1, (yd : Int)) := by
  unfold absDate
  rw [h]
  dsimp only
  interval_cases m <;> cases hl : isLeap y <;>
    simp [daysBefore, daysBeforeTab, hl] at hyd <;>
    norm_cast at hyd <;> subst hyd <;> simp [daysBefore, daysBeforeTab]

theorem wrapInt64_id (x : Int) (h1 : -9223372036854775808 ≤ x) (h2 : x ≤ 9223372036854775807) :
    wrapInt64 x = x := by
  unfold wrapInt64
  omega

theorem date_first_fields (y : Int) (hy : -292277022399 ≤ y) (hy2 : y ≤ 292277022399) (m : Nat)
    (h1 : 1 ≤ m) (h12 : m ≤ 12) :
    (∃ yd : Int, absDate (Date y m 1 0 0 0 0 UTC).abs = (y, (m : Int), 1, yd)) ∧
    absClock (Date y m 1 0 0 0 0 UTC).abs = (0, 0, 0) ∧
    (Date y m 1 0 0 0 0 UTC).nsec = 0 ∧ (Date y m 1 0 0 0 0 UTC).loc = UTC := by
  obtain ⟨yd, _, he, habs, hyr⟩ := date_first_abs y hy hy2 m h1 h12
  refine ⟨⟨yd, absDate_first y m h1 h12 yd he _ hyr⟩, ?_, ?_, ?_⟩
  · rw [habs]
    simp [absClock]
  · rw [date_utc_normal y m 1 0 0 0 0 (by omega) (by omega) (by omega) (by omega) (by omega)]
    rfl
  · rw [date_utc_normal y m 1 0 0 0 0 (by omega) (by omega) (by omega) (by omega) (by omega)]
    rfl

theorem addDate_first (y : Int) (hy : -292277022399 ≤ y) (hy2 : y ≤ 292277022399) (m : Nat)
    (h1 : 1 ≤ m) (h12 : m ≤ 12) (dy dm : Int)
    (hdy : -1000000000000000000 ≤ dy ∧ dy ≤ 1000000000000000000)
    (hdm : -1000000000000000000 ≤ dm ∧ dm ≤ 1000000000000000000) :
    (Date y m 1 0 0 0 0 UTC).AddDate dy dm 0 =
      Date (y + dy + ((m : Int) - 1 + dm) / 12) (((m : Int) - 1 + dm) % 12 + 1) 1 0 0 0 0 UTC := by
  obtain ⟨⟨yd, hd⟩, hc, hn, hl⟩ := date_first_fields y hy hy2 m h1 h12
  unfold Time.AddDate
  rw [hd, hc, hn, hl]
  dsimp only
  rw [wrapInt64_id (y + dy) (by omega) (by omega), wrapInt64_id (m + dm) (by omega) (by omega),
    wrapInt64_id (1 + 0) (by omega) (by omega), date_month_norm]
  have e : (m : Int) + dm - 1 = (m : Int) - 1 + dm := by omega
  rw [e]
  rfl

/-- C16: counterexample. From the first of September 2023 at 00:00 UTC,
AddDate with 300000000000 years does not give a time in the year
300000002023: the seconds of that year do not fit the clock of 64 bits, and
the time returned has the year -284554047231 and renders as 10/31. -/
theorem addDate_year_overflow :
    (CardDateFrom (Date 2023 9 1 0 0 0 0 UTC)).Valid = true ∧
    ((CardDateFrom (Date 2023 9 1 0 0 0 0 UTC)).AddDate 300000000000 0 0).Time.Year ≠
      2023 + 300000000000 + ((9 : Int) - 1 + 0) / 12 ∧
    ((CardDateFrom (Date 2023 9 1 0 0 0 0 UTC)).AddDate 300000000000 0 0).Time.Year =
      -284554047231 ∧
    ((CardDateFrom (Date 2023 9 1 0 0 0 0 UTC)).AddDate 300000000000 0 0).String =
      str "10/31" := by
  decide

/-- C16, amended: for a valid CardDate whose time is the first day of month m
of year y at 00:00 UTC, and integers dy and dm of absolute value at most
10^18, when y and the year y + dy + floor((m - 1 + dm) / 12) both lie in
-292277022399 .. 292277022399, AddDate(dy, dm, 0) returns the valid CardDate
whose time is the first day of month ((m - 1 + dm) mod 12) + 1 of that year
at 00:00 UTC, and its String is that month in two digits, a slash, and the
absolute value of that year mod 100 in two digits. -/
theorem addDate_months (c : CardDate) (y : Int) (m : Nat) (dy dm : Int)
    (hv : c.Valid = true) (h1 : 1 ≤ m) (h12 : m ≤ 12)
    (hc : c.Time = Date y m 1 0 0 0 0 UTC)
    (hy : -292277022399 ≤ y ∧ y ≤ 292277022399)
    (hdy : -1000000000000000000 ≤ dy ∧ dy ≤ 1000000000000000000)
    (hdm : -1000000000000000000 ≤ dm ∧ dm ≤ 1000000000000000000)
    (hr : -292277022399 ≤ y + dy + ((m : Int) - 1 + dm) / 12 ∧
      y + dy + ((m : Int) - 1 + dm) / 12 ≤ 292277022399) :
    (c.AddDate dy dm 0).Time =
      Date (y + dy + ((m : Int) - 1 + dm) / 12) (((m : Int) - 1 + dm) % 12 + 1) 1 0 0 0 0 UTC ∧
    (c.AddDate dy dm 0).Valid = true ∧
    (c.AddDate dy dm 0).Time.Year = y + dy + ((m : Int) - 1 + dm) / 12 ∧
    (c.AddDate dy dm 0).Time.Month = ((m : Int) - 1 + dm) % 12 + 1 ∧
    (c.AddDate dy dm 0).Time.Day = 1 ∧
    (c.AddDate dy dm 0).String =
      two ((((m : Int) - 1 + dm) % 12 + 1).toNat) ++
        47 :: two ((y + dy + ((m : Int) - 1 + dm) / 12).natAbs % 100) := by
  have ht : (c.AddDate dy dm 0).Time =
      Date (y + dy + ((m : Int) - 1 + dm) / 12) (((m : Int) - 1 + dm) % 12 + 1) 1 0 0 0 0 UTC := by
    show c.Time.AddDate dy dm 0 = _
    rw [hc]
    exact addDate_first y hy.1 hy.2 m h1 h12 dy dm hdy hdm
  obtain ⟨k, hk, hk1, hk12⟩ : ∃ k : Nat, ((m : Int) - 1 + dm) % 12 + 1 = (k : Int) ∧ 1 ≤ k ∧
      k ≤ 12 := ⟨(((m : Int) - 1 + dm) % 12 + 1).toNat, by omega, by omega, by omega⟩
  obtain ⟨⟨yd, hd⟩, _, _, _⟩ :=
    date_first_fields (y + dy + ((m : Int) - 1 + dm) / 12) hr.1 hr.2 k hk1 hk12
  have hY : (c.AddDate dy dm 0).Time.Year = y + dy + ((m : Int) - 1 + dm) / 12 := by
    unfold Time.Year
    rw [← absDate_year, ht, hk, hd]
  have hM : (c.AddDate dy dm 0).Time.Month = ((m : Int) - 1 + dm) % 12 + 1 := by
    unfold Time.Month
    rw [ht, hk, hd]
  have hD : (c.AddDate dy dm 0).Time.Day = 1 := by
    unfold Time.Day
    rw [ht, hk, hd]
  have hV : (c.AddDate dy dm 0).Valid = true := hv
  refine ⟨ht, hV, hY, hM, hD, ?_⟩
  unfold CardDate.String
  rw [if_pos hV, format_0106, hY, hM]

theorem addDate_months_witness :
    ((CardDateFrom (Date 2023 9 1 0 0 0 0 UTC)).AddDate 0 8 0).Time =
      Date (2023 + 0 + (((9 : Nat) : Int) - 1 + 8) / 12) ((((9 : Nat) : Int) - 1 + 8) % 12 + 1)
        1 0 0 0 0 UTC ∧
    ((CardDateFrom (Date 2023 9 1 0 0 0 0 UTC)).AddDate 0 8 0).String = str "05/24" :=
  ⟨(addDate_months (CardDateFrom (Date 2023 9 1 0 0 0 0 UTC)) 2023 9 0 8 rfl (by decide)
      (by decide) rfl (by decide) (by decide) (by decide) (by decide)).1,
   by decide⟩

theorem addDate_months_back :
    ((CardDateFrom (Date 2023 9 1 0 0 0 0 UTC)).AddDate 0 (-9) 0).String = str "12/22" ∧
    ((CardDateFrom (Date 2023 9 1 0 0 0 0 UTC)).AddDate (-1) (-20) 0).String = str "01/21" := by
  decide

/-! ## RFC 3339 timestamps and their instants -/

theorem clsDigit_digit (a : Nat) (h : a ≤ 9) : clsDigit (48 + a) = true := by
  simp only [clsDigit, decide_eq_true_eq]
  omega

theorem clsZone_digit (a : Nat) (h : a ≤ 9) : clsZone (48 + a) = true := by
  simp only [clsZone, decide_eq_true_eq]
  omega

theorem match_digits_two (ps : List Piece) (a : Nat) (ha : a < 100) (rest : GoString) :
    matchPieces (digits 2 :: ps) (two a ++ rest) = matchPieces ps rest := by
  have d1 := clsDigit_digit (a / 10) (by omega)
  have d2 := clsDigit_digit (a % 10) (by omega)
  simp only [digits, matchPieces, two, List.cons_append, List.nil_append, repReq, repOpt,
    Nat.sub_self, d1, d2, Bool.true_and]
  rfl

theorem match_digits_four (ps : List Piece) (y : Nat) (hy : y < 10000) (rest : GoString) :
    matchPieces (digits 4 :: ps) (four y ++ rest) = matchPieces ps rest := by
  have d1 := clsDigit_digit (y / 1000) (by omega)
  have d2 := clsDigit_digit (y / 100 % 10) (by omega)
  have d3 := clsDigit_digit (y / 10 % 10) (by omega)
  have d4 := clsDigit_digit (y % 10) (by omega)
  simp only [digits, matchPieces, four, List.cons_append, List.nil_append, repReq, repOpt,
    Nat.sub_self, d1, d2, d3, d4, Bool.true_and]
  rfl

theorem match_one (cls : Nat → Bool) (c : Nat) (hc : cls c = true) (ps : List Piece)
    (rest : GoString) :
    matchPieces (Piece.rep cls 1 1 :: ps) (c :: rest) = matchPieces ps rest := by
  simp only [matchPieces, repReq, repOpt, Nat.sub_self, hc, Bool.true_and]

theorem match_zone (z : Option (Bool × Nat × Nat))
    (hz : (match z with
      | Option.none => true
      | some (_, hh, mm) => decide (hh ≤ 23) && decide (mm ≤ 59)) = true) :
    matchPieces [Piece.rep clsZone 1 6] (zoneText z) = true := by
  rcases z with _ | ⟨neg, hh, mm⟩
  · decide
  · simp only [Bool.and_eq_true, decide_eq_true_eq] at hz
    have z1 := clsZone_digit (hh / 10) (by omega)
    have z2 := clsZone_digit (hh % 10) (by omega)
    have z3 := clsZone_digit (mm / 10) (by omega)
    have z4 := clsZone_digit (mm % 10) (by omega)
    have zs : clsZone (if neg = true then 45 else 43) = true := by cases neg <;> decide
    have zc : clsZone 58 = true := by decide
    simp only [zoneText, two, List.cons_append, List.nil_append, repReq, repOpt, matchPieces,
      z1, z2, z3, z4, zs, zc, Bool.true_and, List.isEmpty, Bool.or_true, Bool.true_or]

theorem daysIn_le (mo : Nat) (h1 : 1 ≤ mo) (h12 : mo ≤ 12) (y : Int) : daysIn (mo : Int) y ≤ 31 := by
  interval_cases mo <;> cases hl : isLeap y <;> simp [daysIn, hl] <;> decide

theorem stamp_matches (s : Stamp) (hv : s.valid = true) :
    MatchString cardDateRFC3339Regex s.text = true := by
  rcases s with ⟨y, mo, d, h, mi, sc, z⟩
  simp only [Stamp.valid, Bool.and_eq_true, decide_eq_true_eq] at hv
  obtain ⟨⟨⟨⟨⟨⟨⟨⟨hy, hmo1⟩, hmo⟩, hd1⟩, hd⟩, hh⟩, hmi⟩, hsc⟩, hz⟩ := hv
  have hd31 := daysIn_le mo hmo1 hmo (y : Int)
  simp only [MatchString, cardDateRFC3339Regex, hms, List.cons_append, List.nil_append,
    Stamp.text, lit]
  rw [match_digits_four _ y (by omega), match_one _ 45 (by decide),
    match_digits_two _ mo (by omega), match_one _ 45 (by decide),
    match_digits_two _ d (by omega), match_one _ 84 (by decide),
    match_digits_two _ h (by omega), match_one _ 58 (by decide),
    match_digits_two _ mi (by omega), match_one _ 58 (by decide),
    match_digits_two _ sc (by omega)]
  exact match_zone z hz

theorem parseLoop_ok_step (Local : Location) (al av : GoString) (fuel : Nat)
    (layout value : GoString) (st : parseState) (pre : GoString) (std : Std)
    (suffix value1 : GoString) (st1 : parseState) (value2 : GoString)
    (h1 : nextStdChunk layout = (pre, std, suffix))
    (h2 : skip value pre = (value1, true)) (h3 : std ≠ Std.none)
    (h4 : parseStd std suffix st value1 = (st1, value2, false))
    (h5 : st1.rangeErrString = []) :
    parseLoop Local al av (fuel + 1) layout value st = parseLoop Local al av fuel suffix value2 st1 := by
  rw [parseLoop_step Local al av fuel layout value st pre std suffix value1 h1 h2 h3, h4]
  dsimp only
  rw [if_neg (by simp [h5]), if_neg (by simp)]

theorem parseStd_longYear_rest (layout : GoString) (st : parseState) (y : Nat) (hy : y < 10000)
    (rest : GoString) :
    parseStd Std.stdLongYear layout st (four y ++ rest) =
      ({ st with year := (y : Int) }, rest, false) := by
  have hdg : isDigit (four y ++ rest) 0 = true := by
    have : 48 ≤ 48 + y / 1000 ∧ 48 + y / 1000 ≤ 57 := by omega
    simp [four, isDigit, isDigit0, this]
  have h : ¬ ((four y ++ rest).length < 4 ∨ (!isDigit (four y ++ rest) 0) = true) := by
    rw [hdg]
    simp [four]
  have ht : List.take 4 (four y ++ rest) = four y := by simp [four]
  have hd : List.drop 4 (four y ++ rest) = rest := by simp [four]
  simp only [parseStd, h, if_false, ht, hd, atoi_four y hy]

theorem parseStd_zeroDay (layout : GoString) (st : parseState) (d : Nat) (hd : d < 100)
    (rest : GoString) :
    parseStd Std.stdZeroDay layout st (two d ++ rest) = ({ st with day := (d : Int) }, rest, false) := by
  have e : ¬ (Std.stdZeroDay = Std.stdUnderDay ∧ hasPre (two d ++ rest) [32] = true) := by
    simp
  simp only [parseStd, e, if_false, getnum_two d hd]

theorem parseStd_hour (layout : GoString) (st : parseState) (h : Nat) (hh : h < 24)
    (rest : GoString) :
    parseStd Std.stdHour layout st (two h ++ rest) = ({ st with hour := (h : Int) }, rest, false) := by
  have hi : ¬ ((h : Int) < 0 ∨ 24 ≤ (h : Int)) := by omega
  simp only [parseStd, getnum_two h (by omega), hi, if_false]

theorem parseStd_zeroMinute (layout : GoString) (st : parseState) (m : Nat) (hm : m < 60)
    (rest : GoString) :
    parseStd Std.stdZeroMinute layout st (two m ++ rest) =
      ({ st with min := (m : Int) }, rest, false) := by
  have hi : ¬ ((m : Int) < 0 ∨ 60 ≤ (m : Int)) := by omega
  simp only [parseStd, getnum_two m (by omega), hi, if_false]

theorem parseStd_zeroSecond (layout : GoString) (st : parseState) (s : Nat) (hs : s < 60)
    (rest : GoString) (hr : commaOrPeriod (rest.getD 0 0) = false) :
    parseStd Std.stdZeroSecond layout st (two s ++ rest) =
      ({ st with sec := (s : Int) }, rest, false) := by
  have hi : ¬ ((s : Int) < 0 ∨ 60 ≤ (s : Int)) := by omega
  have hc : ¬ (rest.length ≥ 2 ∧ commaOrPeriod (rest.getD 0 0) = true ∧ isDigit rest 1 = true) := by
    rw [hr]
    simp
  simp only [parseStd, getnum_two s (by omega), hi, if_false, hc]

theorem parseStd_zone_z (layout : GoString) (st : parseState) :
    parseStd Std.stdISO8601ColonTZ layout st [90] = ({ st with z := true }, [], false) := by
  rfl

theorem parseStd_zone_offset (layout : GoString) (st : parseState) (neg : Bool) (hh mm : Nat)
    (h1 : hh ≤ 23) (h2 : mm ≤ 59) :
    parseStd Std.stdISO8601ColonTZ layout st (zoneText (some (neg, hh, mm))) =
      ({ st with zoneOffset := zoneSeconds (some (neg, hh, mm)) }, [], false) := by
  have hz : hasPre (zoneText (some (neg, hh, mm))) [90] = false := by
    cases neg <;> rfl
  have g1 := getnum_two hh (by omega) [] true
  have g2 := getnum_two mm (by omega) [] true
  have g3 : getnum (str "00") true = some (0, []) := by decide
  rw [List.append_nil] at g1 g2
  have a1 : ¬ ((hh : Int) > 24) := by omega
  have a2 : ¬ ((mm : Int) > 60) := by omega
  have e1 : List.take 2 (List.drop 1 (zoneText (some (neg, hh, mm)))) = two hh := by
    simp [zoneText, two]
  have e2 : List.take 2 (List.drop 4 (zoneText (some (neg, hh, mm)))) = two mm := by
    simp [zoneText, two]
  have e3 : List.drop 6 (zoneText (some (neg, hh, mm))) = [] := by
    simp [zoneText, two]
  have e4 : (zoneText (some (neg, hh, mm))).getD 3 0 = 58 := by
    simp [zoneText, two]
  have e5 : ¬ ((zoneText (some (neg, hh, mm))).length < 6) := by
    simp [zoneText, two]
  have e6 : List.take 1 (zoneText (some (neg, hh, mm))) = [if neg = true then 45 else 43] := by
    simp [zoneText, two]
  simp only [parseStd, hz, Bool.false_eq_true, if_false, parseNumTZ, true_or, if_true, e5, e4,
    ne_eq, not_true_eq_false, e1, e2, e3, e6, g1, g2, g3]
  cases neg
  · simp [zoneSeconds, a1, a2]
  · simp [zoneSeconds, a1, a2]

theorem parseFinish_stamp_z (Local : Location) (al av : GoString) (y mo d h mi sc : Nat)
    (hd1 : 1 ≤ d) (hd : (d : Int) ≤ daysIn mo y) (off : Int) :
    parseFinish Local al av []
      { year := y, month := mo, day := d, yday := -1, hour := h, min := mi, sec := sc, nsec := 0,
        z := true, zoneOffset := off, zoneName := [], amSet := false, pmSet := false,
        rangeErrString := [] } =
      (Date y mo d h mi sc 0 UTC, Option.none) := by
  have hm : ¬ ((mo : Int) < 0) := by omega
  have hd0 : ¬ ((d : Int) < 0) := by omega
  have hv : ¬ ((d : Int) < 1 ∨ (d : Int) > daysIn mo y) := by omega
  simp only [parseFinish, Bool.false_eq_true, false_and, if_false, Int.reduceNeg, ge_iff_le,
    Int.reduceLE, hm, hd0, hv, if_true]

theorem parseFinish_stamp_offset (Local : Location) (al av : GoString) (y mo d h mi sc : Nat)
    (hd1 : 1 ≤ d) (hd : (d : Int) ≤ daysIn mo y) (off : Int) (hoff : off ≠ -1) :
    ∃ l : Loc, parseFinish Local al av []
      { year := y, month := mo, day := d, yday := -1, hour := h, min := mi, sec := sc, nsec := 0,
        z := false, zoneOffset := off, zoneName := [], amSet := false, pmSet := false,
        rangeErrString := [] } =
      (((Date y mo d h mi sc 0 UTC).addSec (-off)).setLoc l, Option.none) := by
  have hm : ¬ ((mo : Int) < 0) := by omega
  have hd0 : ¬ ((d : Int) < 0) := by omega
  have hv : ¬ ((d : Int) < 1 ∨ (d : Int) > daysIn mo y) := by omega
  simp only [parseFinish, Bool.false_eq_true, false_and, if_false, Int.reduceNeg, ge_iff_le,
    Int.reduceLE, hm, hd0, hv, ne_eq, hoff, not_false_eq_true, if_true]
  split
  · exact ⟨_, rfl⟩
  · exact ⟨_, rfl⟩

theorem zoneSeconds_ne (z : Option (Bool × Nat × Nat)) : zoneSeconds z ≠ -1 := by
  rcases z with _ | ⟨neg, hh, mm⟩
  · decide
  · cases neg <;> simp only [zoneSeconds, Bool.false_eq_true, if_false, if_true] <;> omega

theorem commaOrPeriod_zoneText (z : Option (Bool × Nat × Nat)) :
    commaOrPeriod ((zoneText z).getD 0 0) = false := by
  rcases z with _ | ⟨neg, hh, mm⟩
  · rfl
  · cases neg <;> rfl

theorem parse_stamp (Local : Location) (s : Stamp) (hv : s.valid = true) :
    ∃ l : Loc, Parse Local RFC3339 s.text =
      (((Date s.year s.month s.day s.hour s.min s.sec 0 UTC).addSec (-(zoneSeconds s.zone))).setLoc l,
        Option.none) ∨
      (s.zone = Option.none ∧
        Parse Local RFC3339 s.text = (Date s.year s.month s.day s.hour s.min s.sec 0 UTC, Option.none)) := by
  rcases s with ⟨y, mo, d, h, mi, sc, z⟩
  simp only [Stamp.valid, Bool.and_eq_true, decide_eq_true_eq] at hv
  obtain ⟨⟨⟨⟨⟨⟨⟨⟨hy, hmo1⟩, hmo⟩, hd1⟩, hd⟩, hh⟩, hmi⟩, hsc⟩, hz⟩ := hv
  have hd31 := daysIn_le mo hmo1 hmo (y : Int)
  have e1 : nextStdChunk RFC3339 = ([], Std.stdLongYear, str "-01-02T15:04:05Z07:00") := by decide
  have e2 : nextStdChunk (str "-01-02T15:04:05Z07:00") =
      (str "-", Std.stdZeroMonth, str "-02T15:04:05Z07:00") := by decide
  have e3 : nextStdChunk (str "-02T15:04:05Z07:00") =
      (str "-", Std.stdZeroDay, str "T15:04:05Z07:00") := by decide
  have e4 : nextStdChunk (str "T15:04:05Z07:00") = (str "T", Std.stdHour, str ":04:05Z07:00") := by
    decide
  have e5 : nextStdChunk (str ":04:05Z07:00") = (str ":", Std.stdZeroMinute, str ":05Z07:00") := by
    decide
  have e6 : nextStdChunk (str ":05Z07:00") = (str ":", Std.stdZeroSecond, str "Z07:00") := by
    decide
  have e7 : nextStdChunk (str "Z07:00") = ([], Std.stdISO8601ColonTZ, []) := by decide
  have e8 : nextStdChunk [] = ([], Std.none, []) := by decide
  unfold Parse
  rw [show RFC3339.length + 1 = 17 + 1 + 1 + 1 + 1 + 1 + 1 + 1 + 1 + 1 from rfl]
  simp only [Stamp.text]
  rw [parseLoop_ok_step Local _ _ _ _ _ _ _ _ _ _ _ _ e1 (skip_nil _) (by decide)
    (parseStd_longYear_rest _ _ y (by omega) _) rfl]
  rw [parseLoop_ok_step Local _ _ _ _ _ _ _ _ _ _ _ _ e2 (skip_sep 45 (by decide) _) (by decide)
    (parseStd_zeroMonth_ok _ _ mo hmo1 hmo _) rfl]
  rw [parseLoop_ok_step Local _ _ _ _ _ _ _ _ _ _ _ _ e3 (skip_sep 45 (by decide) _) (by decide)
    (parseStd_zeroDay _ _ d (by omega) _) rfl]
  rw [parseLoop_ok_step Local _ _ _ _ _ _ _ _ _ _ _ _ e4 (skip_sep 84 (by decide) _) (by decide)
    (parseStd_hour _ _ h (by omega) _) rfl]
  rw [parseLoop_ok_step Local _ _ _ _ _ _ _ _ _ _ _ _ e5 (skip_sep 58 (by decide) _) (by decide)
    (parseStd_zeroMinute _ _ mi (by omega) _) rfl]
  rw [parseLoop_ok_step Local _ _ _ _ _ _ _ _ _ _ _ _ e6 (skip_sep 58 (by decide) _) (by decide)
    (parseStd_zeroSecond _ _ sc (by omega) _ (commaOrPeriod_zoneText z)) rfl]
  dsimp only [parseState.init]
  rcases z with _ | ⟨neg, hh, mm⟩
  · rw [show zoneText Option.none = [90] from rfl]
    rw [parseLoop_ok_step Local _ _ _ _ _ _ _ _ _ _ _ _ e7 (skip_nil _) (by decide)
      (parseStd_zone_z _ _) rfl]
    rw [parseLoop_end Local _ _ _ _ _ _ _ _ e8 (skip_nil _)]
    dsimp only
    refine ⟨Option.none, Or.inr ⟨rfl, ?_⟩⟩
    exact parseFinish_stamp_z Local _ _ y mo d h mi sc hd1 hd _
  · simp only [Bool.and_eq_true, decide_eq_true_eq] at hz
    rw [parseLoop_ok_step Local _ _ _ _ _ _ _ _ _ _ _ _ e7 (skip_nil _) (by decide)
      (parseStd_zone_offset _ _ neg hh mm hz.1 hz.2) rfl]
    rw [parseLoop_end Local _ _ _ _ _ _ _ _ e8 (skip_nil _)]
    dsimp only
    obtain ⟨l, hl⟩ := parseFinish_stamp_offset Local RFC3339
      (Stamp.text ⟨y, mo, d, h, mi, sc, some (neg, hh, mm)⟩) y mo d h mi sc hd1 hd
      (zoneSeconds (some (neg, hh, mm))) (zoneSeconds_ne _)
    exact ⟨l, Or.inl hl⟩

theorem date_stamp_sec (y mo d h mi sc : Nat) (hy : y ≤ 9999) (hmo1 : 1 ≤ mo) (hmo : mo ≤ 12)
    (hd : d ≤ 31) (hh : h ≤ 23) (hmi : mi ≤ 59) (hsc : sc ≤ 59) :
    ∃ S : Int, -1000000000000000 ≤ S ∧ S ≤ 1000000000000000 ∧
      Date y mo d h mi sc 0 UTC = { sec := S, nsec := 0, loc := Option.none } := by
  rw [date_utc_normal y mo d h mi sc 0 (by omega) (by omega) (by omega) (by omega) (by omega)]
  have hb := daysSinceEpoch_eq y (by omega) (by omega)
  have hD : 106751990353566 ≤ daysSinceEpoch (y : Int) ∧
      daysSinceEpoch (y : Int) ≤ 106751994005626 := by
    rw [hb]
    have hY : (↑y + 292277022399 : Int).toNat = y + 292277022399 := by omega
    rw [hY]
    generalize y + 292277022399 = Y at *
    omega
  have hdb : 0 ≤ daysBefore ((mo : Int) - 1) ∧ daysBefore ((mo : Int) - 1) ≤ 334 := by
    interval_cases mo <;> simp [daysBefore, daysBeforeTab]
  have hlp : (0 : Int) ≤ (if (isLeap (y : Int) && decide ((mo : Int) ≥ 3)) = true then 1 else 0) ∧
      (if (isLeap (y : Int) && decide ((mo : Int) ≥ 3)) = true then (1 : Int) else 0) ≤ 1 := by
    split <;> omega
  generalize (if (isLeap (y : Int) && decide ((mo : Int) ≥ 3)) = true then (1 : Int) else 0) = lp
    at hlp ⊢
  generalize daysBefore ((mo : Int) - 1) = db at hdb ⊢
  clear hb
  generalize daysSinceEpoch (y : Int) = D at hD ⊢
  have w1 := wrapInt64_id (((D : Int) + db + lp + ((d : Int) - 1)) * 86400 +
      ((h : Int) * 3600 + (mi : Int) * 60 + (sc : Int)) + (absoluteToInternal + internalToUnix))
    (by simp only [absoluteToInternal, internalToUnix]; omega)
    (by simp only [absoluteToInternal, internalToUnix]; omega)
  have w2 := wrapInt64_id (((D : Int) + db + lp + ((d : Int) - 1)) * 86400 +
      ((h : Int) * 3600 + (mi : Int) * 60 + (sc : Int)) + (absoluteToInternal + internalToUnix) +
      unixToInternal)
    (by simp only [absoluteToInternal, internalToUnix, unixToInternal]; omega)
    (by simp only [absoluteToInternal, internalToUnix, unixToInternal]; omega)
  refine ⟨_, ?_, ?_, rfl⟩
  · rw [w1, w2]
    simp only [absoluteToInternal, internalToUnix, unixToInternal]
    omega
  · rw [w1, w2]
    simp only [absoluteToInternal, internalToUnix, unixToInternal]
    omega

theorem addSec_small (S d : Int) (n : Int) (l : Loc) (hS : -1000000000000000 ≤ S ∧ S ≤ 1000000000000000)
    (hd : -1000000 ≤ d ∧ d ≤ 1000000) :
    ({ sec := S, nsec := n, loc := l } : Time).addSec d = { sec := S + d, nsec := n, loc := l } := by
  have hw : wrapInt64 (S + d) = S + d := by
    unfold wrapInt64
    omega
  unfold Time.addSec
  dsimp only
  rw [hw]
  have hc : (decide (S + d > S) == decide (d > 0)) = true := by
    by_cases h : d > 0
    · have : S + d > S := by omega
      simp [h, this]
    · have : ¬ (S + d > S) := by omega
      simp [h, this]
  rw [if_pos hc]

theorem zoneSeconds_bound (z : Option (Bool × Nat × Nat))
    (hz : (match z with
      | Option.none => true
      | some (_, hh, mm) => decide (hh ≤ 23) && decide (mm ≤ 59)) = true) :
    -1000000 ≤ -zoneSeconds z ∧ -zoneSeconds z ≤ 1000000 := by
  rcases z with _ | ⟨neg, hh, mm⟩
  · decide
  · simp only [Bool.and_eq_true, decide_eq_true_eq] at hz
    cases neg <;> simp only [zoneSeconds, Bool.false_eq_true, if_false, if_true] <;> omega

theorem timeParser_of_parse (Local : Location) (layout value : GoString) (t : Time)
    (h : Parse Local layout value = (t, Option.none)) :
    timeParser Local layout value = yearChecked t.UTC := by
  unfold timeParser yearChecked
  rw [h]

theorem parseExpToTime_stamp (Local : Location) (s : Stamp) (hv : s.valid = true) :
    ParseExpToTime Local s.text = yearChecked { sec := s.instant, nsec := 0, loc := UTC } := by
  have hm := stamp_matches s hv
  have hp := parse_stamp Local s hv
  unfold ParseExpToTime stringToTime
  rw [if_pos hm]
  simp only [Stamp.valid, Bool.and_eq_true, decide_eq_true_eq] at hv
  obtain ⟨⟨⟨⟨⟨⟨⟨⟨hy, hmo1⟩, hmo⟩, hd1⟩, hd⟩, hh⟩, hmi⟩, hsc⟩, hz⟩ := hv
  have hd31 := daysIn_le s.month hmo1 hmo (s.year : Int)
  obtain ⟨S, hS1, hS2, hS⟩ := date_stamp_sec s.year s.month s.day s.hour s.min s.sec hy hmo1 hmo
    (by omega) hh hmi hsc
  have hi : s.instant = S + -zoneSeconds s.zone := by
    unfold Stamp.instant
    rw [hS]
    rfl
  rw [hi]
  obtain ⟨l, hl | ⟨hzn, hl⟩⟩ := hp
  · rw [timeParser_of_parse Local _ _ _ hl, hS,
      addSec_small S _ 0 _ ⟨hS1, hS2⟩ (zoneSeconds_bound s.zone hz)]
    rfl
  · rw [timeParser_of_parse Local _ _ _ hl, hS, hzn]
    have : S + -zoneSeconds Option.none = S := by
      show S + -0 = S
      omega
    rw [this]
    rfl

/-- C15: two timestamps in the layout of RFC 3339 without a fraction of a
second, with zone Z or a numeric offset, whose fields are those of a date and
time of day that exist, and which denote the same instant, have the same
result from ParseExpToTime whatever time.Local is: the time in UTC whose
seconds are the written civil time minus the offset when the year of that
time is 2001 .. 2050, and the zero time with ErrInvalidYear otherwise. -/
theorem rfc3339_same_instant (Local : Location) (a b : Stamp) (ha : a.valid = true)
    (hb : b.valid = true) (h : a.instant = b.instant) :
    ParseExpToTime Local a.text = ParseExpToTime Local b.text ∧
    ParseExpToTime Local a.text = yearChecked { sec := a.instant, nsec := 0, loc := UTC } := by
  rw [parseExpToTime_stamp Local a ha, parseExpToTime_stamp Local b hb, h]
  exact ⟨rfl, rfl⟩

theorem rfc3339_same_instant_witness :
    (Stamp.mk 2019 10 31 23 20 50 (some (true, 4, 30))).text = str "2019-10-31T23:20:50-04:30" ∧
    (Stamp.mk 2019 11 1 3 50 50 Option.none).text = str "2019-11-01T03:50:50Z" ∧
    ParseExpToTime localUTC (Stamp.mk 2019 10 31 23 20 50 (some (true, 4, 30))).text =
      ParseExpToTime localUTC (Stamp.mk 2019 11 1 3 50 50 Option.none).text ∧
    (ParseExpToTime localUTC (str "2019-10-31T23:20:50-04:30")).2 = Option.none ∧
    (ParseExpToTime localUTC (str "2019-10-31T23:20:50-04:30")).1.sec =
      (Date 2019 11 1 3 50 50 0 UTC).sec :=
  ⟨by decide, by decide,
   (rfc3339_same_instant localUTC (Stamp.mk 2019 10 31 23 20 50 (some (true, 4, 30)))
     (Stamp.mk 2019 11 1 3 50 50 Option.none) (by decide) (by decide) (by decide)).1,
   by decide, by decide⟩

/-! ## The part of time.Local in the result -/

theorem parseNumTZ_zoneName (std : Std) (st : parseState) (value : GoString) :
    (parseNumTZ std st value).1.zoneName = st.zoneName := by
  unfold parseNumTZ
  dsimp only
  split
  · rfl
  · split_ifs <;> rfl

theorem parseStd_zoneName (std : Std) (layout : GoString) (st : parseState) (value : GoString)
    (h : std ≠ Std.stdTZ) : (parseStd std layout st value).1.zoneName = st.zoneName := by
  unfold parseStd
  split
  all_goals try (first | exact absurd rfl h | exact parseNumTZ_zoneName _ _ _ | rfl)
  all_goals try dsimp only
  all_goals repeat' split
  all_goals first | rfl | exact parseNumTZ_zoneName _ _ _

theorem parseFinish_local (L1 L2 : Location) (al av value : GoString) (st : parseState)
    (hz : st.zoneName = []) :
    (parseFinish L1 al av value st).2 = (parseFinish L2 al av value st).2 ∧
    (parseFinish L1 al av value st).1.UTC = (parseFinish L2 al av value st).1.UTC := by
  unfold parseFinish
  simp only [hz, ne_eq, not_true_eq_false, if_false]
  repeat' split
  all_goals exact ⟨rfl, rfl⟩

theorem parseLoop_local (L1 L2 : Location) (al av : GoString) (fuel : Nat) :
    ∀ (layout value : GoString) (st : parseState), noZoneName fuel layout = true →
      st.zoneName = [] →
      (parseLoop L1 al av fuel layout value st).2 = (parseLoop L2 al av fuel layout value st).2 ∧
      (parseLoop L1 al av fuel layout value st).1.UTC =
        (parseLoop L2 al av fuel layout value st).1.UTC := by
  induction fuel with
  | zero => intro layout value st _ _; exact ⟨rfl, rfl⟩
  | succ n ih =>
    intro layout value st hnz hz
    unfold noZoneName at hnz
    rcases hc : nextStdChunk layout with ⟨pre, std, suffix⟩
    rw [hc] at hnz
    simp only [Bool.and_eq_true, Bool.or_eq_true, decide_eq_true_eq] at hnz
    unfold parseLoop
    simp only [hc]
    split_ifs with c1 c2 c3 c4 c5
    · exact ⟨rfl, rfl⟩
    · exact ⟨rfl, rfl⟩
    · exact parseFinish_local L1 L2 _ _ _ _ hz
    · exact ⟨rfl, rfl⟩
    · exact ⟨rfl, rfl⟩
    · refine ih _ _ _ ?_ ?_
      · rcases hnz.2 with h | h
        · exact absurd h c2
        · exact h
      · rw [parseStd_zoneName _ _ _ _ hnz.1]
        exact hz

theorem timeParser_local (L1 L2 : Location) (layout value : GoString)
    (h : noZoneName (layout.length + 1) layout = true) :
    timeParser L1 layout value = timeParser L2 layout value := by
  obtain ⟨he, hu⟩ := parseLoop_local L1 L2 layout value (layout.length + 1) layout value
    parseState.init h rfl
  have z1 := parse_error_zero L1 layout value
  have z2 := parse_error_zero L2 layout value
  unfold Parse at z1 z2
  unfold timeParser Parse
  rcases h1 : parseLoop L1 layout value (layout.length + 1) layout value parseState.init with
    ⟨t1, e1⟩
  rcases h2 : parseLoop L2 layout value (layout.length + 1) layout value parseState.init with
    ⟨t2, e2⟩
  rw [h1, h2] at he hu
  rw [h1] at z1
  rw [h2] at z2
  dsimp only at he hu z1 z2
  subst he
  rcases e1 with _ | err
  · dsimp only
    rw [hu]
  · rw [z1 (by simp), z2 (by simp)]

theorem ite_congr_both {α : Type} (c : Prop) [Decidable c] (a1 b1 a2 b2 : α) (ha : c → a1 = a2)
    (hb : ¬ c → b1 = b2) : (if c then a1 else b1) = (if c then a2 else b2) := by
  by_cases h : c
  · rw [if_pos h, if_pos h]
    exact ha h
  · rw [if_neg h, if_neg h]
    exact hb h

/-- C21: counterexample. The outcome for one string differs with time.Local:
where MST is unknown to time.Local the input 31 Dec 50 20:00 MST is accepted,
and where time.Local knows MST as seven hours west of UTC it is rejected with
ErrInvalidYear; 02 Nov 23 15:04 MST is accepted in both, with two different
instants. -/
theorem parseExpToTime_depends_on_local :
    (ParseExpToTime localUTC (str "31 Dec 50 20:00 MST")).2 = Option.none ∧
    (ParseExpToTime localMST (str "31 Dec 50 20:00 MST")).2 = some Err.ErrInvalidYear ∧
    (ParseExpToTime localUTC (str "02 Nov 23 15:04 MST")).2 = Option.none ∧
    (ParseExpToTime localMST (str "02 Nov 23 15:04 MST")).2 = Option.none ∧
    (ParseExpToTime localUTC (str "02 Nov 23 15:04 MST")).1.sec + 25200 =
      (ParseExpToTime localMST (str "02 Nov 23 15:04 MST")).1.sec := by
  decide

/-- C21, amended: ParseExpToTime is a function of its input string and of
time.Local, and of the input string alone when the string matches none of
the four patterns whose layout has a zone abbreviation (RFC1123, RFC850,
RFC822, UnixDate): for such a string two values of time.Local give the same
time and the same error. -/
theorem parseExpToTime_local_independent (L1 L2 : Location) (s : GoString)
    (h1 : MatchString cardDateRFC1123Regex s = false)
    (h2 : MatchString cardDateRFC850Regex s = false)
    (h3 : MatchString cardDateRFC822Regex s = false)
    (h4 : MatchString cardDateUnixFormatRegex s = false) :
    ParseExpToTime L1 s = ParseExpToTime L2 s := by
  unfold ParseExpToTime stringToTime
  refine ite_congr_both _ _ _ _ _ (fun _ => timeParser_local L1 L2 _ s (by decide)) (fun _ => ?_)
  refine ite_congr_both _ _ _ _ _ (fun _ => timeParser_local L1 L2 _ s (by decide)) (fun _ => ?_)
  refine ite_congr_both _ _ _ _ _ (fun _ => timeParser_local L1 L2 _ s (by decide)) (fun _ => ?_)
  refine ite_congr_both _ _ _ _ _ (fun hc => absurd hc (by simp [h1])) (fun _ => ?_)
  refine ite_congr_both _ _ _ _ _ (fun hc => absurd hc (by simp [h2])) (fun _ => ?_)
  refine ite_congr_both _ _ _ _ _ (fun hc => absurd hc (by simp [h3])) (fun _ => ?_)
  refine ite_congr_both _ _ _ _ _ (fun _ => timeParser_local L1 L2 _ s (by decide)) (fun _ => ?_)
  refine ite_congr_both _ _ _ _ _ (fun _ => timeParser_local L1 L2 _ s (by decide)) (fun _ => ?_)
  refine ite_congr_both _ _ _ _ _ (fun hc => absurd hc (by simp [h4])) (fun _ => ?_)
  refine ite_congr_both _ _ _ _ _ (fun _ => timeParser_local L1 L2 _ s (by decide)) (fun _ => ?_)
  refine ite_congr_both _ _ _ _ _ (fun _ => timeParser_local L1 L2 _ s (by decide)) (fun _ => ?_)
  refine ite_congr_both _ _ _ _ _ (fun _ => timeParser_local L1 L2 _ s (by decide)) (fun _ => ?_)
  refine ite_congr_both _ _ _ _ _ (fun _ => timeParser_local L1 L2 _ s (by decide)) (fun _ => ?_)
  refine ite_congr_both _ _ _ _ _ (fun _ => timeParser_local L1 L2 _ s (by decide)) (fun _ => ?_)
  refine ite_congr_both _ _ _ _ _ (fun _ => timeParser_local L1 L2 _ s (by decide)) (fun _ => ?_)
  refine ite_congr_both _ _ _ _ _ (fun _ => timeParser_local L1 L2 _ s (by decide)) (fun _ => ?_)
  rfl

theorem parseExpToTime_local_independent_witness :
    ParseExpToTime localUTC (str "2019-10-31T23:20:50-04:30") =
      ParseExpToTime localMST (str "2019-10-31T23:20:50-04:30") ∧
    ParseExpToTime localUTC (str "Mon, 02 Jan 2006 15:04:05 -0700") =
      ParseExpToTime localMST (str "Mon, 02 Jan 2006 15:04:05 -0700") :=
  ⟨parseExpToTime_local_independent localUTC localMST (str "2019-10-31T23:20:50-04:30")
      (by decide) (by decide) (by decide) (by decide),
   parseExpToTime_local_independent localUTC localMST (str "Mon, 02 Jan 2006 15:04:05 -0700")
      (by decide) (by decide) (by decide) (by decide)⟩

/-! ## The year check is made on the year in UTC -/

/-- C22: the check of the year is made on the year of the parsed instant in
UTC, not on the year written: for an input that matches the RFC 3339 pattern
and that time.Parse reads as the time t, ParseExpToTime returns
ErrInvalidYear exactly when the year of t in UTC is at most 2000 or above
2050, returns the zero time with it, and otherwise returns t in UTC. -/
theorem year_check_on_utc (Local : Location) (s : GoString) (t : Time)
    (hm : MatchString cardDateRFC3339Regex s = true)
    (hp : Parse Local RFC3339 s = (t, Option.none)) :
    ((ParseExpToTime Local s).2 = some Err.ErrInvalidYear ↔
      (t.UTC.Year ≤ 2000 ∨ t.UTC.Year > 2050)) ∧
    ((t.UTC.Year ≤ 2000 ∨ t.UTC.Year > 2050) →
      ParseExpToTime Local s = (Time.zero, some Err.ErrInvalidYear)) ∧
    (¬ (t.UTC.Year ≤ 2000 ∨ t.UTC.Year > 2050) →
      ParseExpToTime Local s = (t.UTC, Option.none)) := by
  have h : ParseExpToTime Local s = yearChecked t.UTC := by
    unfold ParseExpToTime stringToTime
    rw [if_pos hm]
    exact timeParser_of_parse Local RFC3339 s t hp
  rw [h]
  unfold yearChecked
  simp only [invalidYearFrom, invalidYearTo]
  by_cases hy : t.UTC.Year ≤ 2000 ∨ t.UTC.Year > 2050
  · rw [if_pos hy]
    exact ⟨⟨fun _ => hy, fun _ => rfl⟩, fun _ => rfl, fun h2 => absurd hy h2⟩
  · rw [if_neg hy]
    exact ⟨⟨fun h2 => by simp at h2, fun h2 => absurd h2 hy⟩, fun h2 => absurd h2 hy, fun _ => rfl⟩

theorem year_check_on_utc_witness :
    (ParseExpToTime localUTC (str "2050-12-31T23:00:00-04:00") =
        (Time.zero, some Err.ErrInvalidYear) ∧
      (Parse localUTC RFC3339 (str "2050-12-31T23:00:00-04:00")).1.Year = 2050 ∧
      (Parse localUTC RFC3339 (str "2050-12-31T23:00:00-04:00")).1.UTC.Year = 2051) ∧
    (ParseExpToTime localUTC (str "2051-01-01T00:00:00+05:00") =
        ((Parse localUTC RFC3339 (str "2051-01-01T00:00:00+05:00")).1.UTC, Option.none) ∧
      (Parse localUTC RFC3339 (str "2051-01-01T00:00:00+05:00")).1.Year = 2051 ∧
      (Parse localUTC RFC3339 (str "2051-01-01T00:00:00+05:00")).1.UTC.Year = 2050) :=
  ⟨⟨(year_check_on_utc localUTC (str "2050-12-31T23:00:00-04:00")
        (Parse localUTC RFC3339 (str "2050-12-31T23:00:00-04:00")).1 (by decide)
        (Prod.ext rfl (by decide))).2.1 (by decide), by decide, by decide⟩,
   ⟨(year_check_on_utc localUTC (str "2051-01-01T00:00:00+05:00")
        (Parse localUTC RFC3339 (str "2051-01-01T00:00:00+05:00")).1 (by decide)
        (Prod.ext rfl (by decide))).2.2 (by decide), by decide, by decide⟩⟩

/-! ## The fields of the short layouts -/

theorem getnum_fixed_some (s : GoString) (n : Int) (rest : GoString)
    (h : getnum s true = some (n, rest)) :
    ∃ m : Nat, m < 100 ∧ s = two m ++ rest ∧ n = (m : Int) := by
  rcases s with _ | ⟨c0, _ | ⟨c1, r⟩⟩
  · simp [getnum] at h
  · simp [getnum, isDigit0] at h
  · unfold getnum at h
    by_cases h0 : 48 ≤ c0 ∧ c0 ≤ 57
    · by_cases h1 : 48 ≤ c1 ∧ c1 ≤ 57
      · simp only [h0, h1, isDigit0, and_self, decide_True, Bool.not_true, Bool.false_eq_true,
          if_false, Option.some.injEq, Prod.mk.injEq] at h
        refine ⟨(c0 - 48) * 10 + (c1 - 48), by omega, ?_, h.1.symm⟩
        rw [← h.2]
        have e1 : 48 + ((c0 - 48) * 10 + (c1 - 48)) / 10 = c0 := by omega
        have e2 : 48 + ((c0 - 48) * 10 + (c1 - 48)) % 10 = c1 := by omega
        simp only [two, e1, e2, List.cons_append, List.nil_append]
      · simp [h0, h1, isDigit0] at h
    · simp [h0] at h

theorem atoi_pair (c d : Nat) (yr : Int) (h : atoi [c, d] = some yr) :
    (∃ y : Nat, y < 100 ∧ [c, d] = two y ∧ yr = (y : Int)) ∨
    (∃ k : Nat, k ≤ 9 ∧ c = 43 ∧ d = 48 + k ∧ yr = (k : Int)) ∨
    (∃ k : Nat, k ≤ 9 ∧ c = 45 ∧ d = 48 + k ∧ yr = -(k : Int)) := by
  unfold atoi at h
  by_cases hs : c = 45 ∨ c = 43
  · simp only [hs, if_true] at h
    by_cases hd : d < 48 ∨ d > 57
    · simp [leadingInt, hd] at h
    · have b1 : ¬ (0 > 9223372036854775808 / 10) := by omega
      have b2 : ¬ (0 * 10 + d - 48 > 9223372036854775808) := by omega
      simp only [leadingInt, hd, if_false, b1, b2] at h
      rcases hs with hs | hs
      · subst hs
        simp only [decide_True, if_true, Option.some.injEq] at h
        exact Or.inr (Or.inr ⟨d - 48, by omega, rfl, by omega, by omega⟩)
      · subst hs
        simp only [Nat.reduceEqDiff, decide_False, Bool.false_eq_true, if_false,
          Option.some.injEq] at h
        exact Or.inr (Or.inl ⟨d - 48, by omega, rfl, by omega, by omega⟩)
  · simp only [hs, if_false] at h
    by_cases hc : c < 48 ∨ c > 57
    · simp [leadingInt, hc] at h
    · by_cases hd : d < 48 ∨ d > 57
      · have b1 : ¬ (0 > 9223372036854775808 / 10) := by omega
        have b2 : ¬ (0 * 10 + c - 48 > 9223372036854775808) := by omega
        simp [leadingInt, hc, hd, b1, b2] at h
      · have b1 : ¬ (0 > 9223372036854775808 / 10) := by omega
        have b2 : ¬ (0 * 10 + c - 48 > 9223372036854775808) := by omega
        have b3 : ¬ (0 * 10 + c - 48 > 9223372036854775808 / 10) := by omega
        have b4 : ¬ ((0 * 10 + c - 48) * 10 + d - 48 > 9223372036854775808) := by omega
        simp only [leadingInt, hc, hd, if_false, b1, b2, b3, b4, Bool.false_eq_true,
          Option.some.injEq] at h
        refine Or.inl ⟨(c - 48) * 10 + (d - 48), by omega, ?_, by omega⟩
        have e1 : 48 + ((c - 48) * 10 + (d - 48)) / 10 = c := by omega
        have e2 : 48 + ((c - 48) * 10 + (d - 48)) % 10 = d := by omega
        simp only [two, e1, e2]

theorem parseStd_zeroMonth_none (layout : GoString) (st : parseState) (value : GoString)
    (h : getnum value true = Option.none) :
    parseStd Std.stdZeroMonth layout st value = ({ st with month := 0 }, value, true) := by
  have e : (Std.stdZeroMonth == Std.stdZeroMonth) = true := by decide
  simp only [parseStd, e, h]

theorem parseStd_year_pair_none (layout : GoString) (st : parseState) (c d : Nat)
    (ha : atoi [c, d] = Option.none) :
    parseStd Std.stdYear layout st [c, d] = ({ st with year := 0 }, [], true) := by
  have h : ¬ ([c, d].length < 2) := by simp
  simp only [parseStd, h, if_false, List.take, List.drop, ha]

theorem parseStd_year_pair_some (layout : GoString) (st : parseState) (c d : Nat) (year : Int)
    (ha : atoi [c, d] = some year) :
    parseStd Std.stdYear layout st [c, d] =
      ({ st with year := if year ≥ 69 then year + 1900 else year + 2000 }, [], false) := by
  have h : ¬ ([c, d].length < 2) := by simp
  simp only [parseStd, h, if_false, List.take, List.drop, ha]

theorem parseLoop_skip_fail (Local : Location) (al av : GoString) (fuel : Nat)
    (layout value : GoString) (st : parseState) (pre : GoString) (std : Std)
    (suffix value1 : GoString) (h1 : nextStdChunk layout = (pre, std, suffix))
    (h2 : skip value pre = (value1, false)) :
    (parseLoop Local al av (fuel + 1) layout value st).2 ≠ Option.none := by
  simp only [parseLoop, h1, h2, Bool.not_false, if_true]
  simp

theorem skip_one (p : Nat) (hp : p ≠ 32) (x : Nat) (rest : GoString) :
    skip (x :: rest) [p] = if x ≠ p then (x :: rest, false) else (rest, true) := by
  by_cases h : x = p
  · subst h
    simp [skip, skipLoop, hp]
  · simp [skip, skipLoop, hp, h]

theorem parse_short_inv (Local : Location) (layout sfx sp : GoString) (n : Nat)
    (hn : layout.length + 1 = n + 1 + 1 + 1)
    (e1 : nextStdChunk layout = ([], Std.stdZeroMonth, sfx))
    (e2 : nextStdChunk sfx = (sp, Std.stdYear, []))
    (hsp : sp = [] ∨ ∃ p, p ≠ 32 ∧ sp = [p])
    (value : GoString) (hlen : value.length = 4 + sp.length) (t : Time)
    (h : Parse Local layout value = (t, Option.none)) :
    ∃ (m : Nat) (yf : GoString) (yr : Int), 1 ≤ m ∧ m ≤ 12 ∧ value = two m ++ sp ++ yf ∧
      ((∃ y : Nat, y < 100 ∧ yf = two y ∧
          yr = if (y : Int) ≥ 69 then (y : Int) + 1900 else (y : Int) + 2000) ∨
       (∃ k : Nat, k ≤ 9 ∧ yf = [43, 48 + k] ∧ yr = 2000 + (k : Int)) ∨
       (∃ k : Nat, k ≤ 9 ∧ yf = [45, 48 + k] ∧ yr = 2000 - (k : Int))) ∧
      t = Date yr m 1 0 0 0 0 UTC := by
  have e3 : nextStdChunk [] = ([], Std.none, []) := by decide
  have n1 : str "month" ≠ [] := by decide
  have n2 : ¬ (([] : GoString) ≠ []) := by simp
  unfold Parse at h
  rw [hn, parseLoop_step Local _ _ _ _ _ _ _ _ _ _ e1 (skip_nil _) (by decide)] at h
  rcases hg : getnum value true with _ | ⟨mv, rest⟩
  · rw [parseStd_zeroMonth_none _ _ _ hg] at h
    dsimp only [parseState.init] at h
    rw [if_neg n2, if_pos rfl] at h
    simp at h
  · obtain ⟨m, hm, hv, _⟩ := getnum_fixed_some value mv rest hg
    subst hv
    by_cases hr : m = 0 ∨ 12 < m
    · rw [parseStd_zeroMonth_bad _ _ m hm hr] at h
      dsimp only at h
      rw [if_pos n1] at h
      simp at h
    · have h1 : 1 ≤ m := by omega
      have h12 : m ≤ 12 := by omega
      rw [parseStd_zeroMonth_ok _ _ m h1 h12] at h
      dsimp only [parseState.init] at h
      rw [if_neg n2, if_neg (by simp)] at h
      have hrl : rest.length = 2 + sp.length := by
        simp only [List.length_append, two_length] at hlen
        omega
      -- the separator
      obtain ⟨c, d, hsk, hrest⟩ : ∃ c d : Nat, skip rest sp = ([c, d], true) ∧
          rest = sp ++ [c, d] := by
        rcases hsp with hs | ⟨p, hp, hs⟩
        · subst hs
          rcases rest with _ | ⟨c, _ | ⟨d, _ | ⟨x, r⟩⟩⟩ <;> simp at hrl
          exact ⟨c, d, skip_nil _, rfl⟩
        · subst hs
          rcases rest with _ | ⟨x, _ | ⟨c, _ | ⟨d, _ | ⟨z, r⟩⟩⟩⟩ <;> simp at hrl
          by_cases hx : x = p
          · subst hx
            exact ⟨c, d, skip_sep x hp _, rfl⟩
          · exfalso
            have hf : skip (x :: [c, d]) [p] = (x :: [c, d], false) := by
              rw [skip_one p hp, if_pos hx]
            exact absurd (congrArg Prod.snd h)
              (parseLoop_skip_fail Local _ _ _ _ _ _ _ _ _ _ e2 hf)
      rw [parseLoop_step Local _ _ _ _ _ _ _ _ _ _ e2 hsk (by decide)] at h
      rcases ha : atoi [c, d] with _ | year
      · rw [parseStd_year_pair_none _ _ c d ha] at h
        dsimp only at h
        rw [if_neg n2, if_pos rfl] at h
        simp at h
      · rw [parseStd_year_pair_some _ _ c d year ha] at h
        dsimp only at h
        rw [if_neg n2, if_neg (by simp)] at h
        rw [parseLoop_end Local _ _ _ _ _ _ _ _ e3 (skip_nil _)] at h
        have hf := parseFinish_month_year Local layout (two m ++ rest) m h1 h12
          (if year ≥ 69 then year + 1900 else year + 2000)
        dsimp only [parseState.init] at hf
        rw [hf] at h
        simp only [Prod.mk.injEq, and_true] at h
        refine ⟨m, [c, d], if year ≥ 69 then year + 1900 else year + 2000, h1, h12, ?_, ?_, h.symm⟩
        · rw [hrest, List.append_assoc]
        · rcases atoi_pair c d year ha with ⟨y, hy, hcd, hyr⟩ | ⟨k, hk, hc, hd, hyr⟩ |
            ⟨k, hk, hc, hd, hyr⟩
          · exact Or.inl ⟨y, hy, hcd, by rw [hyr]⟩
          · refine Or.inr (Or.inl ⟨k, hk, by rw [hc, hd], ?_⟩)
            rw [hyr, if_neg (by omega)]
            omega
          · refine Or.inr (Or.inr ⟨k, hk, by rw [hc, hd], ?_⟩)
            rw [hyr, if_neg (by omega)]
            omega

theorem timeParser_short_inv (Local : Location) (layout sfx sp : GoString) (n : Nat)
    (hn : layout.length + 1 = n + 1 + 1 + 1)
    (e1 : nextStdChunk layout = ([], Std.stdZeroMonth, sfx))
    (e2 : nextStdChunk sfx = (sp, Std.stdYear, []))
    (hsp : sp = [] ∨ ∃ p, p ≠ 32 ∧ sp = [p])
    (value : GoString) (hlen : value.length = 4 + sp.length) (t : Time)
    (h : timeParser Local layout value = (t, Option.none)) :
    ∃ (m : Nat) (yf : GoString) (yr : Nat), 1 ≤ m ∧ m ≤ 12 ∧ value = two m ++ sp ++ yf ∧
      2001 ≤ yr ∧ yr ≤ 2050 ∧
      (yf = two (yr - 2000) ∨ (yr ≤ 2009 ∧ yf = [43, 48 + (yr - 2000)])) ∧
      t = Date yr m 1 0 0 0 0 UTC := by
  rcases hq : Parse Local layout value with ⟨t0, _ | err⟩
  · obtain ⟨m, yf, yr, h1, h12, hv, hyf, ht0⟩ :=
      parse_short_inv Local layout sfx sp n hn e1 e2 hsp value hlen t0 hq
    have hb : -1000000 ≤ yr ∧ yr ≤ 1000000 := by
      rcases hyf with ⟨y, hy, _, hyr⟩ | ⟨k, hk, _, hyr⟩ | ⟨k, hk, _, hyr⟩
      · rw [hyr]
        split <;> omega
      · omega
      · omega
    rw [ht0] at hq
    rw [timeParser_first_of_month Local layout value yr hb.1 hb.2 m h1 h12 hq] at h
    by_cases hw : 2001 ≤ yr ∧ yr ≤ 2050
    · rw [if_pos hw] at h
      simp only [Prod.mk.injEq, and_true] at h
      obtain ⟨Y, hY⟩ : ∃ Y : Nat, yr = (Y : Int) := ⟨yr.toNat, by omega⟩
      subst hY
      refine ⟨m, yf, Y, h1, h12, hv, by omega, by omega, ?_, h.symm⟩
      rcases hyf with ⟨y, hy, hyf, hyr⟩ | ⟨k, hk, hyf, hyr⟩ | ⟨k, hk, hyf, hyr⟩
      · left
        have : Y - 2000 = y := by
          split at hyr <;> omega
        rw [this, hyf]
      · right
        have : Y - 2000 = k := by omega
        rw [this, hyf]
        exact ⟨by omega, rfl⟩
      · omega
    · rw [if_neg hw] at h
      simp at h
  · unfold timeParser at h
    rw [hq] at h
    dsimp only at h
    split_ifs at h <;> simp at h

/-- C23: counterexample. The strings 01/+5, 01-+5 and 01+5, whose year
field is a plus sign and one digit, are accepted as January 2005. -/
theorem short_sign_accepted :
    ParseExpToTime localUTC (str "01/+5") = (Date 2005 1 1 0 0 0 0 UTC, Option.none) ∧
    ParseExpToTime localUTC (str "01-+5") = (Date 2005 1 1 0 0 0 0 UTC, Option.none) ∧
    ParseExpToTime localUTC (str "01+5") = (Date 2005 1 1 0 0 0 0 UTC, Option.none) := by
  exact ⟨rfl, rfl, rfl⟩

/-- C23, amended: every string of length 4 or 5 that ParseExpToTime accepts
consists of two decimal digits that make a month 01 .. 12, then for length 5
one separator, a slash or a minus sign, then a year field of two bytes that
is either two decimal digits 01 .. 50 or a plus sign followed by a digit
1 .. 9; the time returned is the first day of that month of the year 20YY,
respectively 2001 .. 2009. -/
theorem short_accepted_form (Local : Location) (s : GoString) (t : Time)
    (hl : s.length = 4 ∨ s.length = 5) (h : ParseExpToTime Local s = (t, Option.none)) :
    ∃ (m : Nat) (sp yf : GoString) (yr : Nat), 1 ≤ m ∧ m ≤ 12 ∧ s = two m ++ sp ++ yf ∧
      ((s.length = 4 ∧ sp = []) ∨ (s.length = 5 ∧ (sp = [47] ∨ sp = [45]))) ∧
      2001 ≤ yr ∧ yr ≤ 2050 ∧
      (yf = two (yr - 2000) ∨ (yr ≤ 2009 ∧ yf = [43, 48 + (yr - 2000)])) ∧
      t = Date yr m 1 0 0 0 0 UTC := by
  unfold ParseExpToTime at h
  rw [stringToTime_short Local s (by omega)] at h
  rcases hl with h4 | h5
  · rw [if_pos h4] at h
    obtain ⟨m, yf, yr, h1, h12, hv, hy1, hy2, hyf, ht⟩ :=
      timeParser_short_inv Local (str "0106") (str "06") [] 2 rfl (by decide) (by decide)
        (Or.inl rfl) s (by simp [h4]) t h
    exact ⟨m, [], yf, yr, h1, h12, hv, Or.inl ⟨h4, rfl⟩, hy1, hy2, hyf, ht⟩
  · rw [if_neg (by omega), if_neg (by omega)] at h
    by_cases hc : stringsContains s (str "/") = true
    · rw [if_pos ⟨h5, hc⟩] at h
      obtain ⟨m, yf, yr, h1, h12, hv, hy1, hy2, hyf, ht⟩ :=
        timeParser_short_inv Local (str "01/06") (str "/06") [47] 3 rfl (by decide) (by decide)
          (Or.inr ⟨47, by decide, rfl⟩) s (by simp [h5]) t h
      exact ⟨m, [47], yf, yr, h1, h12, hv, Or.inr ⟨h5, Or.inl rfl⟩, hy1, hy2, hyf, ht⟩
    · rw [if_neg (fun hh => hc hh.2)] at h
      by_cases hd : stringsContains s (str "-") = true
      · rw [if_pos ⟨h5, hd⟩] at h
        obtain ⟨m, yf, yr, h1, h12, hv, hy1, hy2, hyf, ht⟩ :=
          timeParser_short_inv Local (str "01-06") (str "-06") [45] 3 rfl (by decide) (by decide)
            (Or.inr ⟨45, by decide, rfl⟩) s (by simp [h5]) t h
        exact ⟨m, [45], yf, yr, h1, h12, hv, Or.inr ⟨h5, Or.inr rfl⟩, hy1, hy2, hyf, ht⟩
      · rw [if_neg (fun hh => hd hh.2), if_neg (by omega), if_neg (by omega)] at h
        simp at h

theorem short_accepted_form_witness :
    ∃ (m : Nat) (sp yf : GoString) (yr : Nat), 1 ≤ m ∧ m ≤ 12 ∧
      str "09/22" = two m ++ sp ++ yf ∧
      (((str "09/22").length = 4 ∧ sp = []) ∨
        ((str "09/22").length = 5 ∧ (sp = [47] ∨ sp = [45]))) ∧
      2001 ≤ yr ∧ yr ≤ 2050 ∧
      (yf = two (yr - 2000) ∨ (yr ≤ 2009 ∧ yf = [43, 48 + (yr - 2000)])) ∧
      (ParseExpToTime localUTC (str "09/22")).1 = Date yr m 1 0 0 0 0 UTC :=
  short_accepted_form localUTC (str "09/22") (ParseExpToTime localUTC (str "09/22")).1
    (Or.inr rfl) (Prod.ext rfl (by decide))

/-! ## Canonical strings and the agreement of the short layouts -/

theorem timeParser_month_or_first (Local : Location) (layout value le ve : GoString) (m : Nat)
    (yr : Int) (hy : -1000000 ≤ yr) (hy2 : yr ≤ 1000000)
    (h : Parse Local layout value =
      if m = 0 ∨ 12 < m then
        (Time.zero, some (newParseError layout value le ve (str ": month out of range")))
      else (Date yr m 1 0 0 0 0 UTC, Option.none)) :
    timeParser Local layout value =
      if m = 0 ∨ 12 < m then (Time.zero, some Err.ErrInvalidMonth)
      else if 2001 ≤ yr ∧ yr ≤ 2050 then (Date yr m 1 0 0 0 0 UTC, Option.none)
      else (Time.zero, some Err.ErrInvalidYear) := by
  by_cases hr : m = 0 ∨ 12 < m
  · rw [if_pos hr] at h ⊢
    exact timeParser_month_error Local layout value le ve h
  · rw [if_neg hr] at h ⊢
    exact timeParser_first_of_month Local layout value yr hy hy2 m (by omega) (by omega) h

/-- C25: for two-digit fields MM and YY, ParseExpToTime has one outcome on
MMYY, MM/YY and MM-YY: the zero time with ErrInvalidMonth when MM is 00 or
above 12, else the first day of the month at 00:00 UTC of the year 19YY (YY
from 69) or 20YY when that year is 2001 .. 2050, else the zero time with
ErrInvalidYear; for YY up to 68 it has that outcome on MM20YY, MM/20YY and
MM-20YY too. -/
theorem short_layouts_agree (Local : Location) (m y : Nat) (hm : m < 100) (hy : y < 100) :
    ParseExpToTime Local (two m ++ two y) =
      (if m = 0 ∨ 12 < m then (Time.zero, some Err.ErrInvalidMonth)
       else if 2001 ≤ (if (y : Int) ≥ 69 then (y : Int) + 1900 else (y : Int) + 2000) ∧
           (if (y : Int) ≥ 69 then (y : Int) + 1900 else (y : Int) + 2000) ≤ 2050 then
         (Date (if (y : Int) ≥ 69 then (y : Int) + 1900 else (y : Int) + 2000) m 1 0 0 0 0 UTC,
           Option.none)
       else (Time.zero, some Err.ErrInvalidYear)) ∧
    ParseExpToTime Local (two m ++ 47 :: two y) = ParseExpToTime Local (two m ++ two y) ∧
    ParseExpToTime Local (two m ++ 45 :: two y) = ParseExpToTime Local (two m ++ two y) ∧
    (y ≤ 68 →
      ParseExpToTime Local (two m ++ four (2000 + y)) = ParseExpToTime Local (two m ++ two y) ∧
      ParseExpToTime Local (two m ++ 47 :: four (2000 + y)) =
        ParseExpToTime Local (two m ++ two y) ∧
      ParseExpToTime Local (two m ++ 45 :: four (2000 + y)) =
        ParseExpToTime Local (two m ++ two y)) := by
  have hb : -1000000 ≤ (if (y : Int) ≥ 69 then (y : Int) + 1900 else (y : Int) + 2000) ∧
      (if (y : Int) ≥ 69 then (y : Int) + 1900 else (y : Int) + 2000) ≤ 1000000 := by
    split <;> omega
  have q1 := timeParser_month_or_first Local _ _ _ _ m _ hb.1 hb.2 (parse_0106 Local m y hm hy)
  have q2 := timeParser_month_or_first Local _ _ _ _ m _ hb.1 hb.2
    (parse_01_slash_06 Local m y hm hy)
  have q3 := timeParser_month_or_first Local _ _ _ _ m _ hb.1 hb.2
    (parse_01_dash_06 Local m y hm hy)
  unfold ParseExpToTime
  rw [stringToTime_MMYY, stringToTime_MM_slash_YY, stringToTime_MM_dash_YY, q1, q2, q3]
  refine ⟨rfl, rfl, rfl, ?_⟩
  intro h68
  have e : (if (y : Int) ≥ 69 then (y : Int) + 1900 else (y : Int) + 2000) =
      ((2000 + y : Nat) : Int) := by
    rw [if_neg (by omega)]
    push_cast
    omega
  rw [e]
  have q4 := timeParser_month_or_first Local _ _ _ _ m ((2000 + y : Nat) : Int) (by omega)
    (by omega) (parse_012006 Local m (2000 + y) hm (by omega))
  have q5 := timeParser_month_or_first Local _ _ _ _ m ((2000 + y : Nat) : Int) (by omega)
    (by omega) (parse_01_slash_2006 Local m (2000 + y) hm (by omega))
  have q6 := timeParser_month_or_first Local _ _ _ _ m ((2000 + y : Nat) : Int) (by omega)
    (by omega) (parse_01_dash_2006 Local m (2000 + y) hm (by omega))
  rw [stringToTime_MMYYYY, stringToTime_MM_slash_YYYY, stringToTime_MM_dash_YYYY, q4, q5, q6]
  exact ⟨rfl, rfl, rfl⟩

theorem short_layouts_agree_witness :
    (ParseExpToTime localUTC (str "09/22") = ParseExpToTime localUTC (str "0922") ∧
      ParseExpToTime localUTC (str "09-22") = ParseExpToTime localUTC (str "0922")) ∧
    (ParseExpToTime localUTC (str "092022") = ParseExpToTime localUTC (str "0922") ∧
      ParseExpToTime localUTC (str "09/2022") = ParseExpToTime localUTC (str "0922") ∧
      ParseExpToTime localUTC (str "09-2022") = ParseExpToTime localUTC (str "0922")) ∧
    ParseExpToTime localUTC (str "1322") = (Time.zero, some Err.ErrInvalidMonth) :=
  ⟨⟨(short_layouts_agree localUTC 9 22 (by decide) (by decide)).2.1,
      (short_layouts_agree localUTC 9 22 (by decide) (by decide)).2.2.1⟩,
    (short_layouts_agree localUTC 9 22 (by decide) (by decide)).2.2.2 (by decide),
    (short_layouts_agree localUTC 13 22 (by decide) (by decide)).1⟩

/-- C24: a string MM/YY with MM in 01 .. 12 and YY in 01 .. 50 is accepted by
CardDateFromString and is the String of the result; and for every string that
CardDateFromString accepts, the String of the result is accepted and gives
the first day, at 00:00:00 UTC, of the month and year of the result. -/
theorem canonical_fixed_point (Local : Location) :
    (∀ m y : Nat, 1 ≤ m → m ≤ 12 → 1 ≤ y → y ≤ 50 →
      (CardDateFromString Local (two m ++ 47 :: two y)).2 = Option.none ∧
      (CardDateFromString Local (two m ++ 47 :: two y)).1.Valid = true ∧
      (CardDateFromString Local (two m ++ 47 :: two y)).1.String = two m ++ 47 :: two y) ∧
    (∀ (s : GoString) (c : CardDate), CardDateFromString Local s = (c, Option.none) →
      CardDateFromString Local c.String =
        ({ Time := Date c.Time.Year c.Time.Month 1 0 0 0 0 UTC, Valid := true }, Option.none)) := by
  constructor
  · intro m y h1 h12 hy1 hy50
    have hp := parseExpToTime_MM_slash_YY Local m y h1 h12 (by omega)
    rw [if_pos ⟨hy1, hy50⟩] at hp
    have hc : CardDateFromString Local (two m ++ 47 :: two y) =
        ({ Time := Date (2000 + y : Nat) m 1 0 0 0 0 UTC, Valid := true }, Option.none) := by
      unfold CardDateFromString
      rw [hp]
    rw [hc]
    refine ⟨rfl, rfl, ?_⟩
    obtain ⟨⟨yd, hd⟩, _, _, _⟩ :=
      date_first_fields ((2000 + y : Nat) : Int) (by omega) (by omega) m h1 h12
    have hY : (Date (2000 + y : Nat) m 1 0 0 0 0 UTC).Year = ((2000 + y : Nat) : Int) := by
      unfold Time.Year
      rw [← absDate_year, hd]
    have hM : (Date (2000 + y : Nat) m 1 0 0 0 0 UTC).Month = (m : Int) := by
      unfold Time.Month
      rw [hd]
    unfold CardDate.String
    rw [if_pos rfl, format_0106, hY, hM]
    have e1 : ((m : Int)).toNat = m := by omega
    have e2 : (((2000 + y : Nat) : Int)).natAbs % 100 = y := by omega
    rw [e1, e2]
  · intro s c h
    unfold CardDateFromString at h
    rcases hq : ParseExpToTime Local s with ⟨t, _ | err⟩
    · rw [hq] at h
      simp only [Prod.mk.injEq, and_true] at h
      subst h
      have hw : t.loc = UTC ∧ invalidYearFrom < t.Year ∧ t.Year ≤ invalidYearTo := by
        unfold ParseExpToTime at hq
        rcases stringToTime_cases Local s with h0 | ⟨layout, h1⟩
        · rw [h0] at hq
          simp at hq
        · rw [h1] at hq
          exact timeParser_ok Local layout s t hq
      simp only [invalidYearFrom, invalidYearTo] at hw
      have hmr := time_month_range t
      have hs : ({ Time := t, Valid := true } : CardDate).String =
          two t.Month.toNat ++ 47 :: two (t.Year.natAbs % 100) := by
        unfold CardDate.String
        rw [if_pos rfl, format_0106]
      have hp := parseExpToTime_MM_slash_YY Local t.Month.toNat (t.Year.natAbs % 100) (by omega)
        (by omega) (by omega)
      rw [if_pos (by omega)] at hp
      have e1 : ((2000 + t.Year.natAbs % 100 : Nat) : Int) = t.Year := by omega
      have e2 : ((t.Month.toNat : Nat) : Int) = t.Month := by omega
      rw [e1, e2] at hp
      unfold CardDateFromString
      rw [hs, hp]
    · rw [hq] at h
      simp at h

theorem canonical_fixed_point_witness :
    ((CardDateFromString localUTC (two 9 ++ 47 :: two 22)).2 = Option.none ∧
      (CardDateFromString localUTC (two 9 ++ 47 :: two 22)).1.Valid = true ∧
      (CardDateFromString localUTC (two 9 ++ 47 :: two 22)).1.String = two 9 ++ 47 :: two 22) ∧
    two 9 ++ 47 :: two 22 = str "09/22" ∧
    CardDateFromString localUTC
        (CardDateFromString localUTC (str "2023-11-30T00:00:00Z")).1.String =
      ({ Time := Date (CardDateFromString localUTC (str "2023-11-30T00:00:00Z")).1.Time.Year
          (CardDateFromString localUTC (str "2023-11-30T00:00:00Z")).1.Time.Month 1 0 0 0 0 UTC,
         Valid := true }, Option.none) ∧
    (CardDateFromString localUTC (str "2023-11-30T00:00:00Z")).1.String = str "11/23" :=
  ⟨(canonical_fixed_point localUTC).1 9 22 (by decide) (by decide) (by decide) (by decide),
   by decide,
   (canonical_fixed_point localUTC).2 (str "2023-11-30T00:00:00Z")
     (CardDateFromString localUTC (str "2023-11-30T00:00:00Z")).1 (Prod.ext rfl (by decide)),
   by decide⟩

/-! ## GenerateCardDate -/

theorem month_start_of_day (day : Int) (k : Nat) (hk : k ≤ 11) (h1 : daysBefore (k : Int) ≤ day)
    (h2 : day < daysBefore ((k : Int) + 1)) :
    (if day ≥ daysBefore (day / 31 + 1) then (day / 31 + 1, daysBefore (day / 31 + 1))
      else (day / 31, daysBefore (day / 31))) = ((k : Int), daysBefore (k : Int)) := by
  interval_cases k <;> simp [daysBefore, daysBeforeTab] at h1 h2
  all_goals
    obtain ⟨q, hq⟩ : ∃ q : Nat, day / 31 = (q : Int) := ⟨(day / 31).toNat, by omega⟩
    have hq11 : q ≤ 11 := by omega
    rw [hq]
    interval_cases q <;> simp [daysBefore, daysBeforeTab] <;> omega

theorem daysBefore_facts (k : Nat) (hk : k ≤ 11) :
    0 ≤ daysBefore (k : Int) ∧ daysBefore (k : Int) ≤ 334 ∧
    daysBefore ((k : Int) + 1) - daysBefore (k : Int) ≥ 28 ∧
    (k ≤ 1 → daysBefore (k : Int) ≤ 31) ∧ (2 ≤ k → 59 ≤ daysBefore (k : Int)) := by
  interval_cases k <;> simp [daysBefore, daysBeforeTab]

theorem absDate_month_day (y : Int) (m d : Nat) (h1 : 1 ≤ m) (h12 : m ≤ 12) (hd1 : 1 ≤ d)
    (hd : d ≤ 28) (yd : Nat)
    (hyd : (yd : Int) = daysBefore ((m : Int) - 1) +
        (if (isLeap y && decide ((m : Int) ≥ 3)) = true then 1 else 0) + ((d : Int) - 1))
    (abs : Nat) (h : absYear abs = (y, yd)) :
    absDate abs = (y, (m : Int), (d : Int), (yd : Int)) := by
  obtain ⟨k, rfl⟩ : ∃ k : Nat, m = k + 1 := ⟨m - 1, by omega⟩
  have ek : ((k + 1 : Nat) : Int) - 1 = (k : Int) := by omega
  rw [ek] at hyd
  obtain ⟨f0, f1, f2, f3, f4⟩ := daysBefore_facts k (by omega)
  have hms := month_start_of_day (daysBefore (k : Int) + ((d : Int) - 1)) k (by omega) (by omega)
    (by omega)
  have e3 : daysBefore (k : Int) + ((d : Int) - 1) - daysBefore (k : Int) + 1 = (d : Int) := by
    omega
  unfold absDate
  rw [h]
  dsimp only
  cases hl : isLeap y
  · simp only [hl, Bool.false_and, Bool.false_eq_true, if_false] at hyd ⊢
    have e : (yd : Int) = daysBefore (k : Int) + ((d : Int) - 1) := by omega
    rw [e, hms]
    simp only [e3, Nat.cast_add, Nat.cast_one, Bool.false_eq_true, if_false]
  · by_cases h3 : ((k + 1 : Nat) : Int) ≥ 3
    · simp only [hl, Bool.true_and, h3, decide_True, if_true] at hyd
      have hk2 : 2 ≤ k := by omega
      have n1 : ¬ (((yd : Int) == 31 + 29 - 1) = true) := by
        simp only [beq_iff_eq]
        have := f4 hk2
        omega
      have n2 : (yd : Int) > 31 + 29 - 1 := by
        have := f4 hk2
        omega
      simp only [Bool.true_and, n1, if_false, n2, decide_True, if_true]
      have e : (yd : Int) - 1 = daysBefore (k : Int) + ((d : Int) - 1) := by omega
      rw [e, hms]
      simp only [e3, Nat.cast_add, Nat.cast_one, Bool.false_eq_true, if_false]
    · simp only [hl, Bool.true_and, h3, decide_False, Bool.false_eq_true, if_false] at hyd
      have hk1 : k ≤ 1 := by omega
      have n1 : ¬ (((yd : Int) == 31 + 29 - 1) = true) := by
        simp only [beq_iff_eq]
        have := f3 hk1
        omega
      have n2 : ¬ ((yd : Int) > 31 + 29 - 1) := by
        have := f3 hk1
        omega
      simp only [Bool.true_and, n1, if_false, n2, decide_False, Bool.false_eq_true]
      have e : (yd : Int) = daysBefore (k : Int) + ((d : Int) - 1) := by omega
      rw [e, hms]
      simp only [e3, Nat.cast_add, Nat.cast_one, Bool.false_eq_true, if_false]

theorem date_day_fields (y : Int) (hy : -292277022399 ≤ y) (hy2 : y ≤ 292277022399) (m d : Nat)
    (h1 : 1 ≤ m) (h12 : m ≤ 12) (hd1 : 1 ≤ d) (hd : d ≤ 28) :
    (∃ yd : Int, absDate (Date y m d 0 0 0 0 UTC).abs = (y, (m : Int), (d : Int), yd)) ∧
    absClock (Date y m d 0 0 0 0 UTC).abs = (0, 0, 0) ∧
    (Date y m d 0 0 0 0 UTC).nsec = 0 ∧ (Date y m d 0 0 0 0 UTC).loc = UTC := by
  rw [date_utc_normal y m d 0 0 0 0 (by omega) (by omega) (by omega) (by omega) (by omega)]
  obtain ⟨f0, f1, _, _, _⟩ := daysBefore_facts (m - 1) (by omega)
  have ek : (((m - 1 : Nat) : Nat) : Int) = (m : Int) - 1 := by omega
  rw [ek] at f0 f1
  have hlp : (0 : Int) ≤ (if (isLeap y && decide ((m : Int) ≥ 3)) = true then 1 else 0) ∧
      (if (isLeap y && decide ((m : Int) ≥ 3)) = true then (1 : Int) else 0) ≤ 1 := by
    split <;> omega
  obtain ⟨yd, hyd⟩ : ∃ yd : Nat, (yd : Int) = daysBefore ((m : Int) - 1) +
      (if (isLeap y && decide ((m : Int) ≥ 3)) = true then 1 else 0) + ((d : Int) - 1) :=
    ⟨(daysBefore ((m : Int) - 1) +
      (if (isLeap y && decide ((m : Int) ≥ 3)) = true then 1 else 0) + ((d : Int) - 1)).toNat,
      by omega⟩
  have hyd365 : yd < 365 := by omega
  have hx : ((daysSinceEpoch y : Int) + daysBefore ((m : Int) - 1) +
      (if (isLeap y && decide ((m : Int) ≥ 3)) = true then 1 else 0) + ((d : Int) - 1)) * 86400 +
      (0 * 3600 + 0 * 60 + 0) = (((daysSinceEpoch y + yd) * 86400 + 0 : Nat) : Int) := by
    push_cast
    omega
  rw [hx]
  have hb := daysSinceEpoch_eq y (by omega) (by omega)
  have habs : (unixTime (wrapInt64 ((((daysSinceEpoch y + yd) * 86400 + 0 : Nat) : Int) +
      (absoluteToInternal + internalToUnix))) 0).abs = (daysSinceEpoch y + yd) * 86400 + 0 := by
    have := time_abs_unixTime (((daysSinceEpoch y + yd) * 86400 + 0 : Nat) : Int) 0
      (by omega) (by omega)
    simpa using this
  rw [habs]
  refine ⟨⟨yd, ?_⟩, ?_, rfl, rfl⟩
  · exact absDate_month_day y m d h1 h12 hd1 hd yd hyd _
      (absYear_date_wide y hy hy2 yd 0 hyd365 (by omega))
  · simp [absClock]

/-- C26: with shouldBeNull true, GenerateCardDate returns the zero CardDate
and leaves the state of nextInt as it was, nextInt not being called; with
shouldBeNull false, when the first three calls of nextInt return the values
a, b and c, none of them negative, it returns the valid CardDate whose time
is year 2020 + a mod 60, month 1 + b mod 12, day 1 + c mod 25 at 00:00:00
UTC, the year lying in 2020 .. 2079, and the state after the third call. -/
theorem generateCardDate_spec {σ : Type} (nextInt : σ → Int × σ) (s0 s1 s2 s3 : σ)
    (fieldType : GoString) (a b c : Int)
    (h1 : nextInt s0 = (a, s1)) (h2 : nextInt s1 = (b, s2)) (h3 : nextInt s2 = (c, s3))
    (ha : 0 ≤ a) (hb : 0 ≤ b) (hc : 0 ≤ c) :
    GenerateCardDate nextInt s0 fieldType true = (CardDate.zero, s0) ∧
    GenerateCardDate nextInt s0 fieldType false =
      ({ Time := Date (2020 + a % 60) (1 + b % 12) (1 + c % 25) 0 0 0 0 UTC, Valid := true },
        s3) ∧
    (Date (2020 + a % 60) (1 + b % 12) (1 + c % 25) 0 0 0 0 UTC).Year = 2020 + a % 60 ∧
    (Date (2020 + a % 60) (1 + b % 12) (1 + c % 25) 0 0 0 0 UTC).Month = 1 + b % 12 ∧
    (Date (2020 + a % 60) (1 + b % 12) (1 + c % 25) 0 0 0 0 UTC).Day = 1 + c % 25 ∧
    absClock (Date (2020 + a % 60) (1 + b % 12) (1 + c % 25) 0 0 0 0 UTC).abs = (0, 0, 0) ∧
    (Date (2020 + a % 60) (1 + b % 12) (1 + c % 25) 0 0 0 0 UTC).nsec = 0 ∧
    (Date (2020 + a % 60) (1 + b % 12) (1 + c % 25) 0 0 0 0 UTC).loc = UTC ∧
    2020 ≤ 2020 + a % 60 ∧ 2020 + a % 60 ≤ 2079 := by
  have ea : goRem a 60 = a % 60 := by
    unfold goRem
    exact Int.tmod_eq_emod ha (by norm_num)
  have eb : goRem b 12 = b % 12 := by
    unfold goRem
    exact Int.tmod_eq_emod hb (by norm_num)
  have ec : goRem c 25 = c % 25 := by
    unfold goRem
    exact Int.tmod_eq_emod hc (by norm_num)
  obtain ⟨m, hm, hm1, hm12⟩ : ∃ m : Nat, 1 + b % 12 = (m : Int) ∧ 1 ≤ m ∧ m ≤ 12 :=
    ⟨(1 + b % 12).toNat, by omega, by omega, by omega⟩
  obtain ⟨d, hd, hd1, hd28⟩ : ∃ d : Nat, 1 + c % 25 = (d : Int) ∧ 1 ≤ d ∧ d ≤ 28 :=
    ⟨(1 + c % 25).toNat, by omega, by omega, by omega⟩
  obtain ⟨⟨yd, hf⟩, hclock, hn, hl⟩ :=
    date_day_fields (2020 + a % 60) (by omega) (by omega) m d hm1 hm12 hd1 hd28
  refine ⟨rfl, ?_, ?_, ?_, ?_, ?_, ?_, ?_, by omega, by omega⟩
  · unfold GenerateCardDate
    simp only [Bool.false_eq_true, if_false, h1, h2, h3, ea, eb, ec]
    rw [wrapInt64_id _ (by omega) (by omega), wrapInt64_id _ (by omega) (by omega),
      wrapInt64_id _ (by omega) (by omega)]
  · unfold Time.Year
    rw [← absDate_year, hm, hd, hf]
  · unfold Time.Month
    rw [hm, hd, hf]
  · unfold Time.Day
    rw [hm, hd, hf]
  · rw [hm, hd]
    exact hclock
  · rw [hm, hd]
    exact hn
  · rw [hm, hd]
    exact hl

theorem generateCardDate_spec_witness :
    GenerateCardDate (fun n : Nat => ((5 : Int), n + 1)) 0 (str "") false =
      ({ Time := Date (2020 + 5 % 60) (1 + 5 % 12) (1 + 5 % 25) 0 0 0 0 UTC, Valid := true }, 3) ∧
    (GenerateCardDate (fun n : Nat => ((5 : Int), n + 1)) 0 (str "") false).1.String =
      str "06/25" ∧
    (GenerateCardDate (fun n : Nat => ((5 : Int), n + 1)) 0 (str "") false).1.Time.Day = 6 ∧
    GenerateCardDate (fun n : Nat => ((5 : Int), n + 1)) 0 (str "") true = (CardDate.zero, 0) :=
  ⟨(generateCardDate_spec (fun n : Nat => ((5 : Int), n + 1)) 0 1 2 3 (str "") 5 5 5 rfl rfl rfl
      (by decide) (by decide) (by decide)).2.1,
   by decide, by decide,
   (generateCardDate_spec (fun n : Nat => ((5 : Int), n + 1)) 0 1 2 3 (str "") 5 5 5 rfl rfl rfl
      (by decide) (by decide) (by decide)).1⟩

end Null
